import Mathlib

/-!
Court booking client: attendance and booking handlers.

A shallow embedding of the decision logic of the booking client
(`UserBookingsPage.jsx`, `CalendarPage.jsx`, `WelcomePage.jsx`, `App.jsx` and
the earlier handler kept in `App - bkp3.jsx`) together with the properties that
its specification states about it.

Conventions of the embedding:

* user identifiers and text are `String`; a value that may be `null` or
  `undefined` in the source is an `Option`;
* a JavaScript `Set` is its list of members in insertion order (the order
  `Array.from` observes), without repetition;
* a handler that talks to the store takes the store's answer as an argument
  and returns the calls it issued, in order, next to the state it leaves.
-/

namespace Booking

/-! ## JavaScript `Set`, as used by `handleJoinLeaveBooking` -/

/-- The members of a JavaScript `Set`, in insertion order. -/
abbrev JSSet (α : Type) := List α

namespace JSSet

variable {α : Type} [DecidableEq α]

/-- Models `Set.prototype.add`: a value already present is left where it is,
a new value goes to the end of the insertion order. -/
def add (s : JSSet α) (x : α) : JSSet α :=
  if x ∈ s then s else s ++ [x]

/-- Models `Set.prototype.delete`: the entry equal to `x` is removed, the order
of the others is kept. -/
def delete (s : JSSet α) (x : α) : JSSet α :=
  s.filter (fun y => decide (y ≠ x))

/-- Models `new Set(iterable)`: the values are added one by one, left to right. -/
def ofArray (xs : List α) : JSSet α :=
  xs.foldl add []

/-- Models `Array.from(set)`: the members in insertion order. -/
def toArray (s : JSSet α) : List α := s

end JSSet

/-! ## `UserBookingsPage.jsx`: `handleJoinLeaveBooking` -/

/-- One `supabase.from(table).update({ players_attending }).eq('sessions_id', id)`
call: the table, the payload's only field and the key it filters on. -/
structure UpdateCall where
  table : String
  players_attending : List String
  sessions_id : Nat
  deriving DecidableEq, Repr, Inhabited

/-- What `handleJoinLeaveBooking` leaves behind: the update calls it issued,
the final `bookingMessage`, and whether it called `fetchBookings` to refresh. -/
structure JoinLeaveOutcome where
  calls : List UpdateCall
  bookingMessage : String
  refetched : Bool
  deriving DecidableEq, Repr, Inhabited

/-- The list that `handleJoinLeaveBooking` computes for `players_attending`
(source lines 68 to 77): the snapshot goes into a `Set` (`null` and `undefined`
as the empty array), the current user is added on `'join'` and deleted on any
other action, and the `Set` is turned back into an array. -/
def newPlayersAttendingArray (currentUserId : String)
    (currentPlayers : Option (List String)) (action : String) : List String :=
  let safeCurrentPlayers := JSSet.ofArray (currentPlayers.getD [])
  let safeCurrentPlayers :=
    if action = "join" then JSSet.add safeCurrentPlayers currentUserId
    else JSSet.delete safeCurrentPlayers currentUserId
  JSSet.toArray safeCurrentPlayers

/-- Embeds `handleJoinLeaveBooking(bookingId, currentPlayers, action)` of
`UserBookingsPage.jsx`. `store` is the answer of the store to the update:
`none` for success, `some m` for an error with message `m`. -/
def handleJoinLeaveBooking (currentUserId : String) (bookingId : Nat)
    (currentPlayers : Option (List String)) (action : String)
    (store : UpdateCall → Option String) : JoinLeaveOutcome :=
  let newPlayers := newPlayersAttendingArray currentUserId currentPlayers action
  let call : UpdateCall :=
    { table := "sessions", players_attending := newPlayers, sessions_id := bookingId }
  match store call with
  | some message =>
    { calls := [call]
      bookingMessage := "Failed to " ++ action ++ " booking: " ++ message
      refetched := false }
  | none =>
    { calls := [call]
      bookingMessage :=
        "Successfully " ++ (if action = "join" then "joined" else "left") ++ " the booking."
      refetched := true }

/-! ## JavaScript strings -/

/-- Models `String.prototype.padStart(targetLength, padChar)` for a one-character pad. -/
def padStart (s : String) (targetLength : Nat) (padChar : Char) : String :=
  String.mk (List.replicate (targetLength - s.length) padChar) ++ s

/-- Scanning loop of `split`: `skip` counts the characters of a matched separator
still to be dropped, `acc` holds the current piece in reverse. -/
def splitGo (sep : List Char) : List Char → Nat → List Char → List (List Char)
  | [], _, acc => [acc.reverse]
  | _ :: cs, skip + 1, acc => splitGo sep cs skip acc
  | c :: cs, 0, acc =>
    if sep.isPrefixOf (c :: cs) then acc.reverse :: splitGo sep cs (sep.length - 1) []
    else splitGo sep cs 0 (c :: acc)

/-- Models `String.prototype.split(separator)` for a non-empty string separator:
the pieces between the successive occurrences of the separator, left to right. -/
def jsSplit (s sep : String) : List String :=
  (splitGo sep.data s.data 0 []).map String.mk

/-- Models `Number.prototype.toString()` on a non-negative integer. -/
def natToString (n : Nat) : String := Nat.repr n

/-- Models `Number.prototype.toString()` on an integer. -/
def intToString (n : Int) : String :=
  if n < 0 then "-" ++ natToString n.natAbs else natToString n.toNat

/-- Order of two texts, character by character (a proper prefix comes first);
on ISO 8601 timestamps of one shape it is the order in time. -/
def textLe : List Char → List Char → Bool
  | [], _ => true
  | _ :: _, [] => false
  | a :: as, b :: bs =>
    if a.toNat < b.toNat then true
    else if b.toNat < a.toNat then false
    else textLe as bs

/-- Truthiness of a string that may be `null`: `null` and `''` are falsy. -/
def truthyString : Option String → Bool
  | none => false
  | some s => s != ""

/-! ## ECMAScript dates

Time values are integral milliseconds since the epoch, in UTC. The local time
zone is a fixed offset `tza` in milliseconds (`LocalTZA`), positive east of
Greenwich. The day arithmetic follows the abstract operations of the language
specification (`Day`, `DayFromYear`, `YearFromTime`, `MonthFromTime`,
`DateFromTime`, `MakeDay`, `MakeDate`), within the range of valid time values. -/

/-- A `Date` object: its time value, milliseconds since the epoch in UTC. -/
structure JSDate where
  t : Int
  deriving DecidableEq, Repr, Inhabited

/-- The constant `msPerDay`. -/
def msPerDay : Int := 86400000

/-- The operation `Day(t)`: the day number of a time value. -/
def day (t : Int) : Int := t / msPerDay

/-- The operation `TimeWithinDay(t)`: the milliseconds elapsed within the day. -/
def timeWithinDay (t : Int) : Int := t % msPerDay

/-- The operation `DaysInYear(y)`, by the Gregorian leap-year rule. -/
def daysInYear (y : Int) : Int :=
  if y % 4 ≠ 0 then 365
  else if y % 100 ≠ 0 then 366
  else if y % 400 ≠ 0 then 365
  else 366

/-- The operation `InLeapYear`, as 0 or 1. -/
def inLeapYear (y : Int) : Int := if daysInYear y = 366 then 1 else 0

/-- The operation `DayFromYear(y)`: the day number of the first day of year `y`. -/
def dayFromYear (y : Int) : Int :=
  365 * (y - 1970) + (y - 1969) / 4 - (y - 1901) / 100 + (y - 1601) / 400

/-- The operation `YearFromTime`, on day numbers: the largest `y` with `DayFromYear(y) ≤ d`,
found from the mean year length and corrected by at most one year. -/
def yearFromDay (d : Int) : Int :=
  let y := 1970 + (400 * d) / 146097
  if dayFromYear (y + 1) ≤ d then y + 1
  else if dayFromYear y ≤ d then y
  else y - 1

/-- The operation `DayWithinYear`, on day numbers. -/
def dayWithinYear (d : Int) : Int := d - dayFromYear (yearFromDay d)

/-- Day within the year on which month `m` (0 = January) starts. -/
def monthStart (m : Int) (leap : Int) : Int :=
  if m = 0 then 0
  else if m = 1 then 31
  else if m = 2 then 59 + leap
  else if m = 3 then 90 + leap
  else if m = 4 then 120 + leap
  else if m = 5 then 151 + leap
  else if m = 6 then 181 + leap
  else if m = 7 then 212 + leap
  else if m = 8 then 243 + leap
  else if m = 9 then 273 + leap
  else if m = 10 then 304 + leap
  else 334 + leap

/-- The operation `MonthFromTime`, on day numbers (0 = January). -/
def monthFromDay (d : Int) : Int :=
  let w := dayWithinYear d
  let leap := inLeapYear (yearFromDay d)
  if w < 31 then 0
  else if w < 59 + leap then 1
  else if w < 90 + leap then 2
  else if w < 120 + leap then 3
  else if w < 151 + leap then 4
  else if w < 181 + leap then 5
  else if w < 212 + leap then 6
  else if w < 243 + leap then 7
  else if w < 273 + leap then 8
  else if w < 304 + leap then 9
  else if w < 334 + leap then 10
  else 11

/-- The operation `DateFromTime`, on day numbers: the day of the month, from 1. -/
def dateFromDay (d : Int) : Int :=
  dayWithinYear d - monthStart (monthFromDay d) (inLeapYear (yearFromDay d)) + 1

/-- The operation `WeekDay`, on day numbers (0 = Sunday). -/
def weekDay (d : Int) : Int := (d + 4) % 7

/-- The operation `MakeDay(year, month, date)`: months outside 0..11 carry into the year and
the date counts on from the first of the month. -/
def makeDay (year month date : Int) : Int :=
  let ym := year + month / 12
  let mn := month % 12
  dayFromYear ym + monthStart mn (inLeapYear ym) + date - 1

/-- Models `new Date(year, month, date)`: local midnight of that calendar day,
converted to UTC. A year from 0 to 99 means 1900 + year. -/
def JSDate.ofLocal (tza : Int) (year month date : Int) : JSDate :=
  let yr := if 0 ≤ year ∧ year ≤ 99 then 1900 + year else year
  { t := makeDay yr month date * msPerDay - tza }

/-- Models `getFullYear()`. -/
def JSDate.getFullYear (tza : Int) (dt : JSDate) : Int := yearFromDay (day (dt.t + tza))

/-- Models `getMonth()`. -/
def JSDate.getMonth (tza : Int) (dt : JSDate) : Int := monthFromDay (day (dt.t + tza))

/-- Models `getDate()`. -/
def JSDate.getDate (tza : Int) (dt : JSDate) : Int := dateFromDay (day (dt.t + tza))

/-- Models `getDay()`. -/
def JSDate.getDay (tza : Int) (dt : JSDate) : Int := weekDay (day (dt.t + tza))

/-- The year field of `toISOString`: four digits from 0 to 9999, otherwise a
sign and six digits. -/
def isoYear (y : Int) : String :=
  if 0 ≤ y ∧ y ≤ 9999 then padStart (natToString y.toNat) 4 '0'
  else (if y < 0 then "-" else "+") ++ padStart (natToString y.natAbs) 6 '0'

/-- Two-digit field of `toISOString`. -/
def pad2 (n : Int) : String := padStart (natToString n.toNat) 2 '0'

/-- Models `Date.prototype.toISOString()`: the UTC fields of the time value as
`YYYY-MM-DDTHH:mm:ss.sssZ`. -/
def JSDate.toISOString (dt : JSDate) : String :=
  let d := day dt.t
  let ms := timeWithinDay dt.t
  isoYear (yearFromDay d) ++ "-" ++ pad2 (monthFromDay d + 1) ++ "-" ++ pad2 (dateFromDay d)
    ++ "T" ++ pad2 (ms / 3600000) ++ ":" ++ pad2 (ms / 60000 % 60) ++ ":" ++ pad2 (ms / 1000 % 60)
    ++ "." ++ padStart (natToString (ms % 1000).toNat) 3 '0' ++ "Z"

/-- The calendar date `year`-`month`-`date` (month 0 = January) as `YYYY-MM-DD`. -/
def formatYMD (year month date : Int) : String :=
  isoYear year ++ "-" ++ pad2 (month + 1) ++ "-" ++ pad2 date

/-! ## `CalendarPage.jsx` -/

/-- The `courts` constant of `CalendarPage`. -/
def courts : List String :=
  ["Court 1 (Badminton)", "Court 2 (Badminton)", "Court 3 (Tennis)", "Court 4 (Squash)"]

/-- Embeds `generateTimeSlots`: `hour` runs from 9 while `hour <= 21`, and each
pass pushes the string `start - end` of zero-padded hour labels. -/
def generateTimeSlots : List String :=
  (List.range' 9 (21 + 1 - 9)).map fun hour =>
    let startHour := hour
    let endHour := hour + 1
    let startTime := padStart (natToString startHour) 2 '0' ++ ":00"
    let endTime := padStart (natToString endHour) 2 '0' ++ ":00"
    startTime ++ " - " ++ endTime

/-- The row that `handleBookCourt` hands to `insert`. -/
structure NewSession where
  created_by : String
  court : String
  date_time : String
  location : String
  status : String
  players_attending : List String
  deriving DecidableEq, Repr, Inhabited

/-- One `supabase.from(table).insert(rows)` call. -/
structure InsertCall where
  table : String
  rows : List NewSession
  deriving DecidableEq, Repr, Inhabited

/-- The state of `CalendarPage` (its `useState` cells). -/
structure CalendarState where
  currentMonth : Int
  currentYear : Int
  selectedDate : Option JSDate
  selectedCourt : Option String
  selectedTimeSlot : Option String
  bookingMessage : String
  deriving DecidableEq, Repr, Inhabited

/-- The date that a click on day `i` of the displayed month selects
(`generateCalendarDays`, source line 47): `new Date(currentYear, currentMonth, i)`. -/
def calendarDate (tza : Int) (currentYear currentMonth i : Int) : JSDate :=
  JSDate.ofLocal tza currentYear currentMonth i

/-- Source line 114: `selectedDate.toISOString().split('T')[0]`. -/
def datePart (selectedDate : JSDate) : String :=
  (jsSplit selectedDate.toISOString "T").headD ""

/-- Source line 116: `selectedTimeSlot.split(' - ')[0]`. -/
def timePart (selectedTimeSlot : String) : String :=
  (jsSplit selectedTimeSlot " - ").headD ""

/-- Source line 119: the `date_time` text sent to the store. -/
def fullDateTime (selectedDate : JSDate) (selectedTimeSlot : String) : String :=
  datePart selectedDate ++ "T" ++ timePart selectedTimeSlot ++ ":00"

/-- The message of the `else` branch of `handleBookCourt`. -/
def selectionMessage : String := "Please select a date, a court, and a time slot to book."

/-- Embeds `handleBookCourt`. `userId` is `session.user.id`, `formatDisplay` is
the locale's `toLocaleDateString(undefined, options)`, and `store` is the answer
of the store to the insert (`none` for success, `some m` for an error with
message `m`). Returns the state left behind and the insert calls issued. -/
def handleBookCourt (userId : String) (formatDisplay : JSDate → String)
    (store : InsertCall → Option String) (st : CalendarState) :
    CalendarState × List InsertCall :=
  match st.selectedDate with
  | some selectedDate =>
    if truthyString st.selectedCourt && truthyString st.selectedTimeSlot then
      let selectedCourt := st.selectedCourt.getD ""
      let selectedTimeSlot := st.selectedTimeSlot.getD ""
      let formattedDateDisplay := formatDisplay selectedDate
      let call : InsertCall :=
        { table := "sessions"
          rows := [{ created_by := userId
                     court := selectedCourt
                     date_time := fullDateTime selectedDate selectedTimeSlot
                     location := "Wanstead Leisure Centre"
                     status := "Booked"
                     players_attending := [userId] }] }
      match store call with
      | some message =>
        ({ st with bookingMessage := "Failed to book court: " ++ message }, [call])
      | none =>
        ({ st with bookingMessage :=
            "Successfully booked " ++ selectedCourt ++ " on " ++ formattedDateDisplay
              ++ " at " ++ selectedTimeSlot ++ "!" }, [call])
    else ({ st with bookingMessage := selectionMessage }, [])
  | none => ({ st with bookingMessage := selectionMessage }, [])

/-! ## `UserBookingsPage.jsx`: the listing query of `fetchBookings` -/

/-- Source lines 33 to 37 of `fetchBookings`: today's local calendar date as
`year-MM-DD`. -/
def todayFormatted (tza : Int) (today : JSDate) : String :=
  let year := today.getFullYear tza
  let month := padStart (intToString (today.getMonth tza + 1)) 2 '0'
  let day := padStart (intToString (today.getDate tza)) 2 '0'
  intToString year ++ "-" ++ month ++ "-" ++ day

/-! ## The store

The store is the external collaborator; its behaviour on the query shapes the
client uses is taken from the specification of the Session Repository. -/

/-- A record of the `sessions` collection. -/
structure Session where
  sessions_id : Nat
  location : String
  court : String
  date_time : String
  created_by : String
  players_attending : Option (List String)
  status : String
  deriving DecidableEq, Repr, Inhabited

/-- The `sessions` collection. -/
abbrev Store := List Session

/-- Modelled from the spec: the store's `create`, which is not part of the
client. It inserts a new record with an identifier assigned by the store. -/
def Store.create (store : Store) (row : NewSession) : Store :=
  store ++ [{ sessions_id := (store.map Session.sessions_id).foldl max 0 + 1
              location := row.location
              court := row.court
              date_time := row.date_time
              created_by := row.created_by
              players_attending := some row.players_attending
              status := row.status }]

/-- The effect of an accepted insert call: its rows are created in order. -/
def Store.insert (store : Store) (call : InsertCall) : Store :=
  call.rows.foldl Store.create store

/-- Modelled from the spec: the store's `updateAttendees`, which is not part of
the client. It overwrites the `attendees` field of the record identified by
the key, a whole-field replace. -/
def Store.update (store : Store) (call : UpdateCall) : Store :=
  store.map fun s =>
    if s.sessions_id = call.sessions_id then
      { s with players_attending := some call.players_attending }
    else s

/-- Modelled from the spec: the store's `listUpcoming`, which is not part of
the client. It returns the sessions whose start time is at or after `fromDate`,
in ascending order of start time; timestamps are compared as ISO 8601 text. -/
def Store.listUpcoming (store : Store) (fromDate : String) : List Session :=
  (store.filter fun s => textLe fromDate.data s.date_time.data).insertionSort
    (fun a b => textLe a.date_time.data b.date_time.data = true)

/-- Two join requests against one session, each computed from the same
`snapshot`, both accepted, their updates reaching the store one after the
other (first the one of `userA`, then the one of `userB`). -/
def joinTwice (store : Store) (bookingId : Nat) (snapshot : Option (List String))
    (userA userB : String) : Store :=
  let outA := handleJoinLeaveBooking userA bookingId snapshot "join" (fun _ => none)
  let outB := handleJoinLeaveBooking userB bookingId snapshot "join" (fun _ => none)
  (outA.calls ++ outB.calls).foldl Store.update store

/-- A booking made from the calendar state `st` and accepted by the store,
followed by the listing that `fetchBookings` asks for when the clock reads
`today`: the accepted inserts are applied to `store` and the result is listed
from `todayFormatted` on. -/
def bookThenList (tza : Int) (store : Store) (userId : String) (st : CalendarState)
    (today : JSDate) : List Session :=
  let calls := (handleBookCourt userId (fun _ => "") (fun _ => none) st).2
  (calls.foldl Store.insert store).listUpcoming (todayFormatted tza today)

/-! ## More of the JavaScript string library -/

/-- Models `String.prototype.startsWith(searchString)`. -/
def startsWith (s searchString : String) : Bool :=
  searchString.data.isPrefixOf s.data

/-- Models `String.prototype.toLowerCase()`: the letters `A` to `Z` become `a`
to `z`; every other character is kept (court labels are plain ASCII text). -/
def toLowerCase (s : String) : String :=
  String.mk (s.data.map Char.toLower)

/-- Scanning loop of `includes`: is `pat` a prefix of the text at some position? -/
def includesGo (pat : List Char) : List Char → Bool
  | [] => pat.isPrefixOf []
  | c :: cs => pat.isPrefixOf (c :: cs) || includesGo pat cs

/-- Models `String.prototype.includes(searchString)`. -/
def includes (s searchString : String) : Bool :=
  includesGo searchString.data s.data

/-- The white space and line terminator characters that `trim` strips. -/
def isJSWhiteSpace (c : Char) : Bool :=
  let n := c.toNat
  n = 0x09 || n = 0x0A || n = 0x0B || n = 0x0C || n = 0x0D || n = 0x20 || n = 0xA0
    || n = 0x1680 || (0x2000 ≤ n && n ≤ 0x200A) || n = 0x2028 || n = 0x2029
    || n = 0x202F || n = 0x205F || n = 0x3000 || n = 0xFEFF

/-- Models `String.prototype.trim()`: leading and trailing white space removed. -/
def trim (s : String) : String :=
  String.mk ((s.data.dropWhile isJSWhiteSpace).reverse.dropWhile isJSWhiteSpace).reverse

/-- Truthiness of a string: only `''` is falsy. -/
def truthy (s : String) : Bool := s != ""

/-- Models `a || b` on values that are a string, `null` or `undefined`. -/
def orElse (a b : Option String) : Option String :=
  if truthyString a then a else b

/-! ## Control flow of the asynchronous handlers

A handler body either runs to its end, leaves through `return`, or throws an
error; `catch` and `finally` act on these three ways out. An error is known by
its `message`. -/

/-- How a block of statements ends, and the value (state and calls) it has
reached by then. -/
inductive Completion (ρ : Type) where
  | normal (r : ρ)
  | returned (r : ρ)
  | thrown (message : String) (r : ρ)
  deriving DecidableEq, Repr

/-- The value reached when the block ended. -/
def Completion.result {ρ : Type} : Completion ρ → ρ
  | .normal r => r
  | .returned r => r
  | .thrown _ r => r

/-- Models `try { body } catch (error) { handler }`. -/
def tryCatch {ρ : Type} (body : Completion ρ) (handler : String → ρ → Completion ρ) :
    Completion ρ :=
  match body with
  | .thrown message r => handler message r
  | c => c

/-- Models `try { ... } finally { cleanup }` for a cleanup that itself runs to
its end: it runs on every way out, which it then leaves as it was. -/
def andFinally {ρ : Type} (c : Completion ρ) (cleanup : ρ → ρ) : Completion ρ :=
  match c with
  | .normal r => .normal (cleanup r)
  | .returned r => .returned (cleanup r)
  | .thrown message r => .thrown message (cleanup r)

/-- The answer to an awaited store or auth request: data, an `error` object
returned next to `null` data, or a rejection (the `await` throws). -/
inductive Response (α : Type) where
  | ok (data : α)
  | error (message : String)
  | rejected (message : String)
  deriving DecidableEq, Repr

/-- Whether the awaited request came back with data and no error. -/
def Response.isOk {α : Type} : Response α → Bool
  | .ok _ => true
  | .error _ => false
  | .rejected _ => false

/-- A state together with the requests sent so far, oldest first. -/
structure Run (σ κ : Type) where
  state : σ
  calls : List κ
  deriving DecidableEq, Repr

/-- The signed-in user as the pages read it: `session?.user?.id`,
`session.user.email` and `session?.user?.user_metadata?.user_type`; a missing
session or user reads as all three missing. -/
structure AuthUser where
  id : Option String
  email : Option String
  user_type : Option String
  deriving DecidableEq, Repr, Inhabited

/-- One `supabase.from(table).select(columns).gte(column, value).order(column,
{ ascending })` query. -/
structure SelectCall where
  table : String
  columns : String
  gteColumn : String
  gteValue : String
  orderColumn : String
  ascending : Bool
  deriving DecidableEq, Repr, Inhabited


/-! ## Plain objects used as maps -/

/-- A plain object whose properties hold a string, `null` or `undefined`
(`none`), as its list of own properties in insertion order. The keys are user
identifiers; none of them names a member of `Object.prototype`. -/
abbrev JSObject := List (String × Option String)

/-- Models the assignment `map[key] = value`: an existing property is
overwritten in place, a new one is added last. -/
def JSObject.set : JSObject → String → Option String → JSObject
  | [], key, value => [(key, value)]
  | (k, v) :: rest, key, value =>
    if k = key then (k, value) :: rest else (k, v) :: JSObject.set rest key value

/-- Models the read `map[key]`: `undefined` (`none`) when there is no such property. -/
def JSObject.get : JSObject → String → Option String
  | [], _ => none
  | (k, v) :: rest, key => if k = key then v else JSObject.get rest key

/-! ## `UserBookingsPage.jsx`: `fetchBookings` -/

/-- The state of `UserBookingsPage` (its `useState` cells). -/
structure UserBookingsState where
  bookings : List Session
  loadingBookings : Bool
  bookingMessage : String
  allUsersMap : JSObject
  deriving DecidableEq, Repr

namespace UserBookingsPage

/-- The query of `fetchBookings` (source lines 40 to 44). -/
def bookingsQuery (todayFormatted : String) : SelectCall :=
  { table := "sessions"
    columns := "sessions_id, location, court, date_time, created_by, players_attending"
    gteColumn := "date_time"
    gteValue := todayFormatted
    orderColumn := "date_time"
    ascending := true }

/-- Embeds `fetchBookings` of `UserBookingsPage.jsx`. `store` is the answer to
the query and `today` is what `new Date()` reads. -/
def fetchBookings (tza : Int) (today : JSDate) (store : SelectCall → Response (List Session))
    (st : UserBookingsState) : Completion (Run UserBookingsState SelectCall) :=
  let st := { st with loadingBookings := true }
  andFinally
    (tryCatch
      (let query := bookingsQuery (todayFormatted tza today)
       match store query with
       | .ok data => .normal ⟨{ st with bookings := data }, [query]⟩
       | .error message => .thrown message ⟨st, [query]⟩
       | .rejected message => .thrown message ⟨st, [query]⟩)
      (fun message r =>
        .normal ⟨{ r.state with
                    bookingMessage := "Error fetching bookings: " ++ message
                    bookings := [] }, r.calls⟩))
    (fun r => ⟨{ r.state with loadingBookings := false }, r.calls⟩)

/-- The style test of the message banner (source line 124): red when it holds,
green otherwise. -/
def messageIsFailure (bookingMessage : String) : Bool :=
  startsWith bookingMessage "Error" || startsWith bookingMessage "Failed"

end UserBookingsPage

/-! ## `App - bkp3.jsx`: the earlier `handleJoinLeaveBooking` -/

namespace Legacy

/-- Embeds `handleJoinLeaveBooking` of `App - bkp3.jsx` (source lines 84 to 128):
the snapshot is tested with `includes`; a join of a user already in it and a
leave of a user not in it set a message and return before any update. -/
def handleJoinLeaveBooking (currentUserId : String) (bookingId : Nat)
    (currentPlayers : Option (List String)) (action : String)
    (store : UpdateCall → Option String) : JoinLeaveOutcome :=
  let safeCurrentPlayers := currentPlayers.getD []
  let send (newPlayersAttending : List String) : JoinLeaveOutcome :=
    let call : UpdateCall :=
      { table := "sessions", players_attending := newPlayersAttending, sessions_id := bookingId }
    match store call with
    | some message =>
      { calls := [call]
        bookingMessage := "Failed to " ++ action ++ " booking: " ++ message
        refetched := false }
    | none =>
      { calls := [call]
        bookingMessage :=
          "Successfully " ++ (if action = "join" then "joined" else "left") ++ " the booking."
        refetched := true }
  if action = "join" then
    if ¬ currentUserId ∈ safeCurrentPlayers then
      send (safeCurrentPlayers ++ [currentUserId])
    else
      { calls := [], bookingMessage := "You are already attending this booking."
        refetched := false }
  else
    if currentUserId ∈ safeCurrentPlayers then
      send (safeCurrentPlayers.filter fun id => decide (id ≠ currentUserId))
    else
      { calls := [], bookingMessage := "You are not currently attending this booking."
        refetched := false }

end Legacy

/-! ## `CalendarPage.jsx`: the style test of the message -/

namespace CalendarPage

/-- The style test of the booking message (source line 261): green when it
holds, red otherwise. -/
def messageIsSuccess (bookingMessage : String) : Bool :=
  startsWith bookingMessage "Successfully"

end CalendarPage

/-! ## `WelcomePage.jsx` -/

/-- A record of the `users` collection as selected by `'user_id, name'`. -/
structure UserRow where
  user_id : String
  name : Option String
  deriving DecidableEq, Repr, Inhabited

/-- The row that `handleNameSubmit` hands to `insert`. -/
structure NewUser where
  user_id : String
  name : String
  deriving DecidableEq, Repr, Inhabited

/-- One `supabase.from(table).delete().eq('sessions_id', id)` call. -/
structure DeleteCall where
  table : String
  sessions_id : Nat
  deriving DecidableEq, Repr, Inhabited

/-- The requests that `WelcomePage` sends to the store. -/
inductive WelcomeCall where
  | selectUsers (table : String) (columns : String)
  | selectSessions (query : SelectCall)
  | deleteSession (call : DeleteCall)
  | insertUser (table : String) (rows : List NewUser)
  deriving DecidableEq, Repr

/-- The state of `WelcomePage` (its `useState` cells). -/
structure WelcomeState where
  badmintonBookings : List Session
  tennisBookings : List Session
  allBookingsForAdmin : List Session
  loadingBookings : Bool
  allUsersMap : JSObject
  cancelMessage : String
  showNameInput : Bool
  userName : String
  deriving DecidableEq, Repr

/-- Source lines 92, 164 and 240: the sessions whose court, in lower case,
includes `badminton`. -/
def badminton (data : List Session) : List Session :=
  data.filter fun item => includes (toLowerCase item.court) "badminton"

/-- Source lines 93, 165 and 241: the sessions whose court, in lower case,
includes `tennis`. -/
def tennis (data : List Session) : List Session :=
  data.filter fun item => includes (toLowerCase item.court) "tennis"

namespace WelcomePage

/-- The sessions query of `WelcomePage` (source lines 75 to 86, and again in
`handleCancelBooking` and `handleNameSubmit`). -/
def sessionsQuery (todayFormatted : String) : SelectCall :=
  { table := "sessions"
    columns := "sessions_id, location, court, date_time, created_by"
    gteColumn := "date_time"
    gteValue := todayFormatted
    orderColumn := "date_time"
    ascending := true }

/-- Source lines 37 to 41: the id-to-name map built from the fetched users. -/
def buildUsersMap (session : AuthUser) (usersData : List UserRow) : JSObject :=
  usersData.foldl (fun map user => map.set user.user_id (orElse user.name session.email)) []

/-- Embeds `fetchAllUsersAndCheckCurrentUser`. `users` is the answer to the
`select('user_id, name')` on `users`; its data may be `null`. -/
def fetchAllUsersAndCheckCurrentUser (session : AuthUser)
    (users : Response (Option (List UserRow))) (st : WelcomeState) :
    Completion (Run WelcomeState WelcomeCall) :=
  match session.id with
  | none => .returned ⟨st, []⟩
  | some id =>
    if id = "" then .returned ⟨st, []⟩
    else
      let call := WelcomeCall.selectUsers "users" "user_id, name"
      match users with
      | .rejected message => .thrown message ⟨st, [call]⟩
      | .error _ => .returned ⟨st, [call]⟩
      | .ok none => .normal ⟨st, [call]⟩
      | .ok (some usersData) =>
        let map := buildUsersMap session usersData
        let st := { st with allUsersMap := map }
        if ¬ truthyString (map.get id) then
          .normal ⟨{ st with showNameInput := true }, [call]⟩
        else
          .normal ⟨{ st with userName := (map.get id).getD "" }, [call]⟩

/-- Embeds `fetchBookings` of `WelcomePage.jsx`. -/
def fetchBookings (session : AuthUser) (tza : Int) (today : JSDate)
    (store : SelectCall → Response (List Session)) (st : WelcomeState) :
    Completion (Run WelcomeState WelcomeCall) :=
  let st := { st with loadingBookings := true }
  andFinally
    (tryCatch
      (if ¬ truthyString session.id then
         .returned ⟨{ st with loadingBookings := false }, []⟩
       else
         let query := sessionsQuery (todayFormatted tza today)
         match store query with
         | .ok data =>
           .normal ⟨{ st with
                       badmintonBookings := badminton data
                       tennisBookings := tennis data
                       allBookingsForAdmin := data }, [.selectSessions query]⟩
         | .error message => .thrown message ⟨st, [.selectSessions query]⟩
         | .rejected message => .thrown message ⟨st, [.selectSessions query]⟩)
      (fun _ r =>
        .normal ⟨{ r.state with
                    badmintonBookings := []
                    tennisBookings := []
                    allBookingsForAdmin := [] }, r.calls⟩))
    (fun r => ⟨{ r.state with loadingBookings := false }, r.calls⟩)

/-- Source lines 132 to 169 (and 209 to 245): the lists are fetched again and
set; an error of the query is thrown on. -/
def refetch (tza : Int) (today : JSDate) (store : SelectCall → Response (List Session))
    (r : Run WelcomeState WelcomeCall) : Completion (Run WelcomeState WelcomeCall) :=
  let query := sessionsQuery (todayFormatted tza today)
  let calls := r.calls ++ [.selectSessions query]
  match store query with
  | .ok data =>
    .normal ⟨{ r.state with
                badmintonBookings := badminton data
                tennisBookings := tennis data
                allBookingsForAdmin := data }, calls⟩
  | .error message => .thrown message ⟨r.state, calls⟩
  | .rejected message => .thrown message ⟨r.state, calls⟩

/-- Embeds `handleCancelBooking(bookingId)`. `del` is the answer to the delete
and `store` the answer to the query that follows it. -/
def handleCancelBooking (tza : Int) (today : JSDate) (del : DeleteCall → Response Unit)
    (store : SelectCall → Response (List Session)) (bookingId : Nat) (st : WelcomeState) :
    Completion (Run WelcomeState WelcomeCall) :=
  let st := { st with cancelMessage := "" }
  tryCatch
    (let call : DeleteCall := { table := "sessions", sessions_id := bookingId }
     match del call with
     | .error message => .thrown message ⟨st, [.deleteSession call]⟩
     | .rejected message => .thrown message ⟨st, [.deleteSession call]⟩
     | .ok _ =>
       refetch tza today store
         ⟨{ st with cancelMessage := "Booking cancelled successfully!" }, [.deleteSession call]⟩)
    (fun message r =>
      .normal ⟨{ r.state with cancelMessage := "Failed to cancel booking: " ++ message }, r.calls⟩)

/-- Embeds `handleNameSubmit`. `ins` is the answer to the insert into `users`
and `store` the answer to the sessions query that follows it. -/
def handleNameSubmit (session : AuthUser) (tza : Int) (today : JSDate)
    (ins : List NewUser → Response Unit) (store : SelectCall → Response (List Session))
    (st : WelcomeState) : Completion (Run WelcomeState WelcomeCall) :=
  if ¬ truthy (trim st.userName) then
    .returned ⟨{ st with cancelMessage := "Please enter your name." }, []⟩
  else
    match session.id with
    | none =>
      .returned ⟨{ st with cancelMessage := "User session not found. Please try logging in again." }, []⟩
    | some id =>
      if id = "" then
        .returned
          ⟨{ st with cancelMessage := "User session not found. Please try logging in again." }, []⟩
      else
        tryCatch
          (let rows : List NewUser := [{ user_id := id, name := trim st.userName }]
           match ins rows with
           | .error message => .thrown message ⟨st, [.insertUser "users" rows]⟩
           | .rejected message => .thrown message ⟨st, [.insertUser "users" rows]⟩
           | .ok _ =>
             refetch tza today store
               ⟨{ st with
                   allUsersMap := st.allUsersMap.set id (some (trim st.userName))
                   showNameInput := false
                   cancelMessage := "Name saved successfully!" }, [.insertUser "users" rows]⟩)
          (fun message r =>
            .normal ⟨{ r.state with cancelMessage := "Failed to save name: " ++ message }, r.calls⟩)

/-- The style test of the message banner (source lines 261 and 389): red when
it holds, green otherwise. -/
def messageIsFailure (cancelMessage : String) : Bool :=
  startsWith cancelMessage "Failed"

end WelcomePage

/-! ## `App.jsx`: `handleLogout` -/

/-- The state of `App` (its `useState` cells). -/
structure AppState where
  session : Option AuthUser
  loading : Bool
  view : String
  deriving DecidableEq, Repr

/-- The requests that `App` sends to the auth service from `handleLogout`. -/
inductive AuthCall where
  | signOut
  deriving DecidableEq, Repr

/-- Embeds `handleLogout`. `signOut` is the answer of `supabase.auth.signOut()`. -/
def handleLogout (signOut : Response Unit) (st : AppState) : Completion (Run AppState AuthCall) :=
  andFinally
    (tryCatch
      (let st := { st with loading := true }
       match signOut with
       | .error message => .thrown message ⟨st, [.signOut]⟩
       | .rejected message => .thrown message ⟨st, [.signOut]⟩
       | .ok _ => .normal ⟨{ st with session := none, view := "welcome" }, [.signOut]⟩)
      (fun _ r => .normal r))
    (fun r => ⟨{ r.state with loading := false }, r.calls⟩)

/-- Modelled from the spec: the store's `delete`, which is not part of the
client. It removes the record identified by the key. -/
def Store.delete (store : Store) (call : DeleteCall) : Store :=
  store.filter fun s => decide (s.sessions_id ≠ call.sessions_id)

/-! ## Reading the claims: slot labels and case-blind containment -/

/-- The number written by a list of decimal digits, if they all are digits. -/
def digitsValue (cs : List Char) : Option Nat :=
  cs.foldl
    (fun acc c => acc.bind fun n => if c.isDigit then some (n * 10 + (c.toNat - 48)) else none)
    (some 0)

/-- The minute of the day that a label `HH:MM` names. -/
def labelMinutes (label : String) : Option Nat :=
  match jsSplit label ":" with
  | [hh, mm] =>
    if hh.length = 2 ∧ mm.length = 2 then
      (digitsValue hh.data).bind fun h => (digitsValue mm.data).map fun m => h * 60 + m
    else none
  | _ => none

/-- The start label of a slot text: the part before ` - `. -/
def slotStart (slot : String) : String := (jsSplit slot " - ").headD ""

/-- The end label of a slot text: the part after ` - `. -/
def slotEnd (slot : String) : String := (jsSplit slot " - ").getD 1 ""

/-- The text `label` contains the word `word` when letter case is ignored: some
stretch of `label` agrees with `word`, letter by letter, up to case. -/
def ContainsIgnoringCase (word label : String) : Prop :=
  ∃ w : List Char, w <:+: label.data ∧
    List.Forall₂ (fun a b => a.toLower = b.toLower) w word.data


/-! ## Display names -/

/-- Source `allUsersMap[id] || id` (`UserBookingsPage.jsx` line 137, `WelcomePage.jsx`
lines 332, 356 and 404): the entry of the map when it is a non-empty string,
the identifier itself otherwise. -/
def displayName (allUsersMap : JSObject) (id : String) : String :=
  match allUsersMap.get id with
  | some name => if name != "" then name else id
  | none => id

/-- Models `Array.prototype.join(separator)` on an array of strings. -/
def jsJoin (separator : String) : List String → String
  | [] => ""
  | [x] => x
  | x :: y :: rest => x ++ separator ++ jsJoin separator (y :: rest)

/-- One `supabase.from(table).select(columns)` query. -/
structure UsersQuery where
  table : String
  columns : String
  deriving DecidableEq, Repr, Inhabited

namespace UserBookingsPage

/-- Embeds `fetchAllUsers` (source lines 14 to 26): the map is rebuilt from the
fetched users and set only when data came back; the rows carry `user_id` and
`name`, so `user.email` reads `undefined`. -/
def fetchAllUsers (users : Response (Option (List UserRow))) (st : UserBookingsState) :
    Completion (Run UserBookingsState UsersQuery) :=
  let call : UsersQuery := { table := "users", columns := "user_id, name" }
  match users with
  | .rejected message => .thrown message ⟨st, [call]⟩
  | .error _ => .normal ⟨st, [call]⟩
  | .ok none => .normal ⟨st, [call]⟩
  | .ok (some usersData) =>
    let map : JSObject :=
      usersData.foldl (fun map user => map.set user.user_id (orElse user.name none)) []
    .normal ⟨{ st with allUsersMap := map }, [call]⟩

/-- Source line 135: `booking.players_attending || []`. -/
def currentAttendingPlayers (booking : Session) : List String :=
  booking.players_attending.getD []

/-- Source lines 136 to 138: the names shown after `Attending:`. -/
def attendingNames (allUsersMap : JSObject) (booking : Session) : String :=
  jsJoin ", " ((currentAttendingPlayers booking).map fun id => displayName allUsersMap id)

/-- Source line 141: `currentAttendingPlayers.includes(currentUserId)`; an
`undefined` user id is in no list of identifiers. -/
def isAttending (currentUserId : Option String) (booking : Session) : Bool :=
  match currentUserId with
  | some u => decide (u ∈ currentAttendingPlayers booking)
  | none => false

/-- The arguments with which a click on the button of a booking calls
`handleJoinLeaveBooking`. -/
structure JoinLeaveClick where
  bookingId : Nat
  currentPlayers : Option (List String)
  action : String
  deriving DecidableEq, Repr, Inhabited

/-- Source lines 161 to 179: the button rendered for a booking, as the call
that its `onClick` makes; no button when no user is signed in. -/
def joinLeaveButton (currentUserId : Option String) (booking : Session) :
    Option JoinLeaveClick :=
  if truthyString currentUserId then
    if isAttending currentUserId booking then
      some { bookingId := booking.sessions_id, currentPlayers := booking.players_attending
             action := "leave" }
    else
      some { bookingId := booking.sessions_id, currentPlayers := booking.players_attending
             action := "join" }
  else none

end UserBookingsPage

namespace WelcomePage

/-- Source line 15: `session?.user?.user_metadata?.user_type === 'Admin'`. -/
def isAdmin (session : AuthUser) : Bool :=
  session.user_type == some "Admin"

/-- The cancel buttons that the page renders, as the booking ids their
`onClick` passes to `handleCancelBooking` (source lines 253, 385 and 393 to
416): none while the name form is shown, none for a user who is not an admin,
none while the bookings load, otherwise one for each booking of
`allBookingsForAdmin`, in order. -/
def cancelButtons (session : AuthUser) (st : WelcomeState) : List Nat :=
  if st.showNameInput then []
  else if isAdmin session then
    if st.loadingBookings then []
    else st.allBookingsForAdmin.map fun booking => booking.sessions_id
  else []

/-- A click on the `i`-th cancel button of the page, if there is one: the run
of `handleCancelBooking` that it starts. -/
def clickCancel (session : AuthUser) (tza : Int) (today : JSDate)
    (del : DeleteCall → Response Unit) (store : SelectCall → Response (List Session))
    (st : WelcomeState) (i : Nat) : Option (Completion (Run WelcomeState WelcomeCall)) :=
  ((cancelButtons session st)[i]?).map fun bookingId =>
    handleCancelBooking tza today del store bookingId st

end WelcomePage

/-! ## `CalendarPage.jsx`: the month grid and the month navigation -/

/-- Embeds `getDaysInMonth`: `new Date(year, month + 1, 0).getDate()`. -/
def getDaysInMonth (tza : Int) (year month : Int) : Int :=
  (JSDate.ofLocal tza year (month + 1) 0).getDate tza

/-- Embeds `getFirstDayOfMonth`: `new Date(year, month, 1).getDay()`. -/
def getFirstDayOfMonth (tza : Int) (year month : Int) : Int :=
  (JSDate.ofLocal tza year month 1).getDay tza

/-- A cell of the month grid: an empty leading cell with its index, or the cell
of day `i` with the date that a click on it selects. -/
inductive CalendarCell where
  | empty (i : Nat)
  | day (i : Nat) (date : JSDate)
  deriving DecidableEq, Repr

/-- Embeds `generateCalendarDays`: `i` runs from 0 below `firstDay` for the
empty cells, then from 1 up to `numDays` for the days. -/
def generateCalendarDays (tza : Int) (st : CalendarState) : List CalendarCell :=
  let numDays := getDaysInMonth tza st.currentYear st.currentMonth
  let firstDay := getFirstDayOfMonth tza st.currentYear st.currentMonth
  (List.range firstDay.toNat).map (fun i => CalendarCell.empty i)
    ++ (List.range' 1 numDays.toNat).map
        (fun i => CalendarCell.day i (calendarDate tza st.currentYear st.currentMonth i))

/-- Embeds `goToPrevMonth`, one click handled on the rendered state. -/
def goToPrevMonth (st : CalendarState) : CalendarState :=
  { currentMonth := if st.currentMonth = 0 then 11 else st.currentMonth - 1
    currentYear := if st.currentMonth = 0 then st.currentYear - 1 else st.currentYear
    selectedDate := none
    selectedCourt := none
    selectedTimeSlot := none
    bookingMessage := "" }

/-- Embeds `goToNextMonth`, one click handled on the rendered state. -/
def goToNextMonth (st : CalendarState) : CalendarState :=
  { currentMonth := if st.currentMonth = 11 then 0 else st.currentMonth + 1
    currentYear := if st.currentMonth = 11 then st.currentYear + 1 else st.currentYear
    selectedDate := none
    selectedCourt := none
    selectedTimeSlot := none
    bookingMessage := "" }

/-! ## Reading the claims: the calendar and the shape of a timestamp -/

/-- The length of month `month` (0 = January) of year `year` in the Gregorian
calendar: February has 29 days in a year divisible by 4 and not by 100, or
divisible by 400. -/
def daysInMonth (year month : Int) : Int :=
  if month = 1 then
    if (year % 4 = 0 ∧ year % 100 ≠ 0) ∨ year % 400 = 0 then 29 else 28
  else if month = 3 ∨ month = 5 ∨ month = 8 ∨ month = 10 then 30
  else 31

/-- The year that `new Date(year, month, date)` takes for its first argument: a
year from 0 to 99 stands for 1900 + year, any other year for itself. -/
def constructorYear (year : Int) : Int :=
  if 0 ≤ year ∧ year ≤ 99 then 1900 + year else year

/-- The weekday (0 = Sunday) of the day `date` of month `month` of year `year`,
each taken at face value. -/
def weekdayOf (year month date : Int) : Int := weekDay (makeDay year month date)

/-- The hour label `HH:00` of the hour `h`. -/
def hourLabel (h : Nat) : String := padStart (natToString h) 2 '0' ++ ":00"

/-- Whether a text follows a pattern, character by character: `d` in the
pattern stands for a decimal digit, any other character for itself. -/
def followsPattern : List Char → List Char → Bool
  | [], [] => true
  | p :: ps, c :: cs => (if p = 'd' then c.isDigit else c == p) && followsPattern ps cs
  | _, _ => false

/-- The shape `YYYY-MM-DDTHH:MM:00` of a timestamp. -/
def hasTimestampShape (s : String) : Bool :=
  followsPattern "dddd-dd-ddTdd:dd:00".data s.data


/-! ## Properties of the `Set` model -/

namespace JSSet

variable {α : Type} [DecidableEq α]

theorem mem_add (s : JSSet α) (x y : α) : y ∈ add s x ↔ y ∈ s ∨ y = x := by
  unfold add
  split
  · constructor
    · exact fun h => Or.inl h
    · rintro (h | rfl)
      · exact h
      · assumption
  · simp

theorem nodup_add (s : JSSet α) (x : α) (hs : s.Nodup) : (add s x).Nodup := by
  unfold add
  split
  · exact hs
  · rename_i hx
    rw [List.nodup_append]
    refine ⟨hs, List.nodup_singleton x, ?_⟩
    intro a ha hb
    rw [List.mem_singleton] at hb
    exact hx (hb ▸ ha)

theorem add_of_mem (s : JSSet α) (x : α) (hx : x ∈ s) : add s x = s := by
  unfold add
  rw [if_pos hx]

theorem mem_delete (s : JSSet α) (x y : α) : y ∈ delete s x ↔ y ∈ s ∧ y ≠ x := by
  unfold delete
  simp [List.mem_filter]

theorem nodup_delete (s : JSSet α) (x : α) (hs : s.Nodup) : (delete s x).Nodup :=
  hs.filter _

theorem delete_of_not_mem (s : JSSet α) (x : α) (hx : x ∉ s) : delete s x = s := by
  unfold delete
  rw [List.filter_eq_self]
  intro y hy
  have : y ≠ x := fun h => hx (h ▸ hy)
  simpa using this

theorem mem_foldl_add (xs : List α) (acc : JSSet α) (y : α) :
    y ∈ xs.foldl add acc ↔ y ∈ acc ∨ y ∈ xs := by
  induction xs generalizing acc with
  | nil => simp
  | cons x xs ih =>
    rw [List.foldl_cons, ih, mem_add, List.mem_cons]
    tauto

theorem nodup_foldl_add (xs : List α) (acc : JSSet α) (hacc : acc.Nodup) :
    (xs.foldl add acc).Nodup := by
  induction xs generalizing acc with
  | nil => exact hacc
  | cons x xs ih => exact ih _ (nodup_add acc x hacc)

theorem foldl_add_of_nodup (xs : List α) (acc : JSSet α) (h : (acc ++ xs).Nodup) :
    xs.foldl add acc = acc ++ xs := by
  induction xs generalizing acc with
  | nil => simp
  | cons x xs ih =>
    have hx : x ∉ acc := by
      intro hmem
      exact (List.nodup_append.mp h).2.2 hmem (List.mem_cons_self x xs)
    have hstep : add acc x = acc ++ [x] := by
      unfold add
      rw [if_neg hx]
    rw [List.foldl_cons, hstep, ih]
    · simp
    · simpa using h

theorem mem_ofArray (xs : List α) (y : α) : y ∈ ofArray xs ↔ y ∈ xs := by
  unfold ofArray
  rw [mem_foldl_add]
  simp

theorem nodup_ofArray (xs : List α) : (ofArray xs).Nodup :=
  nodup_foldl_add xs [] List.nodup_nil

theorem ofArray_of_nodup (xs : List α) (h : xs.Nodup) : ofArray xs = xs := by
  unfold ofArray
  rw [foldl_add_of_nodup xs [] (by simpa using h)]
  simp

end JSSet

/-! ## Properties of `handleJoinLeaveBooking` -/

theorem handleJoinLeaveBooking_calls (u : String) (bid : Nat) (a : Option (List String))
    (action : String) (store : UpdateCall → Option String) :
    (handleJoinLeaveBooking u bid a action store).calls
      = [{ table := "sessions"
           players_attending := newPlayersAttendingArray u a action
           sessions_id := bid }] := by
  unfold handleJoinLeaveBooking
  simp only []
  split <;> rfl

theorem newPlayersAttendingArray_join (u : String) (a : Option (List String)) :
    newPlayersAttendingArray u a "join" = JSSet.add (JSSet.ofArray (a.getD [])) u := by
  simp [newPlayersAttendingArray, JSSet.toArray]

theorem newPlayersAttendingArray_leave (u : String) (a : Option (List String)) :
    newPlayersAttendingArray u a "leave" = JSSet.delete (JSSet.ofArray (a.getD [])) u := by
  have h : ¬ ("leave" = "join") := by decide
  simp [newPlayersAttendingArray, JSSet.toArray, h]

theorem newPlayersAttendingArray_nodup (u : String) (a : Option (List String))
    (action : String) : (newPlayersAttendingArray u a action).Nodup := by
  unfold newPlayersAttendingArray JSSet.toArray
  simp only []
  split
  · exact JSSet.nodup_add _ _ (JSSet.nodup_ofArray _)
  · exact JSSet.nodup_delete _ _ (JSSet.nodup_ofArray _)

/-- C1, refuted as stated: a join by a user who is already in the snapshot, and
a leave by a user who is not in it, each send an update to the store and report
success; neither is a no-op with an informational outcome. -/
theorem handleJoinLeaveBooking_redundant_is_written :
    ("u1" ∈ ["u1", "u2"] ∧
      (handleJoinLeaveBooking "u1" 7 (some ["u1", "u2"]) "join" (fun _ => none)).calls ≠ [] ∧
      handleJoinLeaveBooking "u1" 7 (some ["u1", "u2"]) "join" (fun _ => none)
        = { calls := [{ table := "sessions", players_attending := ["u1", "u2"], sessions_id := 7 }]
            bookingMessage := "Successfully joined the booking."
            refetched := true }) ∧
    ("u1" ∉ ["u2"] ∧
      (handleJoinLeaveBooking "u1" 7 (some ["u2"]) "leave" (fun _ => none)).calls ≠ [] ∧
      handleJoinLeaveBooking "u1" 7 (some ["u2"]) "leave" (fun _ => none)
        = { calls := [{ table := "sessions", players_attending := ["u2"], sessions_id := 7 }]
            bookingMessage := "Successfully left the booking."
            refetched := true }) := by
  decide

/-- C1, as amended: a redundant request (a join by a user already in the
snapshot, a leave by a user not in it) is not short-circuited. It sends exactly
one update to `sessions`, keyed by the booking id, whose `players_attending` has
the members of the snapshot, each once (it is the snapshot itself when the
snapshot has no repeated id); and when the store accepts the update the message
is the success message of the action. -/
theorem handleJoinLeaveBooking_redundant_writes (u : String) (bid : Nat)
    (a : Option (List String)) (action : String) (store : UpdateCall → Option String)
    (hred : (action = "join" ∧ u ∈ a.getD []) ∨ (action = "leave" ∧ u ∉ a.getD [])) :
    ∃ l : List String,
      (handleJoinLeaveBooking u bid a action store).calls
        = [{ table := "sessions", players_attending := l, sessions_id := bid }] ∧
      l.Nodup ∧ (∀ x, x ∈ l ↔ x ∈ a.getD []) ∧ ((a.getD []).Nodup → l = a.getD []) ∧
      (store { table := "sessions", players_attending := l, sessions_id := bid } = none →
        (handleJoinLeaveBooking u bid a action store).bookingMessage
            = (if action = "join" then "Successfully joined the booking."
               else "Successfully left the booking.") ∧
          (handleJoinLeaveBooking u bid a action store).refetched = true) := by
  have hl : newPlayersAttendingArray u a action = JSSet.ofArray (a.getD []) := by
    rcases hred with ⟨rfl, hu⟩ | ⟨rfl, hu⟩
    · rw [newPlayersAttendingArray_join]
      exact JSSet.add_of_mem _ _ ((JSSet.mem_ofArray _ _).mpr hu)
    · rw [newPlayersAttendingArray_leave]
      exact JSSet.delete_of_not_mem _ _ (fun h => hu ((JSSet.mem_ofArray _ _).mp h))
  refine ⟨newPlayersAttendingArray u a action, handleJoinLeaveBooking_calls u bid a action store,
    newPlayersAttendingArray_nodup u a action, ?_, ?_, ?_⟩
  · intro x
    rw [hl]
    exact JSSet.mem_ofArray _ _
  · intro hnd
    rw [hl]
    exact JSSet.ofArray_of_nodup _ hnd
  · intro hstore
    unfold handleJoinLeaveBooking
    simp only [hstore]
    rcases hred with ⟨rfl, _⟩ | ⟨rfl, _⟩
    · exact ⟨by decide, trivial⟩
    · exact ⟨by decide, trivial⟩

/-- Witness of C1 as amended: a redundant join on the snapshot `["u1", "u2"]`. -/
theorem handleJoinLeaveBooking_redundant_writes_witness :
    ∃ l : List String,
      (handleJoinLeaveBooking "u1" 7 (some ["u1", "u2"]) "join" (fun _ => none)).calls
        = [{ table := "sessions", players_attending := l, sessions_id := 7 }] ∧
      l.Nodup ∧ (∀ x, x ∈ l ↔ x ∈ (some ["u1", "u2"]).getD []) ∧
      (((some ["u1", "u2"]).getD []).Nodup → l = (some ["u1", "u2"]).getD []) ∧
      ((fun _ => none : UpdateCall → Option String)
          { table := "sessions", players_attending := l, sessions_id := 7 } = none →
        (handleJoinLeaveBooking "u1" 7 (some ["u1", "u2"]) "join" (fun _ => none)).bookingMessage
            = (if "join" = "join" then "Successfully joined the booking."
               else "Successfully left the booking.") ∧
          (handleJoinLeaveBooking "u1" 7 (some ["u1", "u2"]) "join" (fun _ => none)).refetched
            = true) :=
  handleJoinLeaveBooking_redundant_writes "u1" 7 (some ["u1", "u2"]) "join" (fun _ => none)
    (Or.inl ⟨rfl, by decide⟩)

/-- C2: on a join, the one update sent writes to `players_attending` a list whose
members are exactly the members of the snapshot (`null` read as empty) together
with the user. -/
theorem handleJoinLeaveBooking_join_members (u : String) (bid : Nat)
    (a : Option (List String)) (store : UpdateCall → Option String) :
    ∃ l : List String,
      (handleJoinLeaveBooking u bid a "join" store).calls
        = [{ table := "sessions", players_attending := l, sessions_id := bid }] ∧
      ∀ x, x ∈ l ↔ (x ∈ a.getD [] ∨ x = u) := by
  refine ⟨newPlayersAttendingArray u a "join", handleJoinLeaveBooking_calls u bid a "join" store, ?_⟩
  intro x
  rw [newPlayersAttendingArray_join, JSSet.mem_add, JSSet.mem_ofArray]

/-- C3: on a leave, the one update sent writes to `players_attending` a list whose
members are exactly the members of the snapshot (`null` read as empty) other
than the user. -/
theorem handleJoinLeaveBooking_leave_members (u : String) (bid : Nat)
    (a : Option (List String)) (store : UpdateCall → Option String) :
    ∃ l : List String,
      (handleJoinLeaveBooking u bid a "leave" store).calls
        = [{ table := "sessions", players_attending := l, sessions_id := bid }] ∧
      u ∉ l ∧ ∀ x, x ∈ l ↔ (x ∈ a.getD [] ∧ x ≠ u) := by
  have hmem : ∀ x, x ∈ newPlayersAttendingArray u a "leave" ↔ (x ∈ a.getD [] ∧ x ≠ u) := by
    intro x
    rw [newPlayersAttendingArray_leave, JSSet.mem_delete, JSSet.mem_ofArray]
  refine ⟨newPlayersAttendingArray u a "leave",
    handleJoinLeaveBooking_calls u bid a "leave" store, ?_, hmem⟩
  intro hu
  exact ((hmem u).mp hu).2 rfl

/-- C4: whatever the snapshot (repeated ids included) and the action, the list
written holds no identifier twice; and a join of the same user on the list that
a join produced writes that same list, in which the user occurs exactly once. -/
theorem handleJoinLeaveBooking_no_duplicates (u : String) (bid : Nat)
    (a : Option (List String)) (action : String) (store store2 : UpdateCall → Option String) :
    (∃ l : List String,
      (handleJoinLeaveBooking u bid a action store).calls
        = [{ table := "sessions", players_attending := l, sessions_id := bid }] ∧ l.Nodup) ∧
    (∃ l : List String,
      (handleJoinLeaveBooking u bid a "join" store).calls
        = [{ table := "sessions", players_attending := l, sessions_id := bid }] ∧
      (handleJoinLeaveBooking u bid (some l) "join" store2).calls
        = [{ table := "sessions", players_attending := l, sessions_id := bid }] ∧
      l.count u = 1) := by
  refine ⟨⟨_, handleJoinLeaveBooking_calls u bid a action store,
    newPlayersAttendingArray_nodup u a action⟩,
    ⟨newPlayersAttendingArray u a "join", handleJoinLeaveBooking_calls u bid a "join" store, ?_, ?_⟩⟩
  · have hnd := newPlayersAttendingArray_nodup u a "join"
    have hu : u ∈ newPlayersAttendingArray u a "join" := by
      rw [newPlayersAttendingArray_join, JSSet.mem_add]
      exact Or.inr rfl
    rw [handleJoinLeaveBooking_calls]
    have hagain : newPlayersAttendingArray u (some (newPlayersAttendingArray u a "join")) "join"
        = newPlayersAttendingArray u a "join" := by
      rw [newPlayersAttendingArray_join u (some _)]
      simp only [Option.getD_some]
      rw [JSSet.ofArray_of_nodup _ hnd]
      exact JSSet.add_of_mem _ _ hu
    rw [hagain]
  · have hu : u ∈ newPlayersAttendingArray u a "join" := by
      rw [newPlayersAttendingArray_join, JSSet.mem_add]
      exact Or.inr rfl
    exact List.count_eq_one_of_mem (newPlayersAttendingArray_nodup u a "join") hu

/-! ## Properties of the date model -/

/-- The year found by `yearFromDay` is the one `YearFromTime` asks for: the
year whose first day is at or before `d` while the next year starts after `d`. -/
theorem yearFromDay_bounds (d : Int) :
    dayFromYear (yearFromDay d) ≤ d ∧ d < dayFromYear (yearFromDay d + 1) := by
  unfold yearFromDay
  simp only []
  split
  · constructor
    · assumption
    · unfold dayFromYear at *
      omega
  · split
    · constructor
      · assumption
      · omega
    · constructor
      · unfold dayFromYear at *
        omega
      · have h : 1970 + 400 * d / 146097 - 1 + 1 = 1970 + 400 * d / 146097 := by omega
        rw [h]
        omega

/-- East of Greenwich (an offset of up to a day), the UTC day of a local
midnight is the day before the local calendar day. -/
theorem day_ofLocal_east (tza year month date : Int) (h0 : 0 < tza) (h1 : tza ≤ msPerDay) :
    day (JSDate.ofLocal tza year month date).t
      = makeDay (if 0 ≤ year ∧ year ≤ 99 then 1900 + year else year) month date - 1 := by
  unfold msPerDay at h1
  simp only [JSDate.ofLocal, day, msPerDay]
  omega

/-- At Greenwich and west of it (an offset of less than a day), the UTC day of
a local midnight is the local calendar day. -/
theorem day_ofLocal_west (tza year month date : Int) (h0 : tza ≤ 0) (h1 : -msPerDay < tza) :
    day (JSDate.ofLocal tza year month date).t
      = makeDay (if 0 ≤ year ∧ year ≤ 99 then 1900 + year else year) month date := by
  unfold msPerDay at h1
  simp only [JSDate.ofLocal, day, msPerDay]
  omega

/-! ## Whole-field replace: two joins from one snapshot -/

theorem newPlayersAttendingArray_join_empty (u : String) :
    newPlayersAttendingArray u (some []) "join" = [u] := by
  rw [newPlayersAttendingArray_join]
  simp [JSSet.ofArray, JSSet.add]

theorem joinTwice_empty (store : Store) (bid : Nat) (userA userB : String) :
    joinTwice store bid (some []) userA userB
      = Store.update
          (Store.update store { table := "sessions", players_attending := [userA], sessions_id := bid })
          { table := "sessions", players_attending := [userB], sessions_id := bid } := by
  unfold joinTwice
  simp only [handleJoinLeaveBooking_calls, newPlayersAttendingArray_join_empty]
  rfl

/-- C5, refuted as stated: with the session's attendees empty, the joins of
`userA` and `userB`, both computed from the empty snapshot and written one after
the other, leave `userB` alone in the attendee list; `userA` is not in it. -/
theorem joinTwice_loses_first_join :
    joinTwice
        [{ sessions_id := 1, location := "Wanstead Leisure Centre", court := "Court 1 (Badminton)"
           date_time := "2025-08-10T09:00:00", created_by := "owner"
           players_attending := some [], status := "Booked" }]
        1 (some []) "userA" "userB"
      = [{ sessions_id := 1, location := "Wanstead Leisure Centre", court := "Court 1 (Badminton)"
           date_time := "2025-08-10T09:00:00", created_by := "owner"
           players_attending := some ["userB"], status := "Booked" }] ∧
    ∀ s ∈ joinTwice
        [{ sessions_id := 1, location := "Wanstead Leisure Centre", court := "Court 1 (Badminton)"
           date_time := "2025-08-10T09:00:00", created_by := "owner"
           players_attending := some [], status := "Booked" }]
        1 (some []) "userA" "userB",
      "userA" ∉ s.players_attending.getD [] := by
  decide

/-- C5, as amended: two joins computed from the same empty snapshot and written
one after the other keep every session of the store in place and leave, in the
session they address, the attendee list of the second write only, the single
user `userB`; the first join is overwritten. -/
theorem joinTwice_last_writer_wins (store : Store) (bid : Nat) (userA userB : String) :
    (joinTwice store bid (some []) userA userB).map Session.sessions_id
      = store.map Session.sessions_id ∧
    ∀ s ∈ joinTwice store bid (some []) userA userB, s.sessions_id = bid →
      s.players_attending = some [userB] := by
  rw [joinTwice_empty]
  constructor
  · unfold Store.update
    rw [List.map_map, List.map_map]
    apply List.map_congr_left
    intro s _
    by_cases h : s.sessions_id = bid <;> simp [h]
  · intro s hs hid
    unfold Store.update at hs
    rw [List.map_map, List.mem_map] at hs
    obtain ⟨s0, _, rfl⟩ := hs
    by_cases h : s0.sessions_id = bid
    · simp [h]
    · simp [h] at hid

/-- Witness of C5 as amended: the session with id 1, first joined by `userA`,
then by `userB`. -/
theorem joinTwice_last_writer_wins_witness :
    ({ sessions_id := 1, location := "Wanstead Leisure Centre", court := "Court 1 (Badminton)"
       date_time := "2025-08-10T09:00:00", created_by := "owner"
       players_attending := some ["userB"], status := "Booked" } : Session)
      ∈ joinTwice
          [{ sessions_id := 1, location := "Wanstead Leisure Centre", court := "Court 1 (Badminton)"
             date_time := "2025-08-10T09:00:00", created_by := "owner"
             players_attending := some [], status := "Booked" }]
          1 (some []) "userA" "userB" ∧
    (some ["userB"] : Option (List String)) = some ["userB"] :=
  ⟨by decide,
   (joinTwice_last_writer_wins
      [{ sessions_id := 1, location := "Wanstead Leisure Centre", court := "Court 1 (Badminton)"
         date_time := "2025-08-10T09:00:00", created_by := "owner"
         players_attending := some [], status := "Booked" }]
      1 "userA" "userB").2
    { sessions_id := 1, location := "Wanstead Leisure Centre", court := "Court 1 (Badminton)"
      date_time := "2025-08-10T09:00:00", created_by := "owner"
      players_attending := some ["userB"], status := "Booked" }
    (by decide) rfl⟩

/-! ## Properties of `handleBookCourt` -/

/-- C6: when the selected date, the selected court or the selected time slot is
missing, `handleBookCourt` only sets the message that asks for a complete
selection and issues no call to the store. -/
theorem handleBookCourt_incomplete_selection (userId : String) (formatDisplay : JSDate → String)
    (store : InsertCall → Option String) (st : CalendarState)
    (h : st.selectedDate = none ∨ st.selectedCourt = none ∨ st.selectedTimeSlot = none) :
    (handleBookCourt userId formatDisplay store st).1
      = { st with bookingMessage := "Please select a date, a court, and a time slot to book." } ∧
    (handleBookCourt userId formatDisplay store st).2 = [] := by
  unfold handleBookCourt
  rcases h with h | h | h
  · simp [h, selectionMessage]
  · cases hd : st.selectedDate <;> simp [h, truthyString, selectionMessage]
  · cases hd : st.selectedDate <;> simp [h, truthyString, selectionMessage]

/-- Witness of C6: a date and a court are selected, the time slot is not. -/
theorem handleBookCourt_incomplete_selection_witness :
    (handleBookCourt "u1" (fun _ => "") (fun _ => none)
        { currentMonth := 7, currentYear := 2025, selectedDate := some (calendarDate 0 2025 7 10)
          selectedCourt := some "Court 1 (Badminton)", selectedTimeSlot := none
          bookingMessage := "" }).1
      = { currentMonth := 7, currentYear := 2025, selectedDate := some (calendarDate 0 2025 7 10)
          selectedCourt := some "Court 1 (Badminton)", selectedTimeSlot := none
          bookingMessage := "Please select a date, a court, and a time slot to book." } ∧
    (handleBookCourt "u1" (fun _ => "") (fun _ => none)
        { currentMonth := 7, currentYear := 2025, selectedDate := some (calendarDate 0 2025 7 10)
          selectedCourt := some "Court 1 (Badminton)", selectedTimeSlot := none
          bookingMessage := "" }).2 = [] :=
  handleBookCourt_incomplete_selection "u1" (fun _ => "") (fun _ => none)
    { currentMonth := 7, currentYear := 2025, selectedDate := some (calendarDate 0 2025 7 10)
      selectedCourt := some "Court 1 (Badminton)", selectedTimeSlot := none
      bookingMessage := "" }
    (Or.inr (Or.inr rfl))

/-- C7, evaluated where it fails: in a zone one hour east of Greenwich the user
selects 10 August 2025 (`new Date(2025, 7, 10)`), and the `date_time` that
`handleBookCourt` sends carries the date of the day before, `2025-08-09`. -/
theorem handleBookCourt_date_part_east_of_greenwich :
    datePart (calendarDate 3600000 2025 7 10) = "2025-08-09" ∧
    formatYMD 2025 7 10 = "2025-08-10" ∧
    (handleBookCourt "u1" (fun _ => "") (fun _ => none)
        { currentMonth := 7, currentYear := 2025
          selectedDate := some (calendarDate 3600000 2025 7 10)
          selectedCourt := some "Court 1 (Badminton)", selectedTimeSlot := some "09:00 - 10:00"
          bookingMessage := "" }).2
      = [{ table := "sessions"
           rows := [{ created_by := "u1", court := "Court 1 (Badminton)"
                      date_time := "2025-08-09T09:00:00"
                      location := "Wanstead Leisure Centre", status := "Booked"
                      players_attending := ["u1"] }] }] := by
  decide

/-- C8: on a complete selection (a date, a court and a time slot, the two texts
non-empty as every court and slot on offer is) `handleBookCourt` issues exactly
one insert into `sessions`, of exactly one record, created by the current user,
for the selected court, with the current user as its only attendee. -/
theorem handleBookCourt_inserts_one_record (userId : String) (formatDisplay : JSDate → String)
    (store : InsertCall → Option String) (st : CalendarState)
    (date : JSDate) (court slot : String)
    (hdate : st.selectedDate = some date) (hcourt : st.selectedCourt = some court)
    (hslot : st.selectedTimeSlot = some slot) (hc : court ≠ "") (hs : slot ≠ "") :
    ∃ row : NewSession,
      (handleBookCourt userId formatDisplay store st).2 = [{ table := "sessions", rows := [row] }] ∧
      row.created_by = userId ∧ row.court = court ∧ row.players_attending = [userId] := by
  refine ⟨{ created_by := userId, court := court, date_time := fullDateTime date slot
            location := "Wanstead Leisure Centre", status := "Booked"
            players_attending := [userId] }, ?_, rfl, rfl, rfl⟩
  have ht : (truthyString (some court) && truthyString (some slot)) = true := by
    simp [truthyString, hc, hs]
  unfold handleBookCourt
  simp only [hdate, hcourt, hslot, ht, if_true, Option.getD_some]
  split <;> rfl

/-- Witness of C8: court 1 at 09:00 on 10 August 2025, booked by `u1`. -/
theorem handleBookCourt_inserts_one_record_witness :
    ∃ row : NewSession,
      (handleBookCourt "u1" (fun _ => "") (fun _ => none)
          { currentMonth := 7, currentYear := 2025, selectedDate := some (calendarDate 0 2025 7 10)
            selectedCourt := some "Court 1 (Badminton)", selectedTimeSlot := some "09:00 - 10:00"
            bookingMessage := "" }).2 = [{ table := "sessions", rows := [row] }] ∧
      row.created_by = "u1" ∧ row.court = "Court 1 (Badminton)" ∧ row.players_attending = ["u1"] :=
  handleBookCourt_inserts_one_record "u1" (fun _ => "") (fun _ => none)
    { currentMonth := 7, currentYear := 2025, selectedDate := some (calendarDate 0 2025 7 10)
      selectedCourt := some "Court 1 (Badminton)", selectedTimeSlot := some "09:00 - 10:00"
      bookingMessage := "" }
    (calendarDate 0 2025 7 10) "Court 1 (Badminton)" "09:00 - 10:00" rfl rfl rfl
    (by decide) (by decide)

/-- C9, evaluated where it fails: one hour east of Greenwich, on 10 August 2025,
a user books court 1 for that same day at 09:00 into an empty store. The
listing from today's date on is empty; and listed from 1 August on, the session
shows with the start time `2025-08-09T09:00:00`, the day before the selected one. -/
theorem bookThenList_east_of_greenwich :
    todayFormatted 3600000 (calendarDate 3600000 2025 7 10) = "2025-08-10" ∧
    bookThenList 3600000 [] "u1"
        { currentMonth := 7, currentYear := 2025
          selectedDate := some (calendarDate 3600000 2025 7 10)
          selectedCourt := some "Court 1 (Badminton)", selectedTimeSlot := some "09:00 - 10:00"
          bookingMessage := "" }
        (calendarDate 3600000 2025 7 10) = [] ∧
    bookThenList 3600000 [] "u1"
        { currentMonth := 7, currentYear := 2025
          selectedDate := some (calendarDate 3600000 2025 7 10)
          selectedCourt := some "Court 1 (Badminton)", selectedTimeSlot := some "09:00 - 10:00"
          bookingMessage := "" }
        (calendarDate 3600000 2025 7 1)
      = [{ sessions_id := 1, location := "Wanstead Leisure Centre", court := "Court 1 (Badminton)"
           date_time := "2025-08-09T09:00:00", created_by := "u1"
           players_attending := some ["u1"], status := "Booked" }] := by
  decide

/-! ## Properties of `generateTimeSlots` -/

/-- C10: `generateTimeSlots` returns exactly 13 slots; the first splits into the
start label `09:00` and the end label `10:00`, the last into `21:00` and `22:00`. -/
theorem generateTimeSlots_thirteen :
    generateTimeSlots.length = 13 ∧
    generateTimeSlots.head? = some "09:00 - 10:00" ∧
    generateTimeSlots.getLast? = some "21:00 - 22:00" ∧
    (generateTimeSlots.head?.map fun s => jsSplit s " - ") = some ["09:00", "10:00"] ∧
    (generateTimeSlots.getLast?.map fun s => jsSplit s " - ") = some ["21:00", "22:00"] := by
  decide

/-! ## Slots are contiguous -/

/-- C11: the slots of `generateTimeSlots` run hour by hour. Every slot text is
its start label, ` - ` and its end label; the start labels name the minutes
9:00, 10:00, ..., 21:00 in this order and each end label names the minute one
hour after its start; and the end labels of the slots but the last are, one
by one, the start labels of the slots but the first, so a slot ends where the
next begins and the start times ascend strictly. -/
theorem generateTimeSlots_contiguous :
    generateTimeSlots.map (fun s => slotStart s ++ " - " ++ slotEnd s) = generateTimeSlots ∧
    generateTimeSlots.map (fun s => labelMinutes (slotStart s))
      = (List.range' 9 13).map (fun h => some (h * 60)) ∧
    generateTimeSlots.map (fun s => labelMinutes (slotEnd s))
      = (List.range' 9 13).map (fun h => some (h * 60 + 60)) ∧
    generateTimeSlots.dropLast.map slotEnd = generateTimeSlots.tail.map slotStart ∧
    (generateTimeSlots.map (fun s => (labelMinutes (slotStart s)).getD 0)).Pairwise (· < ·) := by
  refine ⟨by decide, by decide, by decide, by decide, by decide⟩


/-! ## Court-type classification -/

theorem includesGo_iff_contained (pat s : List Char) : includesGo pat s = true ↔ pat <:+: s := by
  induction s with
  | nil => simp [includesGo]
  | cons c cs ih =>
    rw [includesGo, Bool.or_eq_true, ih, List.isPrefixOf_iff_prefix, List.infix_cons_iff]

theorem contained_map_iff {α β : Type} (f : α → β) (pat : List β) (s : List α) :
    pat <:+: s.map f ↔ ∃ w : List α, w <:+: s ∧ w.map f = pat := by
  constructor
  · rintro ⟨pre, post, h⟩
    obtain ⟨l₁, l₂, hs, h₁, _⟩ := List.map_eq_append_iff.mp h.symm
    obtain ⟨l₃, l₄, hs', _, h₄⟩ := List.map_eq_append_iff.mp h₁
    refine ⟨l₄, ⟨l₃, l₂, ?_⟩, h₄⟩
    rw [hs, hs']
  · rintro ⟨w, hw, rfl⟩
    exact hw.map f

theorem forall₂_toLower_iff (w word : List Char) :
    List.Forall₂ (fun a b => a.toLower = b.toLower) w word
      ↔ w.map Char.toLower = word.map Char.toLower := by
  induction w generalizing word with
  | nil =>
    cases word with
    | nil => simp
    | cons b bs => simp
  | cons a as ih =>
    cases word with
    | nil => simp
    | cons b bs => simp [List.forall₂_cons, ih]

/-- The test of the two filters, `court.toLowerCase().includes(word)`, holds
exactly when the court label contains the lower-case `word` up to letter case. -/
theorem includes_toLowerCase_iff (word label : String)
    (hword : word.data.map Char.toLower = word.data) :
    includes (toLowerCase label) word = true ↔ ContainsIgnoringCase word label := by
  unfold includes toLowerCase ContainsIgnoringCase
  simp only []
  rw [includesGo_iff_contained, contained_map_iff]
  constructor
  · rintro ⟨w, hw, h⟩
    exact ⟨w, hw, (forall₂_toLower_iff w word.data).mpr (by rw [h, hword])⟩
  · rintro ⟨w, hw, h⟩
    exact ⟨w, hw, by rw [(forall₂_toLower_iff w word.data).mp h, hword]⟩

theorem includes_badminton_iff (label : String) :
    includes (toLowerCase label) "badminton" = true ↔ ContainsIgnoringCase "badminton" label :=
  includes_toLowerCase_iff "badminton" label (by decide)

theorem includes_tennis_iff (label : String) :
    includes (toLowerCase label) "tennis" = true ↔ ContainsIgnoringCase "tennis" label :=
  includes_toLowerCase_iff "tennis" label (by decide)

open Classical in
/-- C12: each bucket of the welcome page is the list of fetched sessions
filtered, order kept, by "the court label contains the sport's name up to letter
case"; so a session whose label contains neither name is in neither bucket. A
session on `Court 9 (Squash)` lands in no bucket, and of a session on
`Court 2 (Badminton)` followed by one on `Court 3 (Tennis)` the first alone
makes the badminton bucket and the second alone the tennis bucket. -/
theorem classification_buckets (data : List Session) (a b : Session) :
    badminton data
      = data.filter (fun s => decide (ContainsIgnoringCase "badminton" s.court)) ∧
    tennis data = data.filter (fun s => decide (ContainsIgnoringCase "tennis" s.court)) ∧
    (badminton data).Sublist data ∧ (tennis data).Sublist data ∧
    badminton [{ a with court := "Court 9 (Squash)" }] = [] ∧
    tennis [{ a with court := "Court 9 (Squash)" }] = [] ∧
    badminton [{ a with court := "Court 2 (Badminton)" }, { b with court := "Court 3 (Tennis)" }]
      = [{ a with court := "Court 2 (Badminton)" }] ∧
    tennis [{ a with court := "Court 2 (Badminton)" }, { b with court := "Court 3 (Tennis)" }]
      = [{ b with court := "Court 3 (Tennis)" }] := by
  have hb2 : includes (toLowerCase "Court 2 (Badminton)") "badminton" = true := by decide
  have ht2 : includes (toLowerCase "Court 2 (Badminton)") "tennis" = false := by decide
  have hb3 : includes (toLowerCase "Court 3 (Tennis)") "badminton" = false := by decide
  have ht3 : includes (toLowerCase "Court 3 (Tennis)") "tennis" = true := by decide
  have hb9 : includes (toLowerCase "Court 9 (Squash)") "badminton" = false := by decide
  have ht9 : includes (toLowerCase "Court 9 (Squash)") "tennis" = false := by decide
  refine ⟨?_, ?_, List.filter_sublist _, List.filter_sublist _, ?_, ?_, ?_, ?_⟩
  · unfold badminton
    apply List.filter_congr
    intro s _
    rw [Bool.eq_iff_iff, includes_badminton_iff, decide_eq_true_iff]
  · unfold tennis
    apply List.filter_congr
    intro s _
    rw [Bool.eq_iff_iff, includes_tennis_iff, decide_eq_true_iff]
  · simp [badminton, hb9]
  · simp [tennis, ht9]
  · simp [badminton, hb2, hb3]
  · simp [tennis, ht2, ht3]

/-- C13, refuted as stated: a session whose court label names both sports is in
the badminton bucket and in the tennis bucket. -/
theorem classification_overlap :
    ({ sessions_id := 1, location := "Wanstead Leisure Centre"
       court := "Badminton and Tennis Hall", date_time := "2025-08-10T09:00:00"
       created_by := "u1", players_attending := none, status := "Booked" } : Session)
      ∈ badminton
          [{ sessions_id := 1, location := "Wanstead Leisure Centre"
             court := "Badminton and Tennis Hall", date_time := "2025-08-10T09:00:00"
             created_by := "u1", players_attending := none, status := "Booked" }] ∧
    ({ sessions_id := 1, location := "Wanstead Leisure Centre"
       court := "Badminton and Tennis Hall", date_time := "2025-08-10T09:00:00"
       created_by := "u1", players_attending := none, status := "Booked" } : Session)
      ∈ tennis
          [{ sessions_id := 1, location := "Wanstead Leisure Centre"
             court := "Badminton and Tennis Hall", date_time := "2025-08-10T09:00:00"
             created_by := "u1", players_attending := none, status := "Booked" }] := by
  decide

/-- C13, as amended: a fetched session is in both buckets exactly when its court
label contains both `badminton` and `tennis` up to letter case; and no session
on one of the courts that the calendar page offers is in both buckets. -/
theorem classification_overlap_iff (data : List Session) (s : Session) :
    ((s ∈ badminton data ∧ s ∈ tennis data) ↔
      (s ∈ data ∧ ContainsIgnoringCase "badminton" s.court
        ∧ ContainsIgnoringCase "tennis" s.court)) ∧
    (s.court ∈ courts → ¬ (s ∈ badminton data ∧ s ∈ tennis data)) := by
  have hiff : (s ∈ badminton data ∧ s ∈ tennis data) ↔
      (s ∈ data ∧ ContainsIgnoringCase "badminton" s.court
        ∧ ContainsIgnoringCase "tennis" s.court) := by
    unfold badminton tennis
    rw [List.mem_filter, List.mem_filter, includes_badminton_iff, includes_tennis_iff]
    tauto
  refine ⟨hiff, ?_⟩
  intro hc hboth
  have hb : includes (toLowerCase s.court) "badminton" = true := by
    have := hboth.1
    unfold badminton at this
    exact (List.mem_filter.mp this).2
  have ht : includes (toLowerCase s.court) "tennis" = true := by
    have := hboth.2
    unfold tennis at this
    exact (List.mem_filter.mp this).2
  have hall : ∀ c ∈ courts,
      ¬ (includes (toLowerCase c) "badminton" = true ∧ includes (toLowerCase c) "tennis" = true) := by
    decide
  exact hall s.court hc ⟨hb, ht⟩

/-- Witness of C13 as amended: a session on `Court 1 (Badminton)` is in the
badminton bucket and not in both. -/
theorem classification_overlap_iff_witness :
    "Court 1 (Badminton)" ∈ courts ∧
    ¬ (({ sessions_id := 1, location := "Wanstead Leisure Centre"
          court := "Court 1 (Badminton)", date_time := "2025-08-10T09:00:00"
          created_by := "u1", players_attending := none, status := "Booked" } : Session)
        ∈ badminton
            [{ sessions_id := 1, location := "Wanstead Leisure Centre"
               court := "Court 1 (Badminton)", date_time := "2025-08-10T09:00:00"
               created_by := "u1", players_attending := none, status := "Booked" }] ∧
       ({ sessions_id := 1, location := "Wanstead Leisure Centre"
          court := "Court 1 (Badminton)", date_time := "2025-08-10T09:00:00"
          created_by := "u1", players_attending := none, status := "Booked" } : Session)
        ∈ tennis
            [{ sessions_id := 1, location := "Wanstead Leisure Centre"
               court := "Court 1 (Badminton)", date_time := "2025-08-10T09:00:00"
               created_by := "u1", players_attending := none, status := "Booked" }]) :=
  ⟨by decide,
   (classification_overlap_iff
      [{ sessions_id := 1, location := "Wanstead Leisure Centre"
         court := "Court 1 (Badminton)", date_time := "2025-08-10T09:00:00"
         created_by := "u1", players_attending := none, status := "Booked" }]
      { sessions_id := 1, location := "Wanstead Leisure Centre"
        court := "Court 1 (Badminton)", date_time := "2025-08-10T09:00:00"
        created_by := "u1", players_attending := none, status := "Booked" }).2
    (by decide)⟩


/-! ## Writes after creation -/

theorem Legacy.handleJoinLeaveBooking_legacy_calls (u : String) (bid : Nat)
    (a : Option (List String)) (action : String) (store : UpdateCall → Option String) :
    (Legacy.handleJoinLeaveBooking u bid a action store).calls = [] ∨
    ∃ l : List String, (Legacy.handleJoinLeaveBooking u bid a action store).calls
      = [{ table := "sessions", players_attending := l, sessions_id := bid }] := by
  unfold Legacy.handleJoinLeaveBooking
  simp only []
  by_cases hact : action = "join"
  · by_cases hu : u ∈ a.getD []
    · left
      simp [hact, hu]
    · right
      refine ⟨a.getD [] ++ [u], ?_⟩
      simp only [hact, hu, if_true, not_false_eq_true]
      split <;> rfl
  · by_cases hu : u ∈ a.getD []
    · right
      refine ⟨(a.getD []).filter fun id => decide (id ≠ u), ?_⟩
      simp only [hact, hu, if_true, if_false]
      split <;> rfl
    · left
      simp [hact, hu]

theorem Store.update_frame (store : Store) (c : UpdateCall) :
    (store.update c).map
        (fun s => (s.sessions_id, s.court, s.location, s.date_time, s.created_by, s.status))
      = store.map
        (fun s => (s.sessions_id, s.court, s.location, s.date_time, s.created_by, s.status)) := by
  unfold Store.update
  rw [List.map_map]
  apply List.map_congr_left
  intro s _
  by_cases h : s.sessions_id = c.sessions_id <;> simp [h]

theorem Store.update_others (store : Store) (c : UpdateCall) :
    (store.update c).filter (fun s => decide (s.sessions_id ≠ c.sessions_id))
      = store.filter (fun s => decide (s.sessions_id ≠ c.sessions_id)) := by
  unfold Store.update
  induction store with
  | nil => rfl
  | cons s rest ih =>
    by_cases h : s.sessions_id = c.sessions_id
    · simpa [h] using ih
    · simpa [h] using ih

theorem WelcomePage.handleCancelBooking_calls (tza : Int) (today : JSDate)
    (del : DeleteCall → Response Unit) (store : SelectCall → Response (List Session))
    (bid : Nat) (st : WelcomeState) :
    (WelcomePage.handleCancelBooking tza today del store bid st).result.calls
        = [.deleteSession { table := "sessions", sessions_id := bid }] ∨
    (WelcomePage.handleCancelBooking tza today del store bid st).result.calls
        = [.deleteSession { table := "sessions", sessions_id := bid },
           .selectSessions (WelcomePage.sessionsQuery (todayFormatted tza today))] := by
  unfold WelcomePage.handleCancelBooking WelcomePage.refetch
  simp only []
  cases del { table := "sessions", sessions_id := bid } with
  | error m => left; rfl
  | rejected m => left; rfl
  | ok u =>
    right
    cases store (WelcomePage.sessionsQuery (todayFormatted tza today)) <;> rfl

/-- C14: after creation only the attendee list and the existence of a session
are written. `handleJoinLeaveBooking`, in `UserBookingsPage.jsx` and in
`App - bkp3.jsx`, sends at most one update, to `sessions`, carrying
`players_attending` alone and keyed by the given booking id; applied to any
store it leaves the id, court, location, start time, creator and status of
every record, and the whole of every record with another id, as they were.
`handleCancelBooking` writes once, a delete on `sessions` keyed by the given
booking id, followed at most by the read that refreshes the lists; the delete
drops the records with that id and keeps the others unchanged. -/
theorem writes_after_creation (u : String) (bid : Nat) (a : Option (List String))
    (action : String) (upd : UpdateCall → Option String) (tza : Int) (today : JSDate)
    (del : DeleteCall → Response Unit) (list : SelectCall → Response (List Session))
    (st : WelcomeState) (store : Store) :
    (∃ l : List String, (handleJoinLeaveBooking u bid a action upd).calls
        = [{ table := "sessions", players_attending := l, sessions_id := bid }]) ∧
    ((Legacy.handleJoinLeaveBooking u bid a action upd).calls = [] ∨
      ∃ l : List String, (Legacy.handleJoinLeaveBooking u bid a action upd).calls
        = [{ table := "sessions", players_attending := l, sessions_id := bid }]) ∧
    (∀ l : List String,
      (store.update { table := "sessions", players_attending := l, sessions_id := bid }).map
          (fun s => (s.sessions_id, s.court, s.location, s.date_time, s.created_by, s.status))
        = store.map
          (fun s => (s.sessions_id, s.court, s.location, s.date_time, s.created_by, s.status)) ∧
      (store.update { table := "sessions", players_attending := l, sessions_id := bid }).filter
          (fun s => decide (s.sessions_id ≠ bid))
        = store.filter (fun s => decide (s.sessions_id ≠ bid))) ∧
    ((WelcomePage.handleCancelBooking tza today del list bid st).result.calls
        = [.deleteSession { table := "sessions", sessions_id := bid }] ∨
      (WelcomePage.handleCancelBooking tza today del list bid st).result.calls
        = [.deleteSession { table := "sessions", sessions_id := bid },
           .selectSessions (WelcomePage.sessionsQuery (todayFormatted tza today))]) ∧
    store.delete { table := "sessions", sessions_id := bid }
      = store.filter (fun s => decide (s.sessions_id ≠ bid)) :=
  ⟨⟨_, handleJoinLeaveBooking_calls u bid a action upd⟩,
   Legacy.handleJoinLeaveBooking_legacy_calls u bid a action upd,
   fun l => ⟨Store.update_frame store _,
     Store.update_others store { table := "sessions", players_attending := l, sessions_id := bid }⟩,
   WelcomePage.handleCancelBooking_calls tza today del list bid st,
   rfl⟩

/-! ## A rejected booking -/

/-- C15: when the store rejects the insert with the message `m`, `handleBookCourt`
has issued exactly one insert (of one row), the booking message is
`Failed to book court: ` followed by `m`, and the rest of the state, the
selected date, court and time slot included, is as it was. -/
theorem handleBookCourt_rejected (userId : String) (formatDisplay : JSDate → String)
    (store : InsertCall → Option String) (st : CalendarState)
    (date : JSDate) (court slot m : String)
    (hdate : st.selectedDate = some date) (hcourt : st.selectedCourt = some court)
    (hslot : st.selectedTimeSlot = some slot) (hc : court ≠ "") (hs : slot ≠ "")
    (hstore : store
        { table := "sessions"
          rows := [{ created_by := userId, court := court, date_time := fullDateTime date slot
                     location := "Wanstead Leisure Centre", status := "Booked"
                     players_attending := [userId] }] } = some m) :
    (handleBookCourt userId formatDisplay store st).1
      = { st with bookingMessage := "Failed to book court: " ++ m } ∧
    (handleBookCourt userId formatDisplay store st).2
      = [{ table := "sessions"
           rows := [{ created_by := userId, court := court, date_time := fullDateTime date slot
                      location := "Wanstead Leisure Centre", status := "Booked"
                      players_attending := [userId] }] }] := by
  have ht : (truthyString (some court) && truthyString (some slot)) = true := by
    simp [truthyString, hc, hs]
  unfold handleBookCourt
  simp only [hdate, hcourt, hslot, ht, if_true, Option.getD_some, hstore]
  exact ⟨trivial, trivial⟩

/-- Witness of C15: the store answers every insert with `row-level security`. -/
theorem handleBookCourt_rejected_witness :
    (handleBookCourt "u1" (fun _ => "") (fun _ => some "row-level security")
        { currentMonth := 7, currentYear := 2025, selectedDate := some (calendarDate 0 2025 7 10)
          selectedCourt := some "Court 1 (Badminton)", selectedTimeSlot := some "09:00 - 10:00"
          bookingMessage := "" }).1
      = { currentMonth := 7, currentYear := 2025, selectedDate := some (calendarDate 0 2025 7 10)
          selectedCourt := some "Court 1 (Badminton)", selectedTimeSlot := some "09:00 - 10:00"
          bookingMessage := "Failed to book court: " ++ "row-level security" } ∧
    (handleBookCourt "u1" (fun _ => "") (fun _ => some "row-level security")
        { currentMonth := 7, currentYear := 2025, selectedDate := some (calendarDate 0 2025 7 10)
          selectedCourt := some "Court 1 (Badminton)", selectedTimeSlot := some "09:00 - 10:00"
          bookingMessage := "" }).2
      = [{ table := "sessions"
           rows := [{ created_by := "u1", court := "Court 1 (Badminton)"
                      date_time := fullDateTime (calendarDate 0 2025 7 10) "09:00 - 10:00"
                      location := "Wanstead Leisure Centre", status := "Booked"
                      players_attending := ["u1"] }] }] :=
  handleBookCourt_rejected "u1" (fun _ => "") (fun _ => some "row-level security")
    { currentMonth := 7, currentYear := 2025, selectedDate := some (calendarDate 0 2025 7 10)
      selectedCourt := some "Court 1 (Badminton)", selectedTimeSlot := some "09:00 - 10:00"
      bookingMessage := "" }
    (calendarDate 0 2025 7 10) "Court 1 (Badminton)" "09:00 - 10:00" "row-level security"
    rfl rfl rfl (by decide) (by decide) rfl

/-! ## Loading flags -/

/-- C16: whatever the store answers to the bookings query (data, an error, or a
rejection that makes the `await` throw), `loadingBookings` is `false` when
`fetchBookings` has ended, in `UserBookingsPage` and in `WelcomePage`; and
whatever `signOut` answers, `loading` is `false` when `handleLogout` has ended. -/
theorem loading_flags_cleared (tza : Int) (today : JSDate)
    (store : SelectCall → Response (List Session)) (ust : UserBookingsState)
    (session : AuthUser) (wst : WelcomeState) (signOut : Response Unit) (ast : AppState) :
    (UserBookingsPage.fetchBookings tza today store ust).result.state.loadingBookings = false ∧
    (WelcomePage.fetchBookings session tza today store wst).result.state.loadingBookings = false ∧
    (handleLogout signOut ast).result.state.loading = false := by
  refine ⟨?_, ?_, ?_⟩
  · unfold UserBookingsPage.fetchBookings
    simp only []
    cases store (UserBookingsPage.bookingsQuery (todayFormatted tza today)) <;> rfl
  · unfold WelcomePage.fetchBookings
    simp only []
    by_cases hs : truthyString session.id = true
    · simp only [hs, not_true_eq_false, if_false]
      cases store (WelcomePage.sessionsQuery (todayFormatted tza today)) <;> rfl
    · simp only [hs, not_false_eq_true, if_true]
      rfl
  · unfold handleLogout
    simp only []
    cases signOut <;> rfl


/-! ## Message styles -/

theorem startsWith_append (pre rest : String) : startsWith (pre ++ rest) pre = true := by
  simp [startsWith, String.data_append, List.isPrefixOf]

theorem handleBookCourt_message_style (userId : String) (formatDisplay : JSDate → String)
    (store : InsertCall → Option String) (st : CalendarState) :
    ∀ c ∈ (handleBookCourt userId formatDisplay store st).2,
      (∀ m, store c = some m →
        startsWith (handleBookCourt userId formatDisplay store st).1.bookingMessage "Failed" = true ∧
        CalendarPage.messageIsSuccess
          (handleBookCourt userId formatDisplay store st).1.bookingMessage = false) ∧
      (store c = none →
        CalendarPage.messageIsSuccess
          (handleBookCourt userId formatDisplay store st).1.bookingMessage = true) := by
  unfold handleBookCourt
  cases hd : st.selectedDate with
  | none => simp
  | some date =>
    by_cases ht : (truthyString st.selectedCourt && truthyString st.selectedTimeSlot) = true
    · simp only [ht, if_true]
      intro c hc
      cases hstore : store
          { table := "sessions"
            rows := [{ created_by := userId, court := st.selectedCourt.getD ""
                       date_time := fullDateTime date (st.selectedTimeSlot.getD "")
                       location := "Wanstead Leisure Centre", status := "Booked"
                       players_attending := [userId] }] } with
      | none =>
        simp only [hstore, List.mem_singleton] at hc ⊢
        subst hc
        simp [hstore, CalendarPage.messageIsSuccess, startsWith, String.data_append, List.isPrefixOf]
      | some m =>
        simp only [hstore, List.mem_singleton] at hc ⊢
        subst hc
        simp [hstore, CalendarPage.messageIsSuccess, startsWith, String.data_append, List.isPrefixOf]
    · simp [ht]

theorem handleJoinLeaveBooking_message_style (u : String) (bid : Nat)
    (a : Option (List String)) (action : String) (store : UpdateCall → Option String) :
    ∀ c ∈ (handleJoinLeaveBooking u bid a action store).calls,
      (∀ m, store c = some m →
        startsWith (handleJoinLeaveBooking u bid a action store).bookingMessage "Failed" = true ∧
        UserBookingsPage.messageIsFailure
          (handleJoinLeaveBooking u bid a action store).bookingMessage = true) ∧
      (store c = none →
        UserBookingsPage.messageIsFailure
          (handleJoinLeaveBooking u bid a action store).bookingMessage = false) := by
  intro c hc
  rw [handleJoinLeaveBooking_calls, List.mem_singleton] at hc
  subst hc
  unfold handleJoinLeaveBooking
  simp only []
  cases hstore : store
      { table := "sessions", players_attending := newPlayersAttendingArray u a action
        sessions_id := bid } with
  | none =>
    by_cases hact : action = "join" <;>
      simp [hact, UserBookingsPage.messageIsFailure, startsWith, String.data_append, List.isPrefixOf]
  | some m =>
    simp [UserBookingsPage.messageIsFailure, startsWith, String.data_append, List.isPrefixOf]

theorem WelcomePage.handleCancelBooking_message_style (tza : Int) (today : JSDate)
    (del : DeleteCall → Response Unit) (store : SelectCall → Response (List Session))
    (bid : Nat) (st : WelcomeState) :
    WelcomePage.messageIsFailure
        (WelcomePage.handleCancelBooking tza today del store bid st).result.state.cancelMessage
      = !((del { table := "sessions", sessions_id := bid }).isOk
          && (store (WelcomePage.sessionsQuery (todayFormatted tza today))).isOk) := by
  unfold WelcomePage.handleCancelBooking WelcomePage.refetch
  simp only []
  cases del { table := "sessions", sessions_id := bid } with
  | error m =>
    simp [tryCatch, Completion.result, Response.isOk, WelcomePage.messageIsFailure, startsWith,
      String.data_append, List.isPrefixOf]
  | rejected m =>
    simp [tryCatch, Completion.result, Response.isOk, WelcomePage.messageIsFailure, startsWith,
      String.data_append, List.isPrefixOf]
  | ok x =>
    cases store (WelcomePage.sessionsQuery (todayFormatted tza today)) <;>
      simp [tryCatch, Completion.result, Response.isOk, WelcomePage.messageIsFailure, startsWith,
        String.data_append, List.isPrefixOf]

theorem WelcomePage.handleNameSubmit_message_style (session : AuthUser) (tza : Int)
    (today : JSDate) (ins : List NewUser → Response Unit)
    (store : SelectCall → Response (List Session)) (st : WelcomeState) (id : String)
    (hname : truthy (trim st.userName) = true) (hid : session.id = some id) (hne : id ≠ "") :
    WelcomePage.messageIsFailure
        (WelcomePage.handleNameSubmit session tza today ins store st).result.state.cancelMessage
      = !((ins [{ user_id := id, name := trim st.userName }]).isOk
          && (store (WelcomePage.sessionsQuery (todayFormatted tza today))).isOk) := by
  unfold WelcomePage.handleNameSubmit WelcomePage.refetch
  simp only [hname, hid, hne, not_true_eq_false, if_false]
  cases ins [{ user_id := id, name := trim st.userName }] with
  | error m =>
    simp [tryCatch, Completion.result, Response.isOk, WelcomePage.messageIsFailure, startsWith,
      String.data_append, List.isPrefixOf]
  | rejected m =>
    simp [tryCatch, Completion.result, Response.isOk, WelcomePage.messageIsFailure, startsWith,
      String.data_append, List.isPrefixOf]
  | ok x =>
    cases store (WelcomePage.sessionsQuery (todayFormatted tza today)) <;>
      simp [tryCatch, Completion.result, Response.isOk, WelcomePage.messageIsFailure, startsWith,
        String.data_append, List.isPrefixOf]

theorem UserBookingsPage.fetchBookings_message_style (tza : Int) (today : JSDate)
    (store : SelectCall → Response (List Session)) (st : UserBookingsState) :
    ((store (UserBookingsPage.bookingsQuery (todayFormatted tza today))).isOk = false →
      startsWith
        (UserBookingsPage.fetchBookings tza today store st).result.state.bookingMessage
        "Error" = true ∧
      UserBookingsPage.messageIsFailure
        (UserBookingsPage.fetchBookings tza today store st).result.state.bookingMessage = true) ∧
    ((store (UserBookingsPage.bookingsQuery (todayFormatted tza today))).isOk = true →
      (UserBookingsPage.fetchBookings tza today store st).result.state.bookingMessage
        = st.bookingMessage) := by
  unfold UserBookingsPage.fetchBookings
  simp only []
  cases store (UserBookingsPage.bookingsQuery (todayFormatted tza today)) <;>
    simp [tryCatch, andFinally, Completion.result, Response.isOk,
      UserBookingsPage.messageIsFailure, startsWith, String.data_append, List.isPrefixOf]


/-- C17: failure and success messages are told apart by the style test of their
page. Booking (`CalendarPage`): a rejected insert sets a message that starts
with `Failed` and fails the `Successfully` test, an accepted one passes it.
Join and leave (`UserBookingsPage`): a rejected update sets a message that
starts with `Failed` and passes the `Error`/`Failed` test, an accepted one does
not pass it. Cancel and save name (`WelcomePage`): the final message passes the
`Failed` test exactly when the write or the query after it failed. Fetching
the bookings: in `UserBookingsPage` a failed query sets a message that starts
with `Error`, a successful one sets no message; in `WelcomePage` no message is
set either way. -/
theorem message_styles :
    (∀ (userId : String) (formatDisplay : JSDate → String) (store : InsertCall → Option String)
        (st : CalendarState),
      ∀ c ∈ (handleBookCourt userId formatDisplay store st).2,
        (∀ m, store c = some m →
          startsWith (handleBookCourt userId formatDisplay store st).1.bookingMessage "Failed"
            = true ∧
          CalendarPage.messageIsSuccess
            (handleBookCourt userId formatDisplay store st).1.bookingMessage = false) ∧
        (store c = none →
          CalendarPage.messageIsSuccess
            (handleBookCourt userId formatDisplay store st).1.bookingMessage = true)) ∧
    (∀ (u : String) (bid : Nat) (a : Option (List String)) (action : String)
        (store : UpdateCall → Option String),
      ∀ c ∈ (handleJoinLeaveBooking u bid a action store).calls,
        (∀ m, store c = some m →
          startsWith (handleJoinLeaveBooking u bid a action store).bookingMessage "Failed" = true ∧
          UserBookingsPage.messageIsFailure
            (handleJoinLeaveBooking u bid a action store).bookingMessage = true) ∧
        (store c = none →
          UserBookingsPage.messageIsFailure
            (handleJoinLeaveBooking u bid a action store).bookingMessage = false)) ∧
    (∀ (tza : Int) (today : JSDate) (del : DeleteCall → Response Unit)
        (store : SelectCall → Response (List Session)) (bid : Nat) (st : WelcomeState),
      WelcomePage.messageIsFailure
          (WelcomePage.handleCancelBooking tza today del store bid st).result.state.cancelMessage
        = !((del { table := "sessions", sessions_id := bid }).isOk
            && (store (WelcomePage.sessionsQuery (todayFormatted tza today))).isOk)) ∧
    (∀ (session : AuthUser) (tza : Int) (today : JSDate) (ins : List NewUser → Response Unit)
        (store : SelectCall → Response (List Session)) (st : WelcomeState) (id : String),
      truthy (trim st.userName) = true → session.id = some id → id ≠ "" →
      WelcomePage.messageIsFailure
          (WelcomePage.handleNameSubmit session tza today ins store st).result.state.cancelMessage
        = !((ins [{ user_id := id, name := trim st.userName }]).isOk
            && (store (WelcomePage.sessionsQuery (todayFormatted tza today))).isOk)) ∧
    (∀ (tza : Int) (today : JSDate) (store : SelectCall → Response (List Session))
        (st : UserBookingsState),
      ((store (UserBookingsPage.bookingsQuery (todayFormatted tza today))).isOk = false →
        startsWith
          (UserBookingsPage.fetchBookings tza today store st).result.state.bookingMessage
          "Error" = true ∧
        UserBookingsPage.messageIsFailure
          (UserBookingsPage.fetchBookings tza today store st).result.state.bookingMessage = true) ∧
      ((store (UserBookingsPage.bookingsQuery (todayFormatted tza today))).isOk = true →
        (UserBookingsPage.fetchBookings tza today store st).result.state.bookingMessage
          = st.bookingMessage)) ∧
    (∀ (session : AuthUser) (tza : Int) (today : JSDate)
        (store : SelectCall → Response (List Session)) (st : WelcomeState),
      (WelcomePage.fetchBookings session tza today store st).result.state.cancelMessage
        = st.cancelMessage) := by
  refine ⟨handleBookCourt_message_style, handleJoinLeaveBooking_message_style,
    WelcomePage.handleCancelBooking_message_style,
    fun session tza today ins store st id h1 h2 h3 =>
      WelcomePage.handleNameSubmit_message_style session tza today ins store st id h1 h2 h3,
    UserBookingsPage.fetchBookings_message_style, ?_⟩
  intro session tza today store st
  unfold WelcomePage.fetchBookings
  simp only []
  by_cases hs : truthyString session.id = true
  · simp only [hs, not_true_eq_false, if_false]
    cases store (WelcomePage.sessionsQuery (todayFormatted tza today)) <;> rfl
  · simp only [hs, not_false_eq_true, if_true]
    rfl

/-- Witness of C17: a booking that the store rejects with `denied`. -/
theorem message_styles_witness :
    startsWith
        (handleBookCourt "u1" (fun _ => "") (fun _ => some "denied")
          { currentMonth := 7, currentYear := 2025
            selectedDate := some (calendarDate 0 2025 7 10)
            selectedCourt := some "Court 1 (Badminton)"
            selectedTimeSlot := some "09:00 - 10:00"
            bookingMessage := "" }).1.bookingMessage "Failed" = true ∧
    CalendarPage.messageIsSuccess
        (handleBookCourt "u1" (fun _ => "") (fun _ => some "denied")
          { currentMonth := 7, currentYear := 2025
            selectedDate := some (calendarDate 0 2025 7 10)
            selectedCourt := some "Court 1 (Badminton)"
            selectedTimeSlot := some "09:00 - 10:00"
            bookingMessage := "" }).1.bookingMessage = false :=
  (message_styles.1 "u1" (fun _ => "") (fun _ => some "denied")
      { currentMonth := 7, currentYear := 2025
        selectedDate := some (calendarDate 0 2025 7 10)
        selectedCourt := some "Court 1 (Badminton)"
        selectedTimeSlot := some "09:00 - 10:00"
        bookingMessage := "" }
      { table := "sessions"
        rows := [{ created_by := "u1", court := "Court 1 (Badminton)"
                   date_time := fullDateTime (calendarDate 0 2025 7 10) "09:00 - 10:00"
                   location := "Wanstead Leisure Centre", status := "Booked"
                   players_attending := ["u1"] }] }
      (List.mem_singleton.mpr rfl)).1 "denied" rfl


/-! ## Registering a name -/

theorem trim_of_blank (s : String) (h : ∀ c ∈ s.data, isJSWhiteSpace c = true) : trim s = "" := by
  unfold trim
  have h1 : s.data.dropWhile isJSWhiteSpace = [] := List.dropWhile_eq_nil_iff.mpr h
  rw [h1]
  rfl

/-- What `trim` returns lies inside its argument between a stretch of white
space before and one after, and neither starts nor ends with white space. -/
theorem trim_spec (s : String) :
    (∃ pre post : List Char, s.data = pre ++ (trim s).data ++ post ∧
      (∀ c ∈ pre, isJSWhiteSpace c = true) ∧ (∀ c ∈ post, isJSWhiteSpace c = true)) ∧
    (∀ c, (trim s).data.head? = some c → isJSWhiteSpace c = false) ∧
    (∀ c, (trim s).data.getLast? = some c → isJSWhiteSpace c = false) := by
  unfold trim
  simp only []
  set l := s.data with hl
  set m := l.dropWhile isJSWhiteSpace with hm
  refine ⟨⟨l.takeWhile isJSWhiteSpace, (m.reverse.takeWhile isJSWhiteSpace).reverse, ?_, ?_, ?_⟩,
    ?_, ?_⟩
  · have h1 : l = l.takeWhile isJSWhiteSpace ++ m := (List.takeWhile_append_dropWhile _ _).symm
    have h2 : m.reverse = m.reverse.takeWhile isJSWhiteSpace ++ m.reverse.dropWhile isJSWhiteSpace :=
      (List.takeWhile_append_dropWhile _ _).symm
    have h3 : m = (m.reverse.dropWhile isJSWhiteSpace).reverse
        ++ (m.reverse.takeWhile isJSWhiteSpace).reverse := by
      rw [← List.reverse_append, ← h2, List.reverse_reverse]
    rw [List.append_assoc, ← h3]
    exact h1
  · intro c hc
    exact List.mem_takeWhile_imp hc
  · intro c hc
    exact List.mem_takeWhile_imp (List.mem_reverse.mp hc)
  · intro c hc
    by_contra hws
    have hws' : isJSWhiteSpace c = true := by simpa using hws
    -- the first character of the result is a character of `m`, whose white space is gone
    have hm0 : ∀ x, m.head? = some x → isJSWhiteSpace x = false := by
      intro x hx
      have := List.head?_dropWhile_not isJSWhiteSpace l
      rw [← hm, hx] at this
      exact this
    by_cases hall : ∀ x ∈ m.reverse, isJSWhiteSpace x = true
    · have : m.reverse.dropWhile isJSWhiteSpace = [] := List.dropWhile_eq_nil_iff.mpr hall
      rw [this] at hc
      simp at hc
    · -- some character of `m` is kept, so the result starts where `m` starts
      have h2 : m.reverse = m.reverse.takeWhile isJSWhiteSpace ++ m.reverse.dropWhile isJSWhiteSpace :=
        (List.takeWhile_append_dropWhile _ _).symm
      have h3 : m = (m.reverse.dropWhile isJSWhiteSpace).reverse
          ++ (m.reverse.takeWhile isJSWhiteSpace).reverse := by
        rw [← List.reverse_append, ← h2, List.reverse_reverse]
      have hne : (m.reverse.dropWhile isJSWhiteSpace).reverse ≠ [] := by
        intro hnil
        apply hall
        have : m.reverse.dropWhile isJSWhiteSpace = [] := by simpa using hnil
        exact List.dropWhile_eq_nil_iff.mp this
      have hhead : m.head? = some c := by
        rw [h3, List.head?_append_of_ne_nil _ hne]
        exact hc
      rw [hm0 c hhead] at hws'
      exact Bool.noConfusion hws'
  · intro c hc
    rw [List.getLast?_reverse] at hc
    have := List.head?_dropWhile_not isJSWhiteSpace m.reverse
    rw [hc] at this
    exact this

/-- C18: a name that is empty or all white space fails validation in
`handleNameSubmit`: no request is sent, and the state is as before but for the
message `Please enter your name.` (the id-to-name map and `showNameInput`
unchanged). And every insert that `handleNameSubmit` sends goes to `users`
with one row, whose `user_id` is the session's and whose name is the trimmed
input, not empty. -/
theorem handleNameSubmit_validation (session : AuthUser) (tza : Int) (today : JSDate)
    (ins : List NewUser → Response Unit) (store : SelectCall → Response (List Session))
    (st : WelcomeState) :
    ((∀ c ∈ st.userName.data, isJSWhiteSpace c = true) →
      WelcomePage.handleNameSubmit session tza today ins store st
        = .returned ⟨{ st with cancelMessage := "Please enter your name." }, []⟩) ∧
    (∀ table rows,
      WelcomeCall.insertUser table rows
          ∈ (WelcomePage.handleNameSubmit session tza today ins store st).result.calls →
      table = "users" ∧ trim st.userName ≠ "" ∧
        ∃ id, session.id = some id ∧ rows = [{ user_id := id, name := trim st.userName }]) := by
  constructor
  · intro hblank
    unfold WelcomePage.handleNameSubmit
    have : truthy (trim st.userName) = false := by
      rw [trim_of_blank _ hblank]
      rfl
    simp [this]
  · intro table rows hmem
    unfold WelcomePage.handleNameSubmit WelcomePage.refetch at hmem
    by_cases hname : truthy (trim st.userName) = true
    · have hne : trim st.userName ≠ "" := by
        simpa [truthy] using hname
      simp only [hname, not_true_eq_false, if_false] at hmem
      cases hid : session.id with
      | none =>
        simp only [hid] at hmem
        simp [Completion.result] at hmem
      | some id =>
        simp only [hid] at hmem
        by_cases hempty : id = ""
        · simp [hempty, Completion.result] at hmem
        · simp only [hempty, if_false] at hmem
          cases hins : ins [{ user_id := id, name := trim st.userName }] with
          | error m =>
            simp only [hins, tryCatch, Completion.result, List.mem_singleton] at hmem
            injection hmem with h1 h2
            exact ⟨h1, hne, id, rfl, h2⟩
          | rejected m =>
            simp only [hins, tryCatch, Completion.result, List.mem_singleton] at hmem
            injection hmem with h1 h2
            exact ⟨h1, hne, id, rfl, h2⟩
          | ok x =>
            simp only [hins] at hmem
            cases hq : store (WelcomePage.sessionsQuery (todayFormatted tza today)) with
            | ok data =>
              simp [hq, tryCatch, Completion.result] at hmem
              exact ⟨hmem.1, hne, id, rfl, hmem.2⟩
            | error m =>
              simp [hq, tryCatch, Completion.result] at hmem
              exact ⟨hmem.1, hne, id, rfl, hmem.2⟩
            | rejected m =>
              simp [hq, tryCatch, Completion.result] at hmem
              exact ⟨hmem.1, hne, id, rfl, hmem.2⟩
    · simp [hname, Completion.result] at hmem


/-- Witness of C18: the name typed is two blanks and a tab. -/
theorem handleNameSubmit_validation_witness :
    (∀ c ∈ ("  \t" : String).data, isJSWhiteSpace c = true) ∧
    WelcomePage.handleNameSubmit { id := some "u1", email := some "u1@example.com", user_type := none }
        0 (calendarDate 0 2025 7 10) (fun _ => .ok ()) (fun _ => .ok [])
        { badmintonBookings := [], tennisBookings := [], allBookingsForAdmin := []
          loadingBookings := false, allUsersMap := [], cancelMessage := ""
          showNameInput := true, userName := "  \t" }
      = .returned
          ⟨{ badmintonBookings := [], tennisBookings := [], allBookingsForAdmin := []
             loadingBookings := false, allUsersMap := [], cancelMessage := "Please enter your name."
             showNameInput := true, userName := "  \t" }, []⟩ :=
  ⟨by decide,
   (handleNameSubmit_validation
      { id := some "u1", email := some "u1@example.com", user_type := none }
      0 (calendarDate 0 2025 7 10) (fun _ => .ok ()) (fun _ => .ok [])
      { badmintonBookings := [], tennisBookings := [], allBookingsForAdmin := []
        loadingBookings := false, allUsersMap := [], cancelMessage := ""
        showNameInput := true, userName := "  \t" }).1 (by decide)⟩

/-! ## The user directory on the welcome page -/

theorem JSObject.get_set (o : JSObject) (key : String) (value : Option String) (k : String) :
    (o.set key value).get k = if k = key then value else o.get k := by
  induction o with
  | nil =>
    simp only [JSObject.set, JSObject.get]
    by_cases h : key = k
    · simp [h]
    · have h' : ¬ k = key := fun e => h e.symm
      simp [h, h']
  | cons p rest ih =>
    obtain ⟨k0, v0⟩ := p
    simp only [JSObject.set]
    by_cases h0 : k0 = key
    · simp only [h0, if_true, JSObject.get]
      by_cases h : key = k
      · simp [h]
      · have h' : ¬ k = key := fun e => h e.symm
        simp [h, h']
    · simp only [h0, if_false, JSObject.get, ih]
      by_cases h : k0 = k
      · have h' : ¬ k = key := fun e => h0 (h.trans e)
        simp [h, h']
      · simp [h]

theorem orElse_truthy (name email : Option String) (hemail : truthyString email = true) :
    truthyString (orElse name email) = true := by
  unfold orElse
  by_cases h : truthyString name = true
  · simp [h]
  · simp [h, hemail]

theorem foldl_set_truthy (session : AuthUser) (hemail : truthyString session.email = true)
    (usersData : List UserRow) (acc : JSObject) (id : String) :
    truthyString
        ((usersData.foldl
          (fun map user => map.set user.user_id (orElse user.name session.email)) acc).get id) = true
      ↔ (∃ r ∈ usersData, r.user_id = id) ∨ truthyString (acc.get id) = true := by
  induction usersData generalizing acc with
  | nil => simp
  | cons r rest ih =>
    rw [List.foldl_cons, ih, JSObject.get_set]
    by_cases h : id = r.user_id
    · simp [h, orElse_truthy _ _ hemail]
    · have h' : ¬ r.user_id = id := fun e => h e.symm
      simp [h, h']

/-- When the session has an email address, the name prompt is raised exactly
when no fetched record has the session's user id. -/
theorem fetchAllUsersAndCheckCurrentUser_prompt_iff (session : AuthUser) (id : String)
    (usersData : List UserRow) (st : WelcomeState)
    (hid : session.id = some id) (hne : id ≠ "") (hemail : truthyString session.email = true)
    (hst : st.showNameInput = false) :
    (WelcomePage.fetchAllUsersAndCheckCurrentUser session (.ok (some usersData)) st
        ).result.state.showNameInput = true
      ↔ ¬ ∃ r ∈ usersData, r.user_id = id := by
  have hmap : truthyString ((WelcomePage.buildUsersMap session usersData).get id) = true
      ↔ ∃ r ∈ usersData, r.user_id = id := by
    have h := foldl_set_truthy session hemail usersData [] id
    have h0 : ¬ truthyString (JSObject.get [] id) = true := by
      simp [JSObject.get, truthyString]
    unfold WelcomePage.buildUsersMap
    rw [h]
    exact or_iff_left h0
  unfold WelcomePage.fetchAllUsersAndCheckCurrentUser
  simp only [hid, hne, if_false]
  by_cases hex : ∃ r ∈ usersData, r.user_id = id
  · have ht := hmap.mpr hex
    simp only [ht, not_true_eq_false, if_false, Completion.result, hst]
    simp [hex]
  · have ht : ¬ truthyString ((WelcomePage.buildUsersMap session usersData).get id) = true :=
      fun h => hex (hmap.mp h)
    simp only [ht, not_false_eq_true, if_true, Completion.result]
    simp [hex]

/-- C19, evaluated where it fails: the session has no email address and the
directory holds the record of the session's user, with no name. A record with
the session's user id exists, and yet the page raises the name prompt. -/
theorem fetchAllUsersAndCheckCurrentUser_prompts_registered_user :
    (∃ r ∈ [({ user_id := "u1", name := none } : UserRow)], r.user_id = "u1") ∧
    (WelcomePage.fetchAllUsersAndCheckCurrentUser
        { id := some "u1", email := none, user_type := none }
        (.ok (some [{ user_id := "u1", name := none }]))
        { badmintonBookings := [], tennisBookings := [], allBookingsForAdmin := []
          loadingBookings := true, allUsersMap := [], cancelMessage := ""
          showNameInput := false, userName := "" }).result.state.showNameInput = true := by
  decide

/-- C20, evaluated where it fails: `u1` is signed in and the directory holds a
record of another user, `u2`, with no name. The map shows `u2` under the email
address of `u1`, not under an email address or the identifier of `u2`. -/
theorem buildUsersMap_shows_session_email_for_others :
    WelcomePage.buildUsersMap { id := some "u1", email := some "u1@example.com", user_type := none }
        [{ user_id := "u2", name := none }]
      = [("u2", some "u1@example.com")] ∧
    (WelcomePage.fetchAllUsersAndCheckCurrentUser
        { id := some "u1", email := some "u1@example.com", user_type := none }
        (.ok (some [{ user_id := "u1", name := some "Ann" }, { user_id := "u2", name := none }]))
        { badmintonBookings := [], tennisBookings := [], allBookingsForAdmin := []
          loadingBookings := true, allUsersMap := [], cancelMessage := ""
          showNameInput := false, userName := "" }).result.state.allUsersMap
      = [("u1", some "Ann"), ("u2", some "u1@example.com")] := by
  decide


/-! ## Display names -/

theorem displayName_empty_map (ids : List String) :
    (ids.map fun id => displayName [] id) = ids := by
  induction ids with
  | nil => rfl
  | cons x xs ih => simp [displayName, JSObject.get]

theorem intercalate_go_eq_jsJoin (separator : String) (rest : List String) :
    ∀ acc x : String,
      String.intercalate.go (acc ++ x) separator rest = acc ++ jsJoin separator (x :: rest) := by
  induction rest with
  | nil =>
    intro acc x
    rfl
  | cons y r ih =>
    intro acc x
    have h : acc ++ x ++ separator ++ y = (acc ++ x ++ separator) ++ y := rfl
    rw [String.intercalate.go, h, ih (acc ++ x ++ separator) y]
    simp only [jsJoin, String.append_assoc]

/-- The model of `join` agrees with the library's `intercalate`: the items in
their order, the separator between each two. -/
theorem jsJoin_eq_intercalate (separator : String) (items : List String) :
    jsJoin separator items = separator.intercalate items := by
  cases items with
  | nil => rfl
  | cons x rest =>
    have h := intercalate_go_eq_jsJoin separator rest "" x
    simp only [String.empty_append] at h
    rw [String.intercalate, h]

/-- C21: the name shown for an owner or attendee id, on both pages, is the entry
of the id-to-name map when that entry is a non-empty string and the id itself
otherwise; the line after `Attending:` is made of the names of the attendee
list, in its order, with `, ` between each two. A directory fetch that fails
leaves the map of either page as it was, and with the empty map every id is
shown as it is, the line being the ids of the attendee list in its order.
Instances: with `u1` named `Ann` and `u3` holding an empty name, the attendees
`u2`, `u1`, `u3` read `u2, Ann, u3`; with the empty map the attendees `u1`, `u2`
read `u1, u2`; and a fetched user without a name is shown by the raw id. -/
theorem displayName_falls_back (allUsersMap : JSObject) (id : String) (booking : Session)
    (message : String) (ust : UserBookingsState) (session : AuthUser) (wst : WelcomeState) :
    displayName allUsersMap id
      = (if truthyString (allUsersMap.get id) then (allUsersMap.get id).getD "" else id) ∧
    UserBookingsPage.attendingNames allUsersMap booking
      = ", ".intercalate ((booking.players_attending.getD []).map (displayName allUsersMap)) ∧
    (UserBookingsPage.fetchAllUsers (.error message) ust).result.state.allUsersMap
      = ust.allUsersMap ∧
    (WelcomePage.fetchAllUsersAndCheckCurrentUser session (.error message) wst
        ).result.state.allUsersMap = wst.allUsersMap ∧
    displayName [] id = id ∧
    UserBookingsPage.attendingNames [] booking
      = ", ".intercalate (booking.players_attending.getD []) ∧
    UserBookingsPage.attendingNames [("u1", some "Ann"), ("u3", some "")]
        { booking with players_attending := some ["u2", "u1", "u3"] } = "u2, Ann, u3" ∧
    UserBookingsPage.attendingNames [] { booking with players_attending := some ["u1", "u2"] }
      = "u1, u2" ∧
    UserBookingsPage.attendingNames [] { booking with players_attending := some ["u1"] } = "u1" ∧
    UserBookingsPage.attendingNames [] { booking with players_attending := none } = "" ∧
    (UserBookingsPage.fetchAllUsers (.ok (some [{ user_id := "u2", name := none }])) ust
        ).result.state.allUsersMap = [("u2", none)] ∧
    UserBookingsPage.attendingNames [("u2", none)]
        { booking with players_attending := some ["u2"] } = "u2" := by
  refine ⟨?_, ?_, rfl, ?_, rfl, ?_, ?_, ?_, ?_, ?_, ?_, ?_⟩
  · unfold displayName
    cases h : JSObject.get allUsersMap id with
    | none => simp [truthyString]
    | some name =>
      by_cases hn : name = ""
      · simp [truthyString, hn]
      · simp [truthyString, hn]
  · unfold UserBookingsPage.attendingNames UserBookingsPage.currentAttendingPlayers
    exact jsJoin_eq_intercalate _ _
  · unfold WelcomePage.fetchAllUsersAndCheckCurrentUser
    cases session.id with
    | none => rfl
    | some uid =>
      by_cases hu : uid = ""
      · simp [hu, Completion.result]
      · simp [hu, Completion.result]
  · unfold UserBookingsPage.attendingNames UserBookingsPage.currentAttendingPlayers
    rw [displayName_empty_map]
    exact jsJoin_eq_intercalate _ _
  · show jsJoin ", "
        (["u2", "u1", "u3"].map fun id => displayName [("u1", some "Ann"), ("u3", some "")] id)
      = "u2, Ann, u3"
    decide
  · show jsJoin ", " (["u1", "u2"].map fun id => displayName [] id) = "u1, u2"
    decide
  · show jsJoin ", " (["u1"].map fun id => displayName [] id) = "u1"
    decide
  · show jsJoin ", " (([] : List String).map fun id => displayName [] id) = ""
    decide
  · rfl
  · show jsJoin ", " (["u2"].map fun id => displayName [("u2", none)] id) = "u2"
    decide

/-! ## Cancellation is offered to admins -/

/-- C22: a user whose `user_type` is not exactly `Admin` (a missing value
included) is shown no cancel button, so no click of theirs starts
`handleCancelBooking`. For an admin, every button belongs to a booking of
`allBookingsForAdmin`, and a click on it runs `handleCancelBooking` with the
`sessions_id` of that booking, which sends one delete keyed by that id,
followed at most by the query that refreshes the lists. -/
theorem cancel_for_admins_only (session : AuthUser) (tza : Int) (today : JSDate)
    (del : DeleteCall → Response Unit) (store : SelectCall → Response (List Session))
    (st : WelcomeState) (i : Nat) :
    (session.user_type ≠ some "Admin" →
      WelcomePage.cancelButtons session st = [] ∧
      WelcomePage.clickCancel session tza today del store st i = none) ∧
    (∀ run, WelcomePage.clickCancel session tza today del store st i = some run →
      session.user_type = some "Admin" ∧
      ∃ booking, st.allBookingsForAdmin[i]? = some booking ∧
        run = WelcomePage.handleCancelBooking tza today del store booking.sessions_id st ∧
        (run.result.calls
            = [.deleteSession { table := "sessions", sessions_id := booking.sessions_id }] ∨
          run.result.calls
            = [.deleteSession { table := "sessions", sessions_id := booking.sessions_id },
               .selectSessions (WelcomePage.sessionsQuery (todayFormatted tza today))])) := by
  constructor
  · intro hna
    have hb : WelcomePage.cancelButtons session st = [] := by
      unfold WelcomePage.cancelButtons WelcomePage.isAdmin
      have : (session.user_type == some "Admin") = false := by simpa using hna
      simp [this]
    refine ⟨hb, ?_⟩
    unfold WelcomePage.clickCancel
    rw [hb]
    rfl
  · intro run hrun
    unfold WelcomePage.clickCancel at hrun
    have hadmin : session.user_type = some "Admin" := by
      by_contra hna
      have hb : WelcomePage.cancelButtons session st = [] := by
        unfold WelcomePage.cancelButtons WelcomePage.isAdmin
        have : (session.user_type == some "Admin") = false := by simpa using hna
        simp [this]
      rw [hb] at hrun
      simp at hrun
    refine ⟨hadmin, ?_⟩
    cases hget : (WelcomePage.cancelButtons session st)[i]? with
    | none => rw [hget] at hrun; simp at hrun
    | some bid =>
      rw [hget] at hrun
      simp only [Option.map_some', Option.some.injEq] at hrun
      have hbtn : WelcomePage.cancelButtons session st
          = st.allBookingsForAdmin.map fun booking => booking.sessions_id := by
        unfold WelcomePage.cancelButtons at hget ⊢
        by_cases h1 : st.showNameInput = true
        · simp [h1] at hget
        · by_cases h2 : WelcomePage.isAdmin session = true
          · by_cases h3 : st.loadingBookings = true
            · simp [h1, h2, h3] at hget
            · simp [h1, h2, h3]
          · simp [h1, h2] at hget
      rw [hbtn, List.getElem?_map] at hget
      cases hb : st.allBookingsForAdmin[i]? with
      | none => rw [hb] at hget; simp at hget
      | some booking =>
        rw [hb] at hget
        simp only [Option.map_some', Option.some.injEq] at hget
        refine ⟨booking, rfl, ?_, ?_⟩
        · rw [← hrun, hget]
        · rw [← hrun, hget]
          exact WelcomePage.handleCancelBooking_calls tza today del store bid st

/-- Witness of C22: an admin clicks the first cancel button, that of booking 7. -/
theorem cancel_for_admins_only_witness :
    WelcomePage.clickCancel { id := some "u1", email := some "u1@example.com", user_type := some "Admin" }
        0 (calendarDate 0 2025 7 10) (fun _ => .ok ()) (fun _ => .ok [])
        { badmintonBookings := [], tennisBookings := []
          allBookingsForAdmin :=
            [{ sessions_id := 7, location := "Wanstead Leisure Centre", court := "Court 4 (Squash)"
               date_time := "2025-08-10T09:00:00", created_by := "u2"
               players_attending := none, status := "Booked" }]
          loadingBookings := false, allUsersMap := [], cancelMessage := ""
          showNameInput := false, userName := "" } 0
      = some (WelcomePage.handleCancelBooking 0 (calendarDate 0 2025 7 10) (fun _ => .ok ())
          (fun _ => .ok []) 7
          { badmintonBookings := [], tennisBookings := []
            allBookingsForAdmin :=
              [{ sessions_id := 7, location := "Wanstead Leisure Centre", court := "Court 4 (Squash)"
                 date_time := "2025-08-10T09:00:00", created_by := "u2"
                 players_attending := none, status := "Booked" }]
            loadingBookings := false, allUsersMap := [], cancelMessage := ""
            showNameInput := false, userName := "" }) ∧
    (some "Admin" : Option String) = some "Admin" :=
  ⟨rfl,
   ((cancel_for_admins_only
      { id := some "u1", email := some "u1@example.com", user_type := some "Admin" }
      0 (calendarDate 0 2025 7 10) (fun _ => .ok ()) (fun _ => .ok [])
      { badmintonBookings := [], tennisBookings := []
        allBookingsForAdmin :=
          [{ sessions_id := 7, location := "Wanstead Leisure Centre", court := "Court 4 (Squash)"
             date_time := "2025-08-10T09:00:00", created_by := "u2"
             players_attending := none, status := "Booked" }]
        loadingBookings := false, allUsersMap := [], cancelMessage := ""
        showNameInput := false, userName := "" } 0).2 _ rfl).1⟩


/-! ## Double booking and the status label -/

/-- C23: `handleBookCourt` sends nothing but inserts, and the insert it sends is
the same whatever the store answers, so it rests on no session already stored;
and when `u1` and then `u2` book court 1 at 09:00 on the same day, both inserts
are sent and, the store accepting them, two sessions with the same court and
the same `date_time` stand side by side. -/
theorem double_booking_possible :
    (∀ (userId : String) (formatDisplay : JSDate → String)
        (store store2 : InsertCall → Option String) (st : CalendarState),
      (handleBookCourt userId formatDisplay store st).2
        = (handleBookCourt userId formatDisplay store2 st).2) ∧
    (∃ (u1 u2 : String) (st : CalendarState) (s1 s2 : Session),
      u1 ≠ u2 ∧
      ((handleBookCourt u1 (fun _ => "") (fun _ => none) st).2
          ++ (handleBookCourt u2 (fun _ => "") (fun _ => none) st).2).foldl Store.insert []
        = [s1, s2] ∧
      s1.created_by = u1 ∧ s2.created_by = u2 ∧ s1.sessions_id ≠ s2.sessions_id ∧
      s1.court = s2.court ∧ s1.date_time = s2.date_time) := by
  constructor
  · intro userId formatDisplay store store2 st
    unfold handleBookCourt
    cases st.selectedDate with
    | none => rfl
    | some date =>
      by_cases ht : (truthyString st.selectedCourt && truthyString st.selectedTimeSlot) = true
      · simp only [ht, if_true]
        split <;> split <;> rfl
      · simp [ht]
  · refine ⟨"u1", "u2",
      { currentMonth := 7, currentYear := 2025, selectedDate := some (calendarDate 0 2025 7 10)
        selectedCourt := some "Court 1 (Badminton)", selectedTimeSlot := some "09:00 - 10:00"
        bookingMessage := "" },
      { sessions_id := 1, location := "Wanstead Leisure Centre", court := "Court 1 (Badminton)"
        date_time := "2025-08-10T09:00:00", created_by := "u1"
        players_attending := some ["u1"], status := "Booked" },
      { sessions_id := 2, location := "Wanstead Leisure Centre", court := "Court 1 (Badminton)"
        date_time := "2025-08-10T09:00:00", created_by := "u2"
        players_attending := some ["u2"], status := "Booked" }, ?_⟩
    decide

/-- C24, refuted as stated: the record inserted for a complete selection has the
status `Booked`, with a capital letter, which is not the string `booked`. -/
theorem handleBookCourt_status_capital :
    ((handleBookCourt "u1" (fun _ => "") (fun _ => none)
        { currentMonth := 7, currentYear := 2025, selectedDate := some (calendarDate 0 2025 7 10)
          selectedCourt := some "Court 1 (Badminton)", selectedTimeSlot := some "09:00 - 10:00"
          bookingMessage := "" }).2.map fun call => call.rows.map fun row => row.status)
      = [["Booked"]] ∧
    "Booked" ≠ "booked" := by
  decide

/-- C24, as amended: the record that `handleBookCourt` inserts has its status
field equal to the string `Booked`. -/
theorem handleBookCourt_status (userId : String) (formatDisplay : JSDate → String)
    (store : InsertCall → Option String) (st : CalendarState) :
    ∀ call ∈ (handleBookCourt userId formatDisplay store st).2,
      ∀ row ∈ call.rows, row.status = "Booked" := by
  unfold handleBookCourt
  cases st.selectedDate with
  | none => simp
  | some date =>
    by_cases ht : (truthyString st.selectedCourt && truthyString st.selectedTimeSlot) = true
    · simp only [ht, if_true]
      intro call hcall row hrow
      split at hcall <;>
        · simp only [List.mem_singleton] at hcall
          subst hcall
          simp only [List.mem_singleton] at hrow
          subst hrow
          rfl
    · simp [ht]

/-- Witness of C24 as amended: court 1 at 09:00 on 10 August 2025. -/
theorem handleBookCourt_status_witness :
    ({ created_by := "u1", court := "Court 1 (Badminton)"
       date_time := fullDateTime (calendarDate 0 2025 7 10) "09:00 - 10:00"
       location := "Wanstead Leisure Centre", status := "Booked"
       players_attending := ["u1"] } : NewSession).status = "Booked" :=
  handleBookCourt_status "u1" (fun _ => "") (fun _ => none)
    { currentMonth := 7, currentYear := 2025, selectedDate := some (calendarDate 0 2025 7 10)
      selectedCourt := some "Court 1 (Badminton)", selectedTimeSlot := some "09:00 - 10:00"
      bookingMessage := "" }
    { table := "sessions"
      rows := [{ created_by := "u1", court := "Court 1 (Badminton)"
                 date_time := fullDateTime (calendarDate 0 2025 7 10) "09:00 - 10:00"
                 location := "Wanstead Leisure Centre", status := "Booked"
                 players_attending := ["u1"] }] }
    (List.mem_singleton.mpr rfl)
    { created_by := "u1", court := "Court 1 (Badminton)"
      date_time := fullDateTime (calendarDate 0 2025 7 10) "09:00 - 10:00"
      location := "Wanstead Leisure Centre", status := "Booked"
      players_attending := ["u1"] }
    (List.mem_singleton.mpr rfl)

/-! ## The button of a booking -/

/-- C26: for a signed-in user, the button of a booking calls
`handleJoinLeaveBooking` with the id of the booking and its `players_attending`
as the snapshot, with `leave` exactly when the user's id is in that list
(`null` read as empty) and with `join` otherwise; so a join is never offered
to a user in the snapshot passed, nor a leave to a user absent from it. -/
theorem joinLeaveButton_follows_attendance (u : String) (hu : u ≠ "") (booking : Session) :
    ∃ click, UserBookingsPage.joinLeaveButton (some u) booking = some click ∧
      click.bookingId = booking.sessions_id ∧
      click.currentPlayers = booking.players_attending ∧
      (click.action = "leave" ↔ u ∈ booking.players_attending.getD []) ∧
      (click.action = "join" ↔ u ∉ booking.players_attending.getD []) ∧
      (click.action = "join" → u ∉ click.currentPlayers.getD []) ∧
      (click.action = "leave" → u ∈ click.currentPlayers.getD []) := by
  have ht : truthyString (some u) = true := by simp [truthyString, hu]
  have hjl : ("join" : String) ≠ "leave" := by decide
  have hlj : ("leave" : String) ≠ "join" := by decide
  unfold UserBookingsPage.joinLeaveButton UserBookingsPage.isAttending
    UserBookingsPage.currentAttendingPlayers
  by_cases hm : u ∈ booking.players_attending.getD []
  · refine ⟨{ bookingId := booking.sessions_id, currentPlayers := booking.players_attending
              action := "leave" }, ?_, rfl, rfl, ?_, ?_, ?_, ?_⟩
    · simp [ht, hm]
    · simp [hm]
    · simp [hm, hlj]
    · intro h; exact absurd h hlj
    · intro _; exact hm
  · refine ⟨{ bookingId := booking.sessions_id, currentPlayers := booking.players_attending
              action := "join" }, ?_, rfl, rfl, ?_, ?_, ?_, ?_⟩
    · simp [ht, hm]
    · simp [hm, hjl]
    · simp [hm]
    · intro _; exact hm
    · intro h; exact absurd h hjl

/-- Witness of C26: user `u1` looks at a booking that `u2` attends. -/
theorem joinLeaveButton_follows_attendance_witness :
    "u1" ≠ "" ∧
    ∃ click,
      UserBookingsPage.joinLeaveButton (some "u1")
          { sessions_id := 7, location := "Wanstead Leisure Centre", court := "Court 3 (Tennis)"
            date_time := "2025-08-10T09:00:00", created_by := "u2"
            players_attending := some ["u2"], status := "Booked" } = some click ∧
      click.bookingId = 7 ∧
      click.currentPlayers = some ["u2"] ∧
      (click.action = "leave" ↔ "u1" ∈ (some ["u2"] : Option (List String)).getD []) ∧
      (click.action = "join" ↔ "u1" ∉ (some ["u2"] : Option (List String)).getD []) ∧
      (click.action = "join" → "u1" ∉ click.currentPlayers.getD []) ∧
      (click.action = "leave" → "u1" ∈ click.currentPlayers.getD []) :=
  ⟨by decide,
   joinLeaveButton_follows_attendance "u1" (by decide)
    { sessions_id := 7, location := "Wanstead Leisure Centre", court := "Court 3 (Tennis)"
      date_time := "2025-08-10T09:00:00", created_by := "u2"
      players_attending := some ["u2"], status := "Booked" }⟩


/-! ## The `Set` version against the earlier version -/

theorem Legacy.handleJoinLeaveBooking_join_new (u : String) (bid : Nat)
    (a : Option (List String)) (store : UpdateCall → Option String) (hu : u ∉ a.getD []) :
    Legacy.handleJoinLeaveBooking u bid a "join" store
      = (match store { table := "sessions", players_attending := a.getD [] ++ [u]
                       sessions_id := bid } with
         | some message =>
           { calls := [{ table := "sessions", players_attending := a.getD [] ++ [u]
                         sessions_id := bid }]
             bookingMessage := "Failed to " ++ "join" ++ " booking: " ++ message
             refetched := false }
         | none =>
           { calls := [{ table := "sessions", players_attending := a.getD [] ++ [u]
                         sessions_id := bid }]
             bookingMessage := "Successfully " ++ "joined" ++ " the booking."
             refetched := true }) := by
  unfold Legacy.handleJoinLeaveBooking
  simp only [hu, if_true, not_false_eq_true]

theorem Legacy.handleJoinLeaveBooking_leave_present (u : String) (bid : Nat)
    (a : Option (List String)) (store : UpdateCall → Option String) (hu : u ∈ a.getD []) :
    Legacy.handleJoinLeaveBooking u bid a "leave" store
      = (match store { table := "sessions"
                       players_attending := (a.getD []).filter fun id => decide (id ≠ u)
                       sessions_id := bid } with
         | some message =>
           { calls := [{ table := "sessions"
                         players_attending := (a.getD []).filter fun id => decide (id ≠ u)
                         sessions_id := bid }]
             bookingMessage := "Failed to " ++ "leave" ++ " booking: " ++ message
             refetched := false }
         | none =>
           { calls := [{ table := "sessions"
                         players_attending := (a.getD []).filter fun id => decide (id ≠ u)
                         sessions_id := bid }]
             bookingMessage := "Successfully " ++ "left" ++ " the booking."
             refetched := true }) := by
  have h : ¬ ("leave" = "join") := by decide
  unfold Legacy.handleJoinLeaveBooking
  simp only [hu, h, if_true, if_false]

/-- C27: on a snapshot without repeated ids the `Set` version of
`handleJoinLeaveBooking` and the earlier `includes`/`filter` version agree
outright on a request that is not redundant: a join of a user not in the
snapshot writes the snapshot followed by the user, a leave of a user in it
writes the snapshot without the user, same list, same order, same message. On
a redundant request the earlier version writes nothing and reports that the
user is already, or is not, attending, while the `Set` version writes the
snapshot as it is. -/
theorem set_version_refines_legacy (u : String) (bid : Nat) (a : Option (List String))
    (store : UpdateCall → Option String) (ha : (a.getD []).Nodup) :
    (u ∉ a.getD [] →
      handleJoinLeaveBooking u bid a "join" store
        = Legacy.handleJoinLeaveBooking u bid a "join" store ∧
      (handleJoinLeaveBooking u bid a "join" store).calls
        = [{ table := "sessions", players_attending := a.getD [] ++ [u], sessions_id := bid }]) ∧
    (u ∈ a.getD [] →
      handleJoinLeaveBooking u bid a "leave" store
        = Legacy.handleJoinLeaveBooking u bid a "leave" store ∧
      (handleJoinLeaveBooking u bid a "leave" store).calls
        = [{ table := "sessions"
             players_attending := (a.getD []).filter fun id => decide (id ≠ u)
             sessions_id := bid }]) ∧
    (u ∈ a.getD [] →
      Legacy.handleJoinLeaveBooking u bid a "join" store
        = { calls := [], bookingMessage := "You are already attending this booking."
            refetched := false } ∧
      (handleJoinLeaveBooking u bid a "join" store).calls
        = [{ table := "sessions", players_attending := a.getD [], sessions_id := bid }]) ∧
    (u ∉ a.getD [] →
      Legacy.handleJoinLeaveBooking u bid a "leave" store
        = { calls := [], bookingMessage := "You are not currently attending this booking."
            refetched := false } ∧
      (handleJoinLeaveBooking u bid a "leave" store).calls
        = [{ table := "sessions", players_attending := a.getD [], sessions_id := bid }]) := by
  have hof : JSSet.ofArray (a.getD []) = a.getD [] := JSSet.ofArray_of_nodup _ ha
  have hlj : ¬ ("leave" = "join") := by decide
  refine ⟨?_, ?_, ?_, ?_⟩
  · intro hu
    have hnew : newPlayersAttendingArray u a "join" = a.getD [] ++ [u] := by
      rw [newPlayersAttendingArray_join, hof]
      unfold JSSet.add
      rw [if_neg hu]
    refine ⟨?_, by rw [handleJoinLeaveBooking_calls, hnew]⟩
    rw [Legacy.handleJoinLeaveBooking_join_new u bid a store hu]
    unfold handleJoinLeaveBooking
    simp only [hnew, if_true]
  · intro hu
    have hnew : newPlayersAttendingArray u a "leave"
        = (a.getD []).filter fun id => decide (id ≠ u) := by
      rw [newPlayersAttendingArray_leave, hof]
      rfl
    refine ⟨?_, by rw [handleJoinLeaveBooking_calls, hnew]⟩
    rw [Legacy.handleJoinLeaveBooking_leave_present u bid a store hu]
    unfold handleJoinLeaveBooking
    simp only [hnew, hlj, if_false]
  · intro hu
    constructor
    · unfold Legacy.handleJoinLeaveBooking
      simp [hu]
    · rw [handleJoinLeaveBooking_calls, newPlayersAttendingArray_join, hof,
        JSSet.add_of_mem _ _ hu]
  · intro hu
    constructor
    · unfold Legacy.handleJoinLeaveBooking
      simp [hu, hlj]
    · rw [handleJoinLeaveBooking_calls, newPlayersAttendingArray_leave, hof,
        JSSet.delete_of_not_mem _ _ hu]

/-- Witness of C27: `u1` joins a booking that `u2` attends, and the store agrees. -/
theorem set_version_refines_legacy_witness :
    ((some ["u2"] : Option (List String)).getD []).Nodup ∧
    "u1" ∉ (some ["u2"] : Option (List String)).getD [] ∧
    handleJoinLeaveBooking "u1" 7 (some ["u2"]) "join" (fun _ => none)
      = Legacy.handleJoinLeaveBooking "u1" 7 (some ["u2"]) "join" (fun _ => none) ∧
    (handleJoinLeaveBooking "u1" 7 (some ["u2"]) "join" (fun _ => none)).calls
      = [{ table := "sessions"
           players_attending := (some ["u2"] : Option (List String)).getD [] ++ ["u1"]
           sessions_id := 7 }] :=
  ⟨by decide, by decide,
   (set_version_refines_legacy "u1" 7 (some ["u2"]) (fun _ => none) (by decide)).1 (by decide)⟩

/-! ## A cancellation that fails -/

/-- C28: in `handleCancelBooking`, when the delete succeeds and the listing query
that follows fails with the message `e`, the message left is
`Failed to cancel booking: ` followed by `e` (the success message is
overwritten) and everything else, the three lists included, is as before the
call; when the delete itself fails with `e`, the delete is the only request
sent, and again only the message changes. -/
theorem handleCancelBooking_failures (tza : Int) (today : JSDate)
    (del : DeleteCall → Response Unit) (store : SelectCall → Response (List Session))
    (bid : Nat) (st : WelcomeState) (e : String) :
    (del { table := "sessions", sessions_id := bid } = .ok () →
      (store (WelcomePage.sessionsQuery (todayFormatted tza today)) = .error e ∨
        store (WelcomePage.sessionsQuery (todayFormatted tza today)) = .rejected e) →
      (WelcomePage.handleCancelBooking tza today del store bid st).result
        = ⟨{ st with cancelMessage := "Failed to cancel booking: " ++ e },
           [.deleteSession { table := "sessions", sessions_id := bid },
            .selectSessions (WelcomePage.sessionsQuery (todayFormatted tza today))]⟩) ∧
    ((del { table := "sessions", sessions_id := bid } = .error e ∨
        del { table := "sessions", sessions_id := bid } = .rejected e) →
      (WelcomePage.handleCancelBooking tza today del store bid st).result
        = ⟨{ st with cancelMessage := "Failed to cancel booking: " ++ e },
           [.deleteSession { table := "sessions", sessions_id := bid }]⟩) := by
  constructor
  · intro hdel hstore
    unfold WelcomePage.handleCancelBooking WelcomePage.refetch
    simp only [hdel]
    rcases hstore with h | h <;> simp [h, tryCatch, Completion.result]
  · intro hdel
    unfold WelcomePage.handleCancelBooking
    rcases hdel with h | h <;> simp [h, tryCatch, Completion.result]

/-- Witness of C28: the delete succeeds and the listing fails with `timeout`. -/
theorem handleCancelBooking_failures_witness :
    (WelcomePage.handleCancelBooking 0 (calendarDate 0 2025 7 10) (fun _ => .ok ())
        (fun _ => .error "timeout") 7
        { badmintonBookings := [], tennisBookings := []
          allBookingsForAdmin :=
            [{ sessions_id := 7, location := "Wanstead Leisure Centre", court := "Court 4 (Squash)"
               date_time := "2025-08-10T09:00:00", created_by := "u2"
               players_attending := none, status := "Booked" }]
          loadingBookings := false, allUsersMap := [], cancelMessage := ""
          showNameInput := false, userName := "" }).result
      = ⟨{ badmintonBookings := [], tennisBookings := []
           allBookingsForAdmin :=
             [{ sessions_id := 7, location := "Wanstead Leisure Centre", court := "Court 4 (Squash)"
                date_time := "2025-08-10T09:00:00", created_by := "u2"
                players_attending := none, status := "Booked" }]
           loadingBookings := false, allUsersMap := []
           cancelMessage := "Failed to cancel booking: " ++ "timeout"
           showNameInput := false, userName := "" },
         [.deleteSession { table := "sessions", sessions_id := 7 },
          .selectSessions
            (WelcomePage.sessionsQuery (todayFormatted 0 (calendarDate 0 2025 7 10)))]⟩ :=
  (handleCancelBooking_failures 0 (calendarDate 0 2025 7 10) (fun _ => .ok ())
    (fun _ => .error "timeout") 7
    { badmintonBookings := [], tennisBookings := []
      allBookingsForAdmin :=
        [{ sessions_id := 7, location := "Wanstead Leisure Centre", court := "Court 4 (Squash)"
           date_time := "2025-08-10T09:00:00", created_by := "u2"
           players_attending := none, status := "Booked" }]
      loadingBookings := false, allUsersMap := [], cancelMessage := ""
      showNameInput := false, userName := "" } "timeout").1 rfl (Or.inl rfl)

/-! ## Month navigation -/

/-- C30: on a month from 0 to 11, `goToNextMonth` and `goToPrevMonth` give a
month from 0 to 11; the year goes up by one exactly on the step from December
to January and down by one exactly on the step from January to December, and
is otherwise kept; either step undoes the other on the year and the month; and
each clears the selected date, court and time slot and the message. -/
theorem month_navigation (st : CalendarState)
    (h0 : 0 ≤ st.currentMonth) (h11 : st.currentMonth ≤ 11) :
    (0 ≤ (goToNextMonth st).currentMonth ∧ (goToNextMonth st).currentMonth ≤ 11) ∧
    (0 ≤ (goToPrevMonth st).currentMonth ∧ (goToPrevMonth st).currentMonth ≤ 11) ∧
    (goToNextMonth st).currentYear
      = (if st.currentMonth = 11 then st.currentYear + 1 else st.currentYear) ∧
    (goToPrevMonth st).currentYear
      = (if st.currentMonth = 0 then st.currentYear - 1 else st.currentYear) ∧
    ((goToPrevMonth (goToNextMonth st)).currentYear = st.currentYear ∧
      (goToPrevMonth (goToNextMonth st)).currentMonth = st.currentMonth) ∧
    ((goToNextMonth (goToPrevMonth st)).currentYear = st.currentYear ∧
      (goToNextMonth (goToPrevMonth st)).currentMonth = st.currentMonth) ∧
    ((goToNextMonth st).selectedDate = none ∧ (goToNextMonth st).selectedCourt = none ∧
      (goToNextMonth st).selectedTimeSlot = none ∧ (goToNextMonth st).bookingMessage = "") ∧
    ((goToPrevMonth st).selectedDate = none ∧ (goToPrevMonth st).selectedCourt = none ∧
      (goToPrevMonth st).selectedTimeSlot = none ∧ (goToPrevMonth st).bookingMessage = "") := by
  refine ⟨?_, ?_, rfl, rfl, ?_, ?_, ⟨rfl, rfl, rfl, rfl⟩, ⟨rfl, rfl, rfl, rfl⟩⟩
  · unfold goToNextMonth
    simp only []
    split <;> omega
  · unfold goToPrevMonth
    simp only []
    split <;> omega
  · unfold goToNextMonth goToPrevMonth
    by_cases h : st.currentMonth = 11
    · simp [h]
    · have h' : ¬ st.currentMonth + 1 = 0 := by omega
      simp [h, h']
  · unfold goToNextMonth goToPrevMonth
    by_cases h : st.currentMonth = 0
    · simp [h]
    · have h' : ¬ st.currentMonth - 1 = 11 := by omega
      simp [h, h']

/-- Witness of C30: December 2025. -/
theorem month_navigation_witness :
    (goToNextMonth
        { currentMonth := 11, currentYear := 2025, selectedDate := none
          selectedCourt := some "Court 3 (Tennis)", selectedTimeSlot := none
          bookingMessage := "" }).currentYear
      = (if (11 : Int) = 11 then 2025 + 1 else 2025) :=
  (month_navigation
    { currentMonth := 11, currentYear := 2025, selectedDate := none
      selectedCourt := some "Court 3 (Tennis)", selectedTimeSlot := none
      bookingMessage := "" } (by decide) (by decide)).2.2.1


/-! ## More on the date model -/

theorem dayFromYear_succ (y : Int) : dayFromYear (y + 1) = dayFromYear y + daysInYear y := by
  unfold dayFromYear daysInYear
  split
  · omega
  · split
    · omega
    · split <;> omega

theorem daysInYear_eq (y : Int) : daysInYear y = 365 + inLeapYear y := by
  unfold inLeapYear daysInYear
  split
  · simp
  · split
    · simp
    · split <;> simp

theorem inLeapYear_eq (y : Int) :
    inLeapYear y = if (y % 4 = 0 ∧ y % 100 ≠ 0) ∨ y % 400 = 0 then 1 else 0 := by
  unfold inLeapYear daysInYear
  by_cases h4 : y % 4 = 0
  · by_cases h100 : y % 100 = 0
    · by_cases h400 : y % 400 = 0
      · simp [h4, h100, h400]
      · simp [h4, h100, h400]
    · have h400 : ¬ y % 400 = 0 := by omega
      simp [h4, h100, h400]
  · have h400 : ¬ y % 400 = 0 := by omega
    simp [h4, h400]

theorem dayFromYear_mono {a b : Int} (h : a ≤ b) : dayFromYear a ≤ dayFromYear b := by
  unfold dayFromYear
  omega

theorem yearFromDay_unique (d y : Int) (h0 : dayFromYear y ≤ d) (h1 : d < dayFromYear (y + 1)) :
    yearFromDay d = y := by
  have hb := yearFromDay_bounds d
  by_contra hne
  rcases lt_or_gt_of_ne hne with hlt | hgt
  · have : dayFromYear (yearFromDay d + 1) ≤ dayFromYear y := dayFromYear_mono (by omega)
    omega
  · have : dayFromYear (y + 1) ≤ dayFromYear (yearFromDay d) := dayFromYear_mono (by omega)
    omega

theorem dayWithinYear_bounds (d : Int) :
    0 ≤ dayWithinYear d ∧ dayWithinYear d < 365 + inLeapYear (yearFromDay d) := by
  have hb := yearFromDay_bounds d
  rw [dayFromYear_succ, daysInYear_eq] at hb
  unfold dayWithinYear
  omega

theorem inLeapYear_cases (y : Int) : inLeapYear y = 0 ∨ inLeapYear y = 1 := by
  unfold inLeapYear
  split
  · right; rfl
  · left; rfl

theorem monthFromDay_cases (d : Int) :
    (monthFromDay d = 0 ∧ dayWithinYear d < 31) ∨
    (monthFromDay d = 1 ∧ 31 ≤ dayWithinYear d
      ∧ dayWithinYear d < 59 + inLeapYear (yearFromDay d)) ∨
    (monthFromDay d = 2 ∧ 59 + inLeapYear (yearFromDay d) ≤ dayWithinYear d
      ∧ dayWithinYear d < 90 + inLeapYear (yearFromDay d)) ∨
    (monthFromDay d = 3 ∧ 90 + inLeapYear (yearFromDay d) ≤ dayWithinYear d
      ∧ dayWithinYear d < 120 + inLeapYear (yearFromDay d)) ∨
    (monthFromDay d = 4 ∧ 120 + inLeapYear (yearFromDay d) ≤ dayWithinYear d
      ∧ dayWithinYear d < 151 + inLeapYear (yearFromDay d)) ∨
    (monthFromDay d = 5 ∧ 151 + inLeapYear (yearFromDay d) ≤ dayWithinYear d
      ∧ dayWithinYear d < 181 + inLeapYear (yearFromDay d)) ∨
    (monthFromDay d = 6 ∧ 181 + inLeapYear (yearFromDay d) ≤ dayWithinYear d
      ∧ dayWithinYear d < 212 + inLeapYear (yearFromDay d)) ∨
    (monthFromDay d = 7 ∧ 212 + inLeapYear (yearFromDay d) ≤ dayWithinYear d
      ∧ dayWithinYear d < 243 + inLeapYear (yearFromDay d)) ∨
    (monthFromDay d = 8 ∧ 243 + inLeapYear (yearFromDay d) ≤ dayWithinYear d
      ∧ dayWithinYear d < 273 + inLeapYear (yearFromDay d)) ∨
    (monthFromDay d = 9 ∧ 273 + inLeapYear (yearFromDay d) ≤ dayWithinYear d
      ∧ dayWithinYear d < 304 + inLeapYear (yearFromDay d)) ∨
    (monthFromDay d = 10 ∧ 304 + inLeapYear (yearFromDay d) ≤ dayWithinYear d
      ∧ dayWithinYear d < 334 + inLeapYear (yearFromDay d)) ∨
    (monthFromDay d = 11 ∧ 334 + inLeapYear (yearFromDay d) ≤ dayWithinYear d) := by
  have hl := inLeapYear_cases (yearFromDay d)
  unfold monthFromDay
  simp only []
  generalize dayWithinYear d = w
  generalize inLeapYear (yearFromDay d) = leap at hl ⊢
  by_cases h1 : w < 31
  · rw [if_pos h1]; exact Or.inl (⟨rfl, h1⟩)
  rw [if_neg h1]
  by_cases h2 : w < 59 + leap
  · rw [if_pos h2]; exact Or.inr (Or.inl (⟨rfl, by omega, h2⟩))
  rw [if_neg h2]
  by_cases h3 : w < 90 + leap
  · rw [if_pos h3]; exact Or.inr (Or.inr (Or.inl (⟨rfl, by omega, h3⟩)))
  rw [if_neg h3]
  by_cases h4 : w < 120 + leap
  · rw [if_pos h4]; exact Or.inr (Or.inr (Or.inr (Or.inl (⟨rfl, by omega, h4⟩))))
  rw [if_neg h4]
  by_cases h5 : w < 151 + leap
  · rw [if_pos h5]; exact Or.inr (Or.inr (Or.inr (Or.inr (Or.inl (⟨rfl, by omega, h5⟩)))))
  rw [if_neg h5]
  by_cases h6 : w < 181 + leap
  · rw [if_pos h6]; exact Or.inr (Or.inr (Or.inr (Or.inr (Or.inr (Or.inl (⟨rfl, by omega, h6⟩))))))
  rw [if_neg h6]
  by_cases h7 : w < 212 + leap
  · rw [if_pos h7]; exact Or.inr (Or.inr (Or.inr (Or.inr (Or.inr (Or.inr (Or.inl (⟨rfl, by omega, h7⟩)))))))
  rw [if_neg h7]
  by_cases h8 : w < 243 + leap
  · rw [if_pos h8]; exact Or.inr (Or.inr (Or.inr (Or.inr (Or.inr (Or.inr (Or.inr (Or.inl (⟨rfl, by omega, h8⟩))))))))
  rw [if_neg h8]
  by_cases h9 : w < 273 + leap
  · rw [if_pos h9]; exact Or.inr (Or.inr (Or.inr (Or.inr (Or.inr (Or.inr (Or.inr (Or.inr (Or.inl (⟨rfl, by omega, h9⟩)))))))))
  rw [if_neg h9]
  by_cases h10 : w < 304 + leap
  · rw [if_pos h10]; exact Or.inr (Or.inr (Or.inr (Or.inr (Or.inr (Or.inr (Or.inr (Or.inr (Or.inr (Or.inl (⟨rfl, by omega, h10⟩))))))))))
  rw [if_neg h10]
  by_cases h11 : w < 334 + leap
  · rw [if_pos h11]; exact Or.inr (Or.inr (Or.inr (Or.inr (Or.inr (Or.inr (Or.inr (Or.inr (Or.inr (Or.inr (Or.inl (⟨rfl, by omega, h11⟩)))))))))))
  rw [if_neg h11]
  exact Or.inr (Or.inr (Or.inr (Or.inr (Or.inr (Or.inr (Or.inr (Or.inr (Or.inr (Or.inr (Or.inr (⟨rfl, by omega⟩)))))))))))

theorem monthStart_values (leap : Int) :
    monthStart 0 leap = 0 ∧ monthStart 1 leap = 31 ∧ monthStart 2 leap = 59 + leap ∧
    monthStart 3 leap = 90 + leap ∧ monthStart 4 leap = 120 + leap ∧
    monthStart 5 leap = 151 + leap ∧ monthStart 6 leap = 181 + leap ∧
    monthStart 7 leap = 212 + leap ∧ monthStart 8 leap = 243 + leap ∧
    monthStart 9 leap = 273 + leap ∧ monthStart 10 leap = 304 + leap ∧
    monthStart 11 leap = 334 + leap := by
  refine ⟨?_, ?_, ?_, ?_, ?_, ?_, ?_, ?_, ?_, ?_, ?_, ?_⟩ <;> simp [monthStart]

theorem monthFromDay_bounds (d : Int) : 0 ≤ monthFromDay d ∧ monthFromDay d ≤ 11 := by
  have h := monthFromDay_cases d
  omega

theorem dateFromDay_bounds (d : Int) : 1 ≤ dateFromDay d ∧ dateFromDay d ≤ 31 := by
  have hw := dayWithinYear_bounds d
  have hl := inLeapYear_cases (yearFromDay d)
  have hs := monthStart_values (inLeapYear (yearFromDay d))
  have h := monthFromDay_cases d
  obtain ⟨s0, s1, s2, s3, s4, s5, s6, s7, s8, s9, s10, s11⟩ := hs
  unfold dateFromDay
  rcases h with h | h | h | h | h | h | h | h | h | h | h | h
  · rw [h.1, s0]
    clear s0 s1 s2 s3 s4 s5 s6 s7 s8 s9 s10 s11
    omega
  · rw [h.1, s1]
    clear s0 s1 s2 s3 s4 s5 s6 s7 s8 s9 s10 s11
    omega
  · rw [h.1, s2]
    clear s0 s1 s2 s3 s4 s5 s6 s7 s8 s9 s10 s11
    omega
  · rw [h.1, s3]
    clear s0 s1 s2 s3 s4 s5 s6 s7 s8 s9 s10 s11
    omega
  · rw [h.1, s4]
    clear s0 s1 s2 s3 s4 s5 s6 s7 s8 s9 s10 s11
    omega
  · rw [h.1, s5]
    clear s0 s1 s2 s3 s4 s5 s6 s7 s8 s9 s10 s11
    omega
  · rw [h.1, s6]
    clear s0 s1 s2 s3 s4 s5 s6 s7 s8 s9 s10 s11
    omega
  · rw [h.1, s7]
    clear s0 s1 s2 s3 s4 s5 s6 s7 s8 s9 s10 s11
    omega
  · rw [h.1, s8]
    clear s0 s1 s2 s3 s4 s5 s6 s7 s8 s9 s10 s11
    omega
  · rw [h.1, s9]
    clear s0 s1 s2 s3 s4 s5 s6 s7 s8 s9 s10 s11
    omega
  · rw [h.1, s10]
    clear s0 s1 s2 s3 s4 s5 s6 s7 s8 s9 s10 s11
    omega
  · rw [h.1, s11]
    clear s0 s1 s2 s3 s4 s5 s6 s7 s8 s9 s10 s11
    omega

theorem month_table (y m : Int) (h0 : 0 ≤ m) (h11 : m ≤ 11) :
    (m = 0 ∧ monthStart m (inLeapYear y) = 0 ∧ daysInMonth y m = 31) ∨
    (m = 1 ∧ monthStart m (inLeapYear y) = 31 ∧ daysInMonth y m = 28 + inLeapYear y) ∨
    (m = 2 ∧ monthStart m (inLeapYear y) = 59 + inLeapYear y ∧ daysInMonth y m = 31) ∨
    (m = 3 ∧ monthStart m (inLeapYear y) = 90 + inLeapYear y ∧ daysInMonth y m = 30) ∨
    (m = 4 ∧ monthStart m (inLeapYear y) = 120 + inLeapYear y ∧ daysInMonth y m = 31) ∨
    (m = 5 ∧ monthStart m (inLeapYear y) = 151 + inLeapYear y ∧ daysInMonth y m = 30) ∨
    (m = 6 ∧ monthStart m (inLeapYear y) = 181 + inLeapYear y ∧ daysInMonth y m = 31) ∨
    (m = 7 ∧ monthStart m (inLeapYear y) = 212 + inLeapYear y ∧ daysInMonth y m = 31) ∨
    (m = 8 ∧ monthStart m (inLeapYear y) = 243 + inLeapYear y ∧ daysInMonth y m = 30) ∨
    (m = 9 ∧ monthStart m (inLeapYear y) = 273 + inLeapYear y ∧ daysInMonth y m = 31) ∨
    (m = 10 ∧ monthStart m (inLeapYear y) = 304 + inLeapYear y ∧ daysInMonth y m = 30) ∨
    (m = 11 ∧ monthStart m (inLeapYear y) = 334 + inLeapYear y ∧ daysInMonth y m = 31) := by
  have hdays0 : daysInMonth y 0 = 31 := by simp [daysInMonth]
  have hdays1 : daysInMonth y 1 = 28 + inLeapYear y := by
    rw [inLeapYear_eq]
    unfold daysInMonth
    by_cases hc : (y % 4 = 0 ∧ y % 100 ≠ 0) ∨ y % 400 = 0
    · simp only [hc, if_true]
      rfl
    · simp only [hc, if_false, if_true]
      rfl
  have hdays2 : daysInMonth y 2 = 31 := by simp [daysInMonth]
  have hdays3 : daysInMonth y 3 = 30 := by simp [daysInMonth]
  have hdays4 : daysInMonth y 4 = 31 := by simp [daysInMonth]
  have hdays5 : daysInMonth y 5 = 30 := by simp [daysInMonth]
  have hdays6 : daysInMonth y 6 = 31 := by simp [daysInMonth]
  have hdays7 : daysInMonth y 7 = 31 := by simp [daysInMonth]
  have hdays8 : daysInMonth y 8 = 30 := by simp [daysInMonth]
  have hdays9 : daysInMonth y 9 = 31 := by simp [daysInMonth]
  have hdays10 : daysInMonth y 10 = 30 := by simp [daysInMonth]
  have hdays11 : daysInMonth y 11 = 31 := by simp [daysInMonth]
  interval_cases m
  · exact Or.inl ⟨rfl, by simp [monthStart], hdays0⟩
  · exact Or.inr (Or.inl ⟨rfl, by simp [monthStart], hdays1⟩)
  · exact Or.inr (Or.inr (Or.inl ⟨rfl, by simp [monthStart], hdays2⟩))
  · exact Or.inr (Or.inr (Or.inr (Or.inl ⟨rfl, by simp [monthStart], hdays3⟩)))
  · exact Or.inr (Or.inr (Or.inr (Or.inr (Or.inl ⟨rfl, by simp [monthStart], hdays4⟩))))
  · exact Or.inr (Or.inr (Or.inr (Or.inr (Or.inr (Or.inl ⟨rfl, by simp [monthStart], hdays5⟩)))))
  · exact Or.inr (Or.inr (Or.inr (Or.inr (Or.inr (Or.inr (Or.inl ⟨rfl, by simp [monthStart], hdays6⟩))))))
  · exact Or.inr (Or.inr (Or.inr (Or.inr (Or.inr (Or.inr (Or.inr (Or.inl ⟨rfl, by simp [monthStart], hdays7⟩)))))))
  · exact Or.inr (Or.inr (Or.inr (Or.inr (Or.inr (Or.inr (Or.inr (Or.inr (Or.inl ⟨rfl, by simp [monthStart], hdays8⟩))))))))
  · exact Or.inr (Or.inr (Or.inr (Or.inr (Or.inr (Or.inr (Or.inr (Or.inr (Or.inr (Or.inl ⟨rfl, by simp [monthStart], hdays9⟩)))))))))
  · exact Or.inr (Or.inr (Or.inr (Or.inr (Or.inr (Or.inr (Or.inr (Or.inr (Or.inr (Or.inr (Or.inl ⟨rfl, by simp [monthStart], hdays10⟩))))))))))
  · exact Or.inr (Or.inr (Or.inr (Or.inr (Or.inr (Or.inr (Or.inr (Or.inr (Or.inr (Or.inr (Or.inr (⟨rfl, by simp [monthStart], hdays11⟩)))))))))))

theorem makeDay_of_month (y m dt : Int) (h0 : 0 ≤ m) (h11 : m ≤ 11) :
    makeDay y m dt = dayFromYear y + monthStart m (inLeapYear y) + dt - 1 := by
  have hq : m / 12 = 0 := by omega
  have hr : m % 12 = m := by omega
  unfold makeDay
  simp only [hq, hr, add_zero]

/-- The day number that `MakeDay` gives to a date of the calendar reads back,
through `YearFromTime`, `MonthFromTime` and `DateFromTime`, as that date. -/
theorem civil_roundtrip (y m dt : Int) (h0 : 0 ≤ m) (h11 : m ≤ 11)
    (h1 : 1 ≤ dt) (h2 : dt ≤ daysInMonth y m) :
    yearFromDay (makeDay y m dt) = y ∧ monthFromDay (makeDay y m dt) = m ∧
      dateFromDay (makeDay y m dt) = dt := by
  have hD := makeDay_of_month y m dt h0 h11
  have ht := month_table y m h0 h11
  have hl := inLeapYear_cases y
  have hsucc : dayFromYear (y + 1) = dayFromYear y + (365 + inLeapYear y) := by
    rw [dayFromYear_succ, daysInYear_eq]
  generalize hS : monthStart m (inLeapYear y) = S at hD ht
  generalize hL : daysInMonth y m = L at h2 ht
  generalize hleap : inLeapYear y = leap at hD ht hl hsucc hS
  generalize hdy : dayFromYear y = dy at hD hsucc
  have hy : yearFromDay (makeDay y m dt) = y := by
    apply yearFromDay_unique
    · rw [hdy]; omega
    · rw [hsucc]; omega
  have hw : dayWithinYear (makeDay y m dt) = S + dt - 1 := by
    unfold dayWithinYear
    rw [hy, hdy]
    omega
  have hc := monthFromDay_cases (makeDay y m dt)
  rw [hy, hleap, hw] at hc
  have hm : monthFromDay (makeDay y m dt) = m := by
    generalize monthFromDay (makeDay y m dt) = m' at hc
    omega
  refine ⟨hy, hm, ?_⟩
  unfold dateFromDay
  rw [hm, hy, hw, hleap, hS]
  omega

theorem makeDay_last_of_month (y m : Int) (h0 : 0 ≤ m) (h11 : m ≤ 11) :
    makeDay y (m + 1) 0 = makeDay y m (daysInMonth y m) := by
  rw [makeDay_of_month y m _ h0 h11]
  by_cases hlast : m = 11
  · subst hlast
    have ht := month_table y 11 (by decide) (by decide)
    have hsucc : dayFromYear (y + 1) = dayFromYear y + (365 + inLeapYear y) := by
      rw [dayFromYear_succ, daysInYear_eq]
    have hms : monthStart 0 (inLeapYear (y + 1)) = 0 := by simp [monthStart]
    unfold makeDay
    have hq : ((11 : Int) + 1) / 12 = 1 := by decide
    have hr : ((11 : Int) + 1) % 12 = 0 := by decide
    simp only [hq, hr, hms, hsucc]
    generalize monthStart 11 (inLeapYear y) = S at ht
    generalize daysInMonth y 11 = L at ht
    omega
  · have hm1 : m + 1 ≤ 11 := by omega
    rw [makeDay_of_month y (m + 1) _ (by omega) hm1]
    have ht := month_table y m h0 h11
    have ht' := month_table y (m + 1) (by omega) hm1
    generalize monthStart m (inLeapYear y) = S at ht
    generalize monthStart (m + 1) (inLeapYear y) = S' at ht'
    generalize daysInMonth y m = L at ht
    generalize daysInMonth y (m + 1) = L' at ht'
    omega

theorem daysInMonth_bounds (y m : Int) : 28 ≤ daysInMonth y m ∧ daysInMonth y m ≤ 31 := by
  unfold daysInMonth
  split_ifs <;> omega

theorem weekDay_bounds (d : Int) : 0 ≤ weekDay d ∧ weekDay d ≤ 6 := by
  unfold weekDay
  omega

theorem day_local (tza D : Int) : day (D * msPerDay - tza + tza) = D := by
  unfold day msPerDay
  omega


/-! ## The month grid -/

theorem constructorYear_idem (year : Int) :
    constructorYear (constructorYear year) = constructorYear year := by
  unfold constructorYear
  by_cases h : 0 ≤ year ∧ year ≤ 99
  · have h' : ¬ (0 ≤ 1900 + year ∧ 1900 + year ≤ 99) := by omega
    simp [h, h']
  · simp [h]

theorem ofLocal_constructorYear (tza year month date : Int) :
    JSDate.ofLocal tza year month date
      = { t := makeDay (constructorYear year) month date * msPerDay - tza } := rfl

theorem ofLocal_two_digit_year (tza year month date : Int) :
    JSDate.ofLocal tza (constructorYear year) month date = JSDate.ofLocal tza year month date := by
  rw [ofLocal_constructorYear, ofLocal_constructorYear, constructorYear_idem]

theorem getDaysInMonth_eq (tza year month : Int) (h0 : 0 ≤ month) (h11 : month ≤ 11) :
    getDaysInMonth tza year month = daysInMonth (constructorYear year) month := by
  unfold getDaysInMonth JSDate.getDate
  rw [ofLocal_constructorYear]
  simp only []
  rw [day_local, makeDay_last_of_month _ month h0 h11]
  have hb := daysInMonth_bounds (constructorYear year) month
  exact (civil_roundtrip _ month _ h0 h11 (by omega) (le_refl _)).2.2

theorem getDay_calendarDate (tza year month date : Int) :
    (calendarDate tza year month date).getDay tza
      = weekdayOf (constructorYear year) month date := by
  unfold calendarDate JSDate.getDay weekdayOf
  rw [ofLocal_constructorYear]
  simp only []
  rw [day_local]

theorem getFirstDayOfMonth_eq (tza year month : Int) :
    getFirstDayOfMonth tza year month = weekdayOf (constructorYear year) month 1 :=
  getDay_calendarDate tza year month 1

theorem weekdayOf_shift (year month : Int) (d : Nat) (h0 : 0 ≤ month) (h11 : month ≤ 11)
    (hd : 1 ≤ d) :
    (((weekdayOf year month 1).toNat + d - 1 : Nat) : Int) % 7 = weekdayOf year month d := by
  unfold weekdayOf
  rw [makeDay_of_month year month 1 h0 h11, makeDay_of_month year month d h0 h11]
  unfold weekDay
  generalize dayFromYear year + monthStart month (inLeapYear year) = D
  omega

/-- C29, refuted as stated: for the year 0 and February the grid has four empty
cells and 28 days, 32 cells in all (`new Date(0, 1, 1)` is a day of 1900),
while February of the year 0 has 29 days by the Gregorian rule and its first
day is a Tuesday (2). -/
theorem generateCalendarDays_two_digit_year :
    (generateCalendarDays 0
      { currentMonth := 1, currentYear := 0, selectedDate := none, selectedCourt := none
        selectedTimeSlot := none, bookingMessage := "" }).length = 32 ∧
    getFirstDayOfMonth 0 0 1 = 4 ∧ getDaysInMonth 0 0 1 = 28 ∧
    weekdayOf 0 1 1 = 2 ∧ daysInMonth 0 1 = 29 := by
  decide

/-- C29, as amended: for every year that `Date` can hold and every month from 0
to 11, `generateCalendarDays` returns `firstDay` empty cells followed by one
cell for each day 1..`numDays` in increasing order, where `firstDay`
(0 = Sunday .. 6) is the weekday of the 1st and `numDays` the Gregorian length
(28..31) of that month in the year as the `Date` constructor reads it: the
year itself outside 0..99, and 1900 + year for a year from 0 to 99, whose grid
is the grid of that month of 1900 + year. The list has `firstDay + numDays`
cells, and the cell of day `d`, at index `firstDay + d - 1`, has an index that
is, modulo 7, the weekday of the date it selects. -/
theorem generateCalendarDays_grid (tza : Int) (st : CalendarState)
    (_hrange : -271820 ≤ st.currentYear ∧ st.currentYear ≤ 275759)
    (h0 : 0 ≤ st.currentMonth) (h11 : st.currentMonth ≤ 11) :
    generateCalendarDays tza st
      = (List.range (weekdayOf (constructorYear st.currentYear) st.currentMonth 1).toNat).map
          (fun i => CalendarCell.empty i)
        ++ (List.range' 1 (daysInMonth (constructorYear st.currentYear) st.currentMonth).toNat).map
          (fun i => CalendarCell.day i (calendarDate tza st.currentYear st.currentMonth i)) ∧
    (0 ≤ weekdayOf (constructorYear st.currentYear) st.currentMonth 1
      ∧ weekdayOf (constructorYear st.currentYear) st.currentMonth 1 ≤ 6) ∧
    (28 ≤ daysInMonth (constructorYear st.currentYear) st.currentMonth
      ∧ daysInMonth (constructorYear st.currentYear) st.currentMonth ≤ 31) ∧
    (generateCalendarDays tza st).length
      = (weekdayOf (constructorYear st.currentYear) st.currentMonth 1).toNat
        + (daysInMonth (constructorYear st.currentYear) st.currentMonth).toNat ∧
    (∀ d : Nat, 1 ≤ d →
      (d : Int) ≤ daysInMonth (constructorYear st.currentYear) st.currentMonth →
      (generateCalendarDays tza st)[
          (weekdayOf (constructorYear st.currentYear) st.currentMonth 1).toNat + d - 1]?
        = some (CalendarCell.day d (calendarDate tza st.currentYear st.currentMonth d)) ∧
      (((weekdayOf (constructorYear st.currentYear) st.currentMonth 1).toNat + d - 1 : Nat) : Int)
          % 7
        = (calendarDate tza st.currentYear st.currentMonth d).getDay tza ∧
      (calendarDate tza st.currentYear st.currentMonth d).getDay tza
        = weekdayOf (constructorYear st.currentYear) st.currentMonth d) ∧
    (¬ (0 ≤ st.currentYear ∧ st.currentYear ≤ 99) →
      constructorYear st.currentYear = st.currentYear) ∧
    (0 ≤ st.currentYear ∧ st.currentYear ≤ 99 →
      constructorYear st.currentYear = 1900 + st.currentYear ∧
      generateCalendarDays tza st
        = generateCalendarDays tza { st with currentYear := 1900 + st.currentYear }) := by
  have hgrid : generateCalendarDays tza st
      = (List.range (weekdayOf (constructorYear st.currentYear) st.currentMonth 1).toNat).map
          (fun i => CalendarCell.empty i)
        ++ (List.range' 1 (daysInMonth (constructorYear st.currentYear) st.currentMonth).toNat).map
          (fun i => CalendarCell.day i (calendarDate tza st.currentYear st.currentMonth i)) := by
    unfold generateCalendarDays
    simp only []
    rw [getDaysInMonth_eq tza _ _ h0 h11, getFirstDayOfMonth_eq tza]
  refine ⟨hgrid, weekDay_bounds _, daysInMonth_bounds _ _, ?_, ?_, ?_, ?_⟩
  · rw [hgrid]
    simp
  · intro d hd1 hd2
    refine ⟨?_, ?_, getDay_calendarDate tza _ _ _⟩
    · rw [hgrid]
      have hlen : ((List.range
          (weekdayOf (constructorYear st.currentYear) st.currentMonth 1).toNat).map
            (fun i => CalendarCell.empty i)).length
              = (weekdayOf (constructorYear st.currentYear) st.currentMonth 1).toNat := by simp
      rw [List.getElem?_append_right (by rw [hlen]; omega), hlen, List.getElem?_map]
      have hidx : (weekdayOf (constructorYear st.currentYear) st.currentMonth 1).toNat + d - 1
          - (weekdayOf (constructorYear st.currentYear) st.currentMonth 1).toNat = d - 1 := by
        omega
      rw [hidx]
      have hlt : d - 1
          < (daysInMonth (constructorYear st.currentYear) st.currentMonth).toNat := by omega
      rw [List.getElem?_range' _ _ hlt]
      have hd : 1 + 1 * (d - 1) = d := by omega
      simp only [Option.map_some', hd]
    · rw [getDay_calendarDate tza]
      exact weekdayOf_shift _ _ d h0 h11 hd1
  · intro hy
    unfold constructorYear
    rw [if_neg hy]
  · intro hy
    have hc : constructorYear st.currentYear = 1900 + st.currentYear := by
      unfold constructorYear
      rw [if_pos hy]
    refine ⟨hc, ?_⟩
    unfold generateCalendarDays getDaysInMonth getFirstDayOfMonth calendarDate
    simp only []
    rw [← hc]
    simp only [ofLocal_two_digit_year]

/-- Witness of C29 as amended: November 2026 starts on a Sunday and has 30 days;
the cell of the 4th is at index 3, a Wednesday. -/
theorem generateCalendarDays_grid_witness :
    (generateCalendarDays 0
        { currentMonth := 10, currentYear := 2026, selectedDate := none, selectedCourt := none
          selectedTimeSlot := none, bookingMessage := "" })[
        (weekdayOf (constructorYear 2026) 10 1).toNat + 4 - 1]?
      = some (CalendarCell.day 4 (calendarDate 0 2026 10 (4 : Nat))) ∧
    (((weekdayOf (constructorYear 2026) 10 1).toNat + 4 - 1 : Nat) : Int) % 7
      = (calendarDate 0 2026 10 (4 : Nat)).getDay 0 ∧
    (calendarDate 0 2026 10 (4 : Nat)).getDay 0 = weekdayOf (constructorYear 2026) 10 (4 : Nat) :=
  (generateCalendarDays_grid 0
    { currentMonth := 10, currentYear := 2026, selectedDate := none, selectedCourt := none
      selectedTimeSlot := none, bookingMessage := "" }
    (by decide) (by decide) (by decide)).2.2.2.2.1 4 (by decide) (by decide)

/-! ## The shape of the timestamp sent -/

theorem digitChar_isDigit (n : Nat) (h : n < 10) : (Nat.digitChar n).isDigit = true := by
  interval_cases n <;> decide

theorem toDigitsCore_isDigit (fuel : Nat) :
    ∀ (n : Nat) (ds : List Char), (∀ c ∈ ds, c.isDigit = true) →
      ∀ c ∈ Nat.toDigitsCore 10 fuel n ds, c.isDigit = true := by
  induction fuel with
  | zero =>
    intro n ds hds c hc
    exact hds c hc
  | succ fuel ih =>
    intro n ds hds c hc
    have hd : (Nat.digitChar (n % 10)).isDigit = true :=
      digitChar_isDigit _ (Nat.mod_lt _ (by decide))
    have hds' : ∀ c ∈ Nat.digitChar (n % 10) :: ds, c.isDigit = true := by
      intro c hc
      rcases List.mem_cons.mp hc with rfl | h
      · exact hd
      · exact hds c h
    unfold Nat.toDigitsCore at hc
    by_cases hz : n / 10 = 0
    · simp only [hz, if_true] at hc
      exact hds' c hc
    · simp only [hz, if_false] at hc
      exact ih _ _ hds' c hc

theorem natToString_isDigit (n : Nat) : ∀ c ∈ (natToString n).data, c.isDigit = true := by
  intro c hc
  exact toDigitsCore_isDigit _ n [] (by simp) c hc

theorem natToString_length_le (n e : Nat) (he : 0 < e) (hn : n < 10 ^ e) :
    (natToString n).data.length ≤ e :=
  Nat.repr_length n e he hn

theorem padStart_data (s : String) (k : Nat) (c : Char) :
    (padStart s k c).data = List.replicate (k - s.data.length) c ++ s.data := by
  unfold padStart
  rw [String.data_append]
  rfl

theorem followsPattern_append (p₁ p₂ s₁ s₂ : List Char)
    (h₁ : followsPattern p₁ s₁ = true) (h₂ : followsPattern p₂ s₂ = true) :
    followsPattern (p₁ ++ p₂) (s₁ ++ s₂) = true := by
  induction p₁ generalizing s₁ with
  | nil =>
    cases s₁ with
    | nil => simpa using h₂
    | cons c cs => simp [followsPattern] at h₁
  | cons p ps ih =>
    cases s₁ with
    | nil => simp [followsPattern] at h₁
    | cons c cs =>
      simp only [followsPattern, Bool.and_eq_true] at h₁
      simp only [List.cons_append, followsPattern, Bool.and_eq_true]
      exact ⟨h₁.1, ih cs h₁.2⟩

theorem followsPattern_digits (s : List Char) (h : ∀ c ∈ s, c.isDigit = true) :
    followsPattern (List.replicate s.length 'd') s = true := by
  induction s with
  | nil => rfl
  | cons c cs ih =>
    simp only [List.length_cons, List.replicate_succ, followsPattern, if_true, Bool.and_eq_true]
    exact ⟨h c (List.mem_cons_self c cs), ih (fun x hx => h x (List.mem_cons_of_mem c hx))⟩

/-- A number below `10 ^ k`, written and padded with `0` to `k` places, is `k`
digits. -/
theorem padStart_digits (n k : Nat) (hk : 0 < k) (hn : n < 10 ^ k) :
    followsPattern (List.replicate k 'd') (padStart (natToString n) k '0').data = true := by
  have hlen := natToString_length_le n k hk hn
  have hdig : ∀ c ∈ (padStart (natToString n) k '0').data, c.isDigit = true := by
    intro c hc
    rw [padStart_data, List.mem_append] at hc
    rcases hc with h | h
    · rw [List.eq_of_mem_replicate h]
      decide
    · exact natToString_isDigit n c h
  have hl : (padStart (natToString n) k '0').data.length = k := by
    rw [padStart_data, List.length_append, List.length_replicate]
    omega
  have := followsPattern_digits _ hdig
  rwa [hl] at this

theorem followsPattern_no_T (p s : List Char) (h : followsPattern p s = true)
    (hp : 'T' ∉ p) : 'T' ∉ s := by
  induction p generalizing s with
  | nil =>
    cases s with
    | nil => simp
    | cons c cs => simp [followsPattern] at h
  | cons q qs ih =>
    cases s with
    | nil => simp
    | cons c cs =>
      simp only [followsPattern, Bool.and_eq_true] at h
      have hq : 'T' ≠ q := fun e => hp (e ▸ List.mem_cons_self q qs)
      have hqs : 'T' ∉ qs := fun e => hp (List.mem_cons_of_mem q e)
      intro hmem
      rcases List.mem_cons.mp hmem with hc | hc
      · by_cases hd : q = 'd'
        · simp only [hd, if_true] at h
          rw [← hc] at h
          exact absurd h.1 (by decide)
        · simp only [hd, if_false, beq_iff_eq] at h
          exact hq (hc.trans h.1)
      · exact ih cs h.2 hqs hc

theorem splitGo_T (pre rest acc : List Char) (hpre : 'T' ∉ pre) :
    splitGo ['T'] (pre ++ 'T' :: rest) 0 acc
      = (acc.reverse ++ pre) :: splitGo ['T'] rest 0 [] := by
  induction pre generalizing acc with
  | nil =>
    simp [splitGo, List.isPrefixOf]
  | cons c cs ih =>
    have hc : c ≠ 'T' := fun e => hpre (e ▸ List.mem_cons_self c cs)
    have hcs : 'T' ∉ cs := fun e => hpre (List.mem_cons_of_mem c e)
    have hb : ('T' == c) = false := by
      simpa using fun e : 'T' = c => hc e.symm
    simp only [List.cons_append, splitGo, List.isPrefixOf, hb, Bool.false_and]
    show splitGo ['T'] (cs ++ 'T' :: rest) 0 (c :: acc) = _
    rw [ih _ hcs]
    simp


theorem toISOString_data (date : JSDate) :
    ∃ rest : List Char,
      date.toISOString.data
        = ((isoYear (yearFromDay (day date.t))).data ++ '-' ::
            ((pad2 (monthFromDay (day date.t) + 1)).data ++ '-' ::
              (pad2 (dateFromDay (day date.t))).data)) ++ 'T' :: rest := by
  unfold JSDate.toISOString
  simp only [String.data_append]
  exact ⟨_, by simp [List.append_assoc]; rfl⟩

theorem pad2_digits (n : Int) (h0 : 0 ≤ n) (h : n < 100) :
    followsPattern ['d', 'd'] (pad2 n).data = true := by
  unfold pad2
  exact padStart_digits n.toNat 2 (by decide) (by omega)

theorem isoYear_digits (y : Int) (h0 : 0 ≤ y) (h : y ≤ 9999) :
    followsPattern ['d', 'd', 'd', 'd'] (isoYear y).data = true := by
  unfold isoYear
  rw [if_pos ⟨h0, h⟩]
  exact padStart_digits y.toNat 4 (by decide) (by omega)

/-- The date part of a `Date` whose UTC year has four digits is `YYYY-MM-DD`. -/
theorem datePart_shape (date : JSDate)
    (h0 : 0 ≤ yearFromDay (day date.t)) (h : yearFromDay (day date.t) ≤ 9999) :
    followsPattern "dddd-dd-dd".data (datePart date).data = true := by
  obtain ⟨rest, hiso⟩ := toISOString_data date
  have hm := monthFromDay_bounds (day date.t)
  have hd := dateFromDay_bounds (day date.t)
  have hA : followsPattern "dddd-dd-dd".data
      ((isoYear (yearFromDay (day date.t))).data ++ '-' ::
        ((pad2 (monthFromDay (day date.t) + 1)).data ++ '-' ::
          (pad2 (dateFromDay (day date.t))).data)) = true := by
    have e : "dddd-dd-dd".data = ['d', 'd', 'd', 'd'] ++ '-' :: (['d', 'd'] ++ '-' :: ['d', 'd']) := by
      decide
    rw [e]
    apply followsPattern_append _ _ _ _ (isoYear_digits _ h0 h)
    have hdash : ∀ p s : List Char, followsPattern p s = true →
        followsPattern ('-' :: p) ('-' :: s) = true := by
      intro p s hps
      simp [followsPattern, hps]
    apply hdash
    apply followsPattern_append _ _ _ _ (pad2_digits _ (by omega) (by omega))
    apply hdash
    exact pad2_digits _ (by omega) (by omega)
  have hT : 'T' ∉ (isoYear (yearFromDay (day date.t))).data ++ '-' ::
      ((pad2 (monthFromDay (day date.t) + 1)).data ++ '-' ::
        (pad2 (dateFromDay (day date.t))).data) :=
    followsPattern_no_T _ _ hA (by decide)
  have hdp : (datePart date).data
      = (isoYear (yearFromDay (day date.t))).data ++ '-' ::
        ((pad2 (monthFromDay (day date.t) + 1)).data ++ '-' ::
          (pad2 (dateFromDay (day date.t))).data) := by
    unfold datePart jsSplit
    have hsep : ("T" : String).data = ['T'] := rfl
    rw [hiso, hsep, splitGo_T _ _ _ hT]
    simp
  rw [hdp]
  exact hA

theorem timePart_slots :
    generateTimeSlots.map timePart = (List.range' 9 13).map hourLabel := by
  decide

theorem timePart_pattern :
    ∀ s ∈ generateTimeSlots, followsPattern "dd:dd".data (timePart s).data = true := by
  decide

theorem padStart_isDigit (n k : Nat) :
    ∀ c ∈ (padStart (natToString n) k '0').data, c.isDigit = true := by
  intro c hc
  rw [padStart_data, List.mem_append] at hc
  rcases hc with h | h
  · rw [List.eq_of_mem_replicate h]
    decide
  · exact natToString_isDigit n c h

theorem isoYear_chars (y : Int) :
    ∀ c ∈ (isoYear y).data, c.isDigit = true ∨ c = '+' ∨ c = '-' := by
  intro c hc
  unfold isoYear at hc
  by_cases hr : 0 ≤ y ∧ y ≤ 9999
  · rw [if_pos hr] at hc
    exact Or.inl (padStart_isDigit _ _ c hc)
  · rw [if_neg hr, String.data_append, List.mem_append] at hc
    rcases hc with h | h
    · by_cases hneg : y < 0
      · rw [if_pos hneg] at h
        have : c = '-' := by simpa using h
        exact Or.inr (Or.inr this)
      · rw [if_neg hneg] at h
        have : c = '+' := by simpa using h
        exact Or.inr (Or.inl this)
    · exact Or.inl (padStart_isDigit _ _ c h)

/-- Outside 0..9999 the year field of `toISOString` starts with a sign. -/
theorem isoYear_sign (y : Int) (hr : ¬ (0 ≤ y ∧ y ≤ 9999)) :
    ∃ c rest, (isoYear y).data = c :: rest ∧ c.isDigit = false := by
  unfold isoYear
  rw [if_neg hr, String.data_append]
  by_cases hneg : y < 0
  · rw [if_pos hneg]
    exact ⟨'-', _, rfl, by decide⟩
  · rw [if_neg hneg]
    exact ⟨'+', _, rfl, by decide⟩

/-- The date part cut out by `split('T')[0]` is, for every `Date`, the year,
month and day fields of `toISOString` with `-` between them. -/
theorem datePart_data (date : JSDate) :
    (datePart date).data
      = (isoYear (yearFromDay (day date.t))).data ++ '-' ::
        ((pad2 (monthFromDay (day date.t) + 1)).data ++ '-' ::
          (pad2 (dateFromDay (day date.t))).data) := by
  obtain ⟨rest, hiso⟩ := toISOString_data date
  have hT : 'T' ∉ (isoYear (yearFromDay (day date.t))).data ++ '-' ::
      ((pad2 (monthFromDay (day date.t) + 1)).data ++ '-' ::
        (pad2 (dateFromDay (day date.t))).data) := by
    intro hmem
    have hnd : ('T' : Char).isDigit = false := by decide
    rcases List.mem_append.mp hmem with h | h
    · rcases isoYear_chars _ _ h with h' | h' | h'
      · rw [hnd] at h'
        exact Bool.noConfusion h'
      · exact absurd h' (by decide)
      · exact absurd h' (by decide)
    · rcases List.mem_cons.mp h with h | h
      · exact absurd h (by decide)
      · rcases List.mem_append.mp h with h | h
        · have := padStart_isDigit _ _ _ h
          rw [hnd] at this
          exact Bool.noConfusion this
        · rcases List.mem_cons.mp h with h | h
          · exact absurd h (by decide)
          · have := padStart_isDigit _ _ _ h
            rw [hnd] at this
            exact Bool.noConfusion this
  unfold datePart jsSplit
  have hsep : ("T" : String).data = ['T'] := rfl
  rw [hiso, hsep, splitGo_T _ _ _ hT]
  simp

theorem timePart_of_slot (slot : String) (hs : slot ∈ generateTimeSlots) :
    ∃ h : Nat, 9 ≤ h ∧ h ≤ 21 ∧ timePart slot = hourLabel h := by
  have hmem : timePart slot ∈ generateTimeSlots.map timePart := List.mem_map_of_mem _ hs
  rw [timePart_slots, List.mem_map] at hmem
  obtain ⟨h, hh, he⟩ := hmem
  rw [List.mem_range'_1] at hh
  exact ⟨h, hh.1, by omega, he.symm⟩

theorem slots_nonempty : ∀ s ∈ generateTimeSlots, s ≠ "" := by
  decide

theorem hourLabel_pattern :
    ∀ h ∈ List.range' 9 13, followsPattern "dd:dd".data (hourLabel h).data = true := by
  decide

/-- The value `date part`, `T`, `HH:00`, `:00` has the shape
`YYYY-MM-DDTHH:MM:00` exactly when the year, as `toISOString` writes it, has
four digits. -/
theorem timestamp_shape_iff (date : JSDate) (h : Nat) (h9 : 9 ≤ h) (h21 : h ≤ 21) :
    hasTimestampShape (datePart date ++ "T" ++ hourLabel h ++ ":00") = true
      ↔ (0 ≤ yearFromDay (day date.t) ∧ yearFromDay (day date.t) ≤ 9999) := by
  have e2 : (datePart date ++ "T" ++ hourLabel h ++ ":00").data
      = (datePart date).data ++ ('T' :: ((hourLabel h).data ++ [':', '0', '0'])) := by
    simp only [String.data_append]
    simp [List.append_assoc]
  unfold hasTimestampShape
  rw [e2]
  constructor
  · intro hshape
    by_contra hr
    obtain ⟨c, rest, hc, hnd⟩ := isoYear_sign _ hr
    rw [datePart_data, hc] at hshape
    have e : "dddd-dd-ddTdd:dd:00".data = 'd' :: "ddd-dd-ddTdd:dd:00".data := by decide
    rw [e] at hshape
    simp only [List.cons_append, followsPattern, if_true, Bool.and_eq_true] at hshape
    rw [hnd] at hshape
    exact Bool.noConfusion hshape.1
  · rintro ⟨h0, hle⟩
    have hdp := datePart_shape date h0 hle
    have htp := hourLabel_pattern h (List.mem_range'_1.mpr ⟨h9, by omega⟩)
    have e : "dddd-dd-ddTdd:dd:00".data
        = "dddd-dd-dd".data ++ ('T' :: ("dd:dd".data ++ [':', '0', '0'])) := by decide
    rw [e]
    apply followsPattern_append _ _ _ _ hdp
    have htail : followsPattern [':', '0', '0'] [':', '0', '0'] = true := by decide
    have := followsPattern_append _ _ _ _ htp htail
    simp only [followsPattern, Bool.and_eq_true]
    exact ⟨by decide, this⟩

/-- C25, refuted as stated: in UTC the user selects 1 January 10000
(`new Date(10000, 0, 1)`) and the slot `09:00 - 10:00` of `generateTimeSlots`;
`handleBookCourt` sends the `date_time` `+010000-01-01T09:00:00`, which does
not have the shape `YYYY-MM-DDTHH:MM:00`. -/
theorem handleBookCourt_date_time_five_digit_year :
    "09:00 - 10:00" ∈ generateTimeSlots ∧
    ((handleBookCourt "u1" (fun _ => "") (fun _ => none)
        { currentMonth := 0, currentYear := 10000
          selectedDate := some (calendarDate 0 10000 0 1)
          selectedCourt := some "Court 1 (Badminton)", selectedTimeSlot := some "09:00 - 10:00"
          bookingMessage := "" }).2.map fun call => call.rows.map fun row => row.date_time)
      = [["+010000-01-01T09:00:00"]] ∧
    hasTimestampShape "+010000-01-01T09:00:00" = false ∧
    hasTimestampShape "2025-08-10T09:00:00" = true := by
  decide

/-- C25, as amended: for every slot of `generateTimeSlots` the start time that
`handleBookCourt` cuts out with `split(' - ')[0]` is the start label `HH:00` of
the slot, `HH` from 09 to 21, and the `date_time` of the one row it sends is
the date part, `T` and `HH:00:00`; this value has the shape
`YYYY-MM-DDTHH:MM:00` exactly when the selected date's year, as `toISOString`
writes it, lies in 0..9999 (outside it the value starts with a sign). -/
theorem handleBookCourt_date_time (userId : String) (formatDisplay : JSDate → String)
    (store : InsertCall → Option String) (st : CalendarState)
    (date : JSDate) (court slot : String)
    (hdate : st.selectedDate = some date) (hcourt : st.selectedCourt = some court)
    (hc : court ≠ "") (hslot : st.selectedTimeSlot = some slot)
    (hs : slot ∈ generateTimeSlots) :
    (List.range' 9 13).map hourLabel
      = ["09:00", "10:00", "11:00", "12:00", "13:00", "14:00", "15:00", "16:00", "17:00",
         "18:00", "19:00", "20:00", "21:00"] ∧
    ∃ h : Nat, 9 ≤ h ∧ h ≤ 21 ∧ timePart slot = hourLabel h ∧ slotStart slot = hourLabel h ∧
      ((handleBookCourt userId formatDisplay store st).2.map
          fun call => call.rows.map fun row => row.date_time)
        = [[datePart date ++ "T" ++ hourLabel h ++ ":00"]] ∧
      (hasTimestampShape (datePart date ++ "T" ++ hourLabel h ++ ":00") = true
        ↔ (0 ≤ yearFromDay (day date.t) ∧ yearFromDay (day date.t) ≤ 9999)) := by
  refine ⟨by decide, ?_⟩
  obtain ⟨h, h9, h21, htime⟩ := timePart_of_slot slot hs
  refine ⟨h, h9, h21, htime, htime, ?_, timestamp_shape_iff date h h9 h21⟩
  have hne := slots_nonempty slot hs
  have ht : (truthyString (some court) && truthyString (some slot)) = true := by
    simp [truthyString, hc, hne]
  have hfull : fullDateTime date slot = datePart date ++ "T" ++ hourLabel h ++ ":00" := by
    unfold fullDateTime
    rw [htime]
  unfold handleBookCourt
  simp only [hdate, hcourt, hslot, ht, if_true, Option.getD_some, hfull]
  split <;> rfl

/-- Witness of C25 as amended: court 1 at `09:00 - 10:00` on 10 August 2025. -/
theorem handleBookCourt_date_time_witness :
    "09:00 - 10:00" ∈ generateTimeSlots ∧
    ∃ h : Nat, 9 ≤ h ∧ h ≤ 21 ∧ timePart "09:00 - 10:00" = hourLabel h ∧
      slotStart "09:00 - 10:00" = hourLabel h ∧
      ((handleBookCourt "u1" (fun _ => "") (fun _ => none)
          { currentMonth := 7, currentYear := 2025
            selectedDate := some (calendarDate 0 2025 7 10)
            selectedCourt := some "Court 1 (Badminton)"
            selectedTimeSlot := some "09:00 - 10:00"
            bookingMessage := "" }).2.map
          fun call => call.rows.map fun row => row.date_time)
        = [[datePart (calendarDate 0 2025 7 10) ++ "T" ++ hourLabel h ++ ":00"]] ∧
      (hasTimestampShape (datePart (calendarDate 0 2025 7 10) ++ "T" ++ hourLabel h ++ ":00")
          = true
        ↔ (0 ≤ yearFromDay (day (calendarDate 0 2025 7 10).t)
            ∧ yearFromDay (day (calendarDate 0 2025 7 10).t) ≤ 9999)) :=
  ⟨by decide,
   (handleBookCourt_date_time "u1" (fun _ => "") (fun _ => none)
      { currentMonth := 7, currentYear := 2025
        selectedDate := some (calendarDate 0 2025 7 10)
        selectedCourt := some "Court 1 (Badminton)"
        selectedTimeSlot := some "09:00 - 10:00"
        bookingMessage := "" }
      (calendarDate 0 2025 7 10) "Court 1 (Badminton)" "09:00 - 10:00"
      rfl rfl (by decide) rfl (by decide)).2⟩


end Booking
